import Mathlib

/-!
# Labellerr MCP server: tool dispatch and session state

A shallow embedding of `src/index.js` (class `LabellerrMCPServer`) and
`src/labellerr-client.js` (class `LabellerrClient`).

* JavaScript values are the inductive type `JSValue`; a thrown exception is a
  `Thrown`, and code that may throw and that mutates state is a function
  `σ → Except Thrown α × σ` (`Eff`), so the state reached when an exception
  escapes is kept.
* Everything outside the program is read from an `Env`: the outcome of the
  i-th outbound HTTP request, the i-th reading of the wall clock, the files
  found in a folder, and the library conversions the program relies on.
* `await` is sequencing: one tool call runs to completion before the next.
-/

set_option autoImplicit false

namespace Labellerr

/-! ## JavaScript values -/

/-- A JavaScript number: a finite value (an exact rational, with `-0`
identified with `0`), `NaN`, or an infinity. -/
inductive JSNumber where
  | fin (q : ℚ)
  | nan
  | inf (negative : Bool)
  deriving DecidableEq

/-- A JavaScript value. `obj fields` is an object given by the assignments
that built it, in order: a property reads as the value of the last
assignment to its key. `isoTime ms` is the string
`new Date(ms).toISOString()`. -/
inductive JSValue where
  | undefined
  | null
  | bool (b : Bool)
  | num (n : JSNumber)
  | str (s : String)
  | isoTime (ms : Nat)
  | arr (items : List JSValue)
  | obj (fields : List (String × JSValue))

namespace JSValue

mutual
/-- Equality of values is decidable. -/
def decEq : (a b : JSValue) → Decidable (a = b)
  | .undefined, .undefined => isTrue rfl
  | .null, .null => isTrue rfl
  | .bool a, .bool b =>
    if h : a = b then isTrue (by rw [h]) else isFalse (by intro h2; cases h2; exact h rfl)
  | .num a, .num b =>
    if h : a = b then isTrue (by rw [h]) else isFalse (by intro h2; cases h2; exact h rfl)
  | .str a, .str b =>
    if h : a = b then isTrue (by rw [h]) else isFalse (by intro h2; cases h2; exact h rfl)
  | .isoTime a, .isoTime b =>
    if h : a = b then isTrue (by rw [h]) else isFalse (by intro h2; cases h2; exact h rfl)
  | .arr a, .arr b =>
    match decEqItems a b with
    | isTrue h => isTrue (by rw [h])
    | isFalse h => isFalse (by intro h2; cases h2; exact h rfl)
  | .obj a, .obj b =>
    match decEqFields a b with
    | isTrue h => isTrue (by rw [h])
    | isFalse h => isFalse (by intro h2; cases h2; exact h rfl)
  | .undefined, .null | .undefined, .bool _ | .undefined, .num _ | .undefined, .str _
  | .undefined, .isoTime _ | .undefined, .arr _ | .undefined, .obj _ =>
    isFalse (by intro h; cases h)
  | .null, .undefined | .null, .bool _ | .null, .num _ | .null, .str _
  | .null, .isoTime _ | .null, .arr _ | .null, .obj _ =>
    isFalse (by intro h; cases h)
  | .bool _, .undefined | .bool _, .null | .bool _, .num _ | .bool _, .str _
  | .bool _, .isoTime _ | .bool _, .arr _ | .bool _, .obj _ =>
    isFalse (by intro h; cases h)
  | .num _, .undefined | .num _, .null | .num _, .bool _ | .num _, .str _
  | .num _, .isoTime _ | .num _, .arr _ | .num _, .obj _ =>
    isFalse (by intro h; cases h)
  | .str _, .undefined | .str _, .null | .str _, .bool _ | .str _, .num _
  | .str _, .isoTime _ | .str _, .arr _ | .str _, .obj _ =>
    isFalse (by intro h; cases h)
  | .isoTime _, .undefined | .isoTime _, .null | .isoTime _, .bool _ | .isoTime _, .num _
  | .isoTime _, .str _ | .isoTime _, .arr _ | .isoTime _, .obj _ =>
    isFalse (by intro h; cases h)
  | .arr _, .undefined | .arr _, .null | .arr _, .bool _ | .arr _, .num _
  | .arr _, .str _ | .arr _, .isoTime _ | .arr _, .obj _ =>
    isFalse (by intro h; cases h)
  | .obj _, .undefined | .obj _, .null | .obj _, .bool _ | .obj _, .num _
  | .obj _, .str _ | .obj _, .isoTime _ | .obj _, .arr _ =>
    isFalse (by intro h; cases h)
/-- Equality of lists of values is decidable. -/
def decEqItems : (a b : List JSValue) → Decidable (a = b)
  | [], [] => isTrue rfl
  | [], _ :: _ => isFalse (by intro h; cases h)
  | _ :: _, [] => isFalse (by intro h; cases h)
  | x :: xs, y :: ys =>
    match decEq x y, decEqItems xs ys with
    | isTrue h1, isTrue h2 => isTrue (by rw [h1, h2])
    | isFalse h1, _ => isFalse (by intro h; cases h; exact h1 rfl)
    | _, isFalse h2 => isFalse (by intro h; cases h; exact h2 rfl)
/-- Equality of lists of assignments is decidable. -/
def decEqFields : (a b : List (String × JSValue)) → Decidable (a = b)
  | [], [] => isTrue rfl
  | [], _ :: _ => isFalse (by intro h; cases h)
  | _ :: _, [] => isFalse (by intro h; cases h)
  | (k1, x) :: xs, (k2, y) :: ys =>
    if hk : k1 = k2 then
      match decEq x y, decEqFields xs ys with
      | isTrue h1, isTrue h2 => isTrue (by rw [hk, h1, h2])
      | isFalse h1, _ => isFalse (by intro h; cases h; exact h1 rfl)
      | _, isFalse h2 => isFalse (by intro h; cases h; exact h2 rfl)
    else isFalse (by intro h; cases h; exact hk rfl)
end

instance : DecidableEq JSValue := decEq

/-- The number literal `n`. -/
def nat (n : Nat) : JSValue := num (.fin n)

/-- ToBoolean. -/
def truthy : JSValue → Bool
  | undefined => false
  | null => false
  | bool b => b
  | num (.fin q) => decide (q ≠ 0)
  | num .nan => false
  | num (.inf _) => true
  | str s => decide (s ≠ "")
  | isoTime _ => true
  | arr _ => true
  | obj _ => true

/-- The operator `a || b`, for an operand `b` whose evaluation has no effect. -/
def or (a b : JSValue) : JSValue := if a.truthy then a else b

/-- Whether the value is `undefined` or `null`. -/
def nullish : JSValue → Bool
  | undefined => true
  | null => true
  | _ => false

/-- Whether the value is a primitive (not an array or an object). -/
def isPrimitive : JSValue → Bool
  | arr _ => false
  | obj _ => false
  | _ => true

end JSValue

/-- The value a key reads as in an object built by the assignments `fields`. -/
def lookup (k : String) (fields : List (String × JSValue)) : JSValue :=
  fields.foldl (fun acc kv => if kv.1 = k then kv.2 else acc) .undefined

/-- Length of a string in UTF-16 code units. -/
def utf16Length (s : String) : Nat :=
  (s.data.map (fun c => if c.toNat < 65536 then 1 else 2)).sum

/-! ## Exceptions -/

/-- The error codes of the protocol that the server uses. -/
inductive ErrorCode where
  | MethodNotFound
  | InvalidRequest
  | InternalError
  deriving DecidableEq, Repr

/-- A thrown value: an `McpError` with the code and message given to its
constructor, an `Error` made by `new Error(message)`, or a `TypeError` raised
by the runtime (its text is the engine's; the wording used here is V8's and
nothing proved below depends on it). -/
inductive Thrown where
  | mcp (code : ErrorCode) (message : String)
  | error (message : String)
  | typeError (message : String)
  deriving DecidableEq, Repr

namespace Thrown

/-- The `message` property of the thrown value. -/
def message : Thrown → String
  | mcp _ m => m
  | error m => m
  | typeError m => m

/-- The test `error instanceof McpError`. -/
def isMcp : Thrown → Bool
  | mcp _ _ => true
  | _ => false

/-- The code of an `McpError`. -/
def code? : Thrown → Option ErrorCode
  | mcp c _ => some c
  | _ => none

end Thrown

/-- Equality of outcomes (a value or a thrown error) is decidable. -/
instance instDecidableEqOutcome {ε α : Type} [DecidableEq ε] [DecidableEq α] :
    DecidableEq (Except ε α)
  | .ok a, .ok b =>
    if h : a = b then isTrue (by rw [h]) else isFalse (by intro h2; cases h2; exact h rfl)
  | .error a, .error b =>
    if h : a = b then isTrue (by rw [h]) else isFalse (by intro h2; cases h2; exact h rfl)
  | .ok _, .error _ => isFalse (by intro h; cases h)
  | .error _, .ok _ => isFalse (by intro h; cases h)

/-- How a receiver that is `undefined` or `null` prints in a `TypeError`. -/
def nullishName : JSValue → String
  | .null => "null"
  | _ => "undefined"

/-- The member access `v.k` for a property name `k` that the program reads
(none of them is an array index or a method of a built-in prototype):
throws on `undefined` and `null`. -/
def getProp (v : JSValue) (k : String) : Except Thrown JSValue :=
  match v with
  | .undefined | .null =>
    .error (.typeError ("Cannot read properties of " ++ nullishName v ++ " (reading '" ++ k ++ "')"))
  | .obj fields => .ok (lookup k fields)
  | .arr items => .ok (if k = "length" then .nat items.length else .undefined)
  | .str s => .ok (if k = "length" then .nat (utf16Length s) else .undefined)
  | .isoTime ms => .ok (if k = "length" then .nat (if ms < 253402300800000 then 24 else 27) else .undefined)
  | _ => .ok .undefined

/-- The read of property `k` in a destructuring `const { k, ... } = source`,
which throws when the value destructured is `undefined` or `null`. -/
def destruct (v : JSValue) (k source : String) : Except Thrown JSValue :=
  match v with
  | .undefined | .null =>
    .error (.typeError ("Cannot destructure property '" ++ k ++ "' of '" ++ source ++
      "' as it is " ++ nullishName v ++ "."))
  | _ => getProp v k

/-- The optional member access `v?.k`. -/
def optProp (v : JSValue) (k : String) : JSValue :=
  match getProp v k with
  | .ok x => x
  | .error _ => .undefined

/-- The own enumerable properties copied by an object spread `...v`. The
program only spreads tool arguments and result objects. -/
def ownEntries : JSValue → List (String × JSValue)
  | .obj fields => fields
  | .arr items => items.enum.map (fun p => (toString p.1, p.2))
  | .str s => s.data.enum.map (fun p => (toString p.1, .str (String.singleton p.2)))
  | _ => []

/-- The values produced by iterating `v` (`for ... of`, array spread), or
`none` when `v` is not iterable. A string iterates by code point. -/
def elements : JSValue → Option (List JSValue)
  | .arr items => some items
  | .str s => some (s.data.map (fun c => .str (String.singleton c)))
  | _ => none

/-! ## Numbers -/

namespace JSNumber

/-- The operator `a + b` on numbers. -/
def add : JSNumber → JSNumber → JSNumber
  | fin a, fin b => fin (a + b)
  | nan, _ => nan
  | _, nan => nan
  | inf s, fin _ => inf s
  | fin _, inf s => inf s
  | inf s, inf t => if s = t then inf s else nan

/-- The operator `a * b` on numbers. -/
def mul : JSNumber → JSNumber → JSNumber
  | fin a, fin b => fin (a * b)
  | nan, _ => nan
  | _, nan => nan
  | inf s, fin b => if b = 0 then nan else inf (s != decide (b < 0))
  | fin a, inf s => if a = 0 then nan else inf (s != decide (a < 0))
  | inf s, inf t => inf (s != t)

/-- The operator `a / b` on numbers. -/
def div : JSNumber → JSNumber → JSNumber
  | fin a, fin b =>
    if b = 0 then (if a = 0 then nan else inf (decide (a < 0))) else fin (a / b)
  | nan, _ => nan
  | _, nan => nan
  | inf s, fin b => inf (s != decide (b < 0))
  | fin _, inf _ => fin 0
  | inf _, inf _ => nan

/-- The unary minus. -/
def neg : JSNumber → JSNumber
  | fin a => fin (-a)
  | nan => nan
  | inf s => inf (!s)

/-- The function `Math.round`: the nearest integer, halves rounded up. -/
def round : JSNumber → JSNumber
  | fin a => fin (⌊a + 1 / 2⌋ : ℤ)
  | nan => nan
  | inf s => inf s

end JSNumber

/-! ## The environment -/

/-- The outcome of one outbound HTTP request: `failure message` when `fetch`
or `response.json()` rejects with an error of that message, otherwise the
status of the response and its decoded JSON body. -/
inductive HttpOutcome where
  | failure (message : String)
  | response (status : Nat) (data : JSValue)
  deriving DecidableEq

/-- What the program reads from outside itself. -/
structure Env where
  /-- Outcome of the i-th outbound request of the process. -/
  http : Nat → HttpOutcome
  /-- The i-th reading of the wall clock, in milliseconds since the epoch. -/
  clock : Nat → Nat
  /-- Result of `getFilesInFolder(folderPath, dataType)`: the file-system
  scan, which catches its own errors and always returns a list of paths. -/
  filesInFolder : JSValue → JSValue → List String
  /-- Node's `path.basename` on a string. -/
  basename : String → String
  /-- The method `String.prototype.toLowerCase`. -/
  toLowerCase : String → String
  /-- ToString on a value that is not a string. -/
  toStringOf : JSValue → String
  /-- ToNumber on a string, an array or an object. -/
  toNumberOf : JSValue → JSNumber
  /-- The operator `+` when an operand is not a number. -/
  plusOf : JSValue → JSValue → JSValue
  /-- Node's description of an argument of the wrong type, as it ends the
  message of the error that rejects it. -/
  received : JSValue → String

/-- ToString. -/
def toStringJS (e : Env) : JSValue → String
  | .str s => s
  | v => e.toStringOf v

/-- ToNumber. -/
def toNumber (e : Env) : JSValue → JSNumber
  | .undefined => .nan
  | .null => .fin 0
  | .bool b => .fin (if b then 1 else 0)
  | .num n => n
  | v => e.toNumberOf v

/-- The operator `a + b`. -/
def jsAdd (e : Env) : JSValue → JSValue → JSValue
  | .num a, .num b => .num (a.add b)
  | a, b => e.plusOf a b

/-! ## Effects -/

/-- A computation over a state `σ` that returns a value or throws; the state
reached is returned in both cases. -/
def Eff (σ α : Type) : Type := σ → Except Thrown α × σ

namespace Eff

variable {σ α β : Type}

/-- Sequencing: the continuation runs only when the first part returns. -/
def bind (x : Eff σ α) (f : α → Eff σ β) : Eff σ β := fun s =>
  match x s with
  | (.ok a, s1) => f a s1
  | (.error t, s1) => (.error t, s1)

instance : Monad (Eff σ) where
  pure a := fun s => (.ok a, s)
  bind := Eff.bind

/-- The statement `throw t`. -/
def throw (t : Thrown) : Eff σ α := fun s => (.error t, s)

/-- An expression that may throw and touches no state. -/
def lift (x : Except Thrown α) : Eff σ α := fun s => (x, s)

/-- Run a computation from a state. -/
def run (x : Eff σ α) (s : σ) : Except Thrown α × σ := x s

end Eff

/-! ## The client (`labellerr-client.js`)

The state of a client computation is the number of outbound requests issued
so far by the process. A request is represented by its outcome: its URL,
headers and body do not influence what the client does with the response. -/

/-- The instance built by `new LabellerrClient(apiKey, apiSecret, clientId)`. -/
structure LabellerrClient where
  apiKey : String
  apiSecret : String
  clientId : String
  deriving DecidableEq, Repr

/-- The property `response.ok`: the status is in the range 200 to 299. -/
def responseOk (status : Nat) : Bool := decide (200 ≤ status ∧ status ≤ 299)

/-- The message of the `Error` thrown inside the `try` of `makeRequest` for a
response whose status is not ok: `data.message || "Request failed with status
..."`, or the `TypeError` of reading `message` from a `null` body. -/
def failureMessage (e : Env) (status : Nat) (data : JSValue) : String :=
  match getProp data "message" with
  | .error t => t.message
  | .ok m => if m.truthy then toStringJS e m else "Request failed with status " ++ toString status

/-- The method `makeRequest`: issues the next request; returns the decoded
body when the response is ok, and otherwise throws
`Error("API request failed: " + message)`. -/
def makeRequest (e : Env) : Eff Nat JSValue := fun n =>
  match e.http n with
  | .failure msg => (.error (.error ("API request failed: " ++ msg)), n + 1)
  | .response status data =>
    if responseOk status then (.ok data, n + 1)
    else (.error (.error ("API request failed: " ++ failureMessage e status data)), n + 1)

/-- The call `path.basename(v)`, which rejects a value that is not a string. -/
def basenameOf (e : Env) : JSValue → Except Thrown JSValue
  | .str s => .ok (.str (e.basename s))
  | v => .error (.typeError
      ("The \"path\" argument must be of type string. Received " ++ e.received v))

/-- The call `files.map(f => path.basename(f))`. -/
def mapBasename (e : Env) (files : JSValue) : Except Thrown JSValue :=
  match files with
  | .undefined | .null =>
    .error (.typeError ("Cannot read properties of " ++ nullishName files ++ " (reading 'map')"))
  | .arr items => (items.mapM (basenameOf e)).map .arr
  | _ => .error (.typeError "files.map is not a function")

/-- The method `uploadFiles`. -/
def uploadFiles (e : Env) (uploadConfig : JSValue) : Eff Nat JSValue := do
  let files ← Eff.lift (destruct uploadConfig "files" "uploadConfig")
  let fileNames ← Eff.lift (mapBasename e files)
  let result ← makeRequest e
  let response ← Eff.lift (getProp result "response")
  pure (.obj [("success", .bool true),
              ("connection_id", optProp response "temporary_connection_id"),
              ("uploaded_files", fileNames)])

/-- The method `uploadFolder`. -/
def uploadFolder (e : Env) (uploadConfig : JSValue) : Eff Nat JSValue := do
  let folder_path ← Eff.lift (destruct uploadConfig "folder_path" "uploadConfig")
  let data_type ← Eff.lift (getProp uploadConfig "data_type")
  let files := e.filesInFolder folder_path data_type
  uploadFiles e (.obj [("files", .arr (files.map .str)), ("data_type", data_type)])

/-- The method `createProject`. -/
def createProject (e : Env) (projectConfig : JSValue) : Eff Nat JSValue := do
  let files_to_upload ← Eff.lift (destruct projectConfig "files_to_upload" "projectConfig")
  let folder_to_upload ← Eff.lift (getProp projectConfig "folder_to_upload")
  if folder_to_upload.truthy then
    let data_type ← Eff.lift (getProp projectConfig "data_type")
    let _ ← uploadFolder e (.obj [("folder_path", folder_to_upload), ("data_type", data_type)])
  else if files_to_upload.truthy then
    let data_type ← Eff.lift (getProp projectConfig "data_type")
    let _ ← uploadFiles e (.obj [("files", files_to_upload), ("data_type", data_type)])
  let result ← makeRequest e
  let response ← Eff.lift (getProp result "response")
  let project_id := (optProp response "project_id").or (optProp result "project_id")
  pure (.obj [("success", .bool true),
              ("project_id", project_id),
              ("message", .str "Project created successfully"),
              ("details", result)])

/-- The method `getAllProjects`. -/
def getAllProjects (e : Env) : Eff Nat JSValue := do
  let result ← makeRequest e
  let response ← Eff.lift (getProp result "response")
  pure (.obj [("success", .bool true),
              ("projects", response.or (.arr [])),
              ("total", (optProp response "length").or (.nat 0))])

/-- The method `getProjectDetails`. -/
def getProjectDetails (e : Env) : Eff Nat JSValue := do
  let result ← makeRequest e
  let response ← Eff.lift (getProp result "response")
  pure (.obj [("success", .bool true), ("project", response.or result)])

/-- The method `updateRotationConfig`. -/
def updateRotationConfig (e : Env) : Eff Nat JSValue := do
  let result ← makeRequest e
  pure (.obj [("success", .bool true),
              ("message", .str "Rotation configuration updated"),
              ("details", result)])

/-- The method `createDataset`. -/
def createDataset (e : Env) : Eff Nat JSValue := do
  let result ← makeRequest e
  let response ← Eff.lift (getProp result "response")
  pure (.obj [("success", .bool true),
              ("dataset_id", optProp response "dataset_id"),
              ("message", .str "Dataset created successfully")])

/-- The method `getAllDatasets`. -/
def getAllDatasets (e : Env) : Eff Nat JSValue := do
  let result ← makeRequest e
  let response ← Eff.lift (getProp result "response")
  let linked := optProp response "linked"
  let unlinked := optProp response "unlinked"
  pure (.obj [("success", .bool true),
              ("linked", linked.or (.arr [])),
              ("unlinked", unlinked.or (.arr [])),
              ("total", jsAdd e ((optProp linked "length").or (.nat 0))
                                ((optProp unlinked "length").or (.nat 0)))])

/-- The method `getDataset`. -/
def getDataset (e : Env) : Eff Nat JSValue := do
  let result ← makeRequest e
  let response ← Eff.lift (getProp result "response")
  pure (.obj [("success", .bool true), ("dataset", response.or result)])

/-- The method `uploadPreannotations`: two requests, the upload URL and then
the start of the processing. -/
def uploadPreannotations (e : Env) (annotationConfig : JSValue) : Eff Nat JSValue := do
  let _ ← Eff.lift (destruct annotationConfig "project_id" "annotationConfig")
  let annotation_file ← Eff.lift (getProp annotationConfig "annotation_file")
  let _ ← Eff.lift (basenameOf e annotation_file)
  let _ ← makeRequest e
  let result ← makeRequest e
  let response ← Eff.lift (getProp result "response")
  pure (.obj [("success", .bool true),
              ("job_id", optProp response "job_id"),
              ("message", .str "Pre-annotation upload started"),
              ("status", .str "processing")])

/-- The method `uploadPreannotationsAsync`. -/
def uploadPreannotationsAsync (e : Env) (annotationConfig : JSValue) : Eff Nat JSValue := do
  let result ← uploadPreannotations e annotationConfig
  pure (.obj (ownEntries result ++
    [("async", .bool true),
     ("message", .str "Pre-annotation upload started asynchronously")]))

/-- The method `createExport`. -/
def createExport (e : Env) (exportConfig : JSValue) : Eff Nat JSValue := do
  let _ ← Eff.lift (destruct exportConfig "project_id" "exportConfig")
  let result ← makeRequest e
  let response ← Eff.lift (getProp result "response")
  pure (.obj [("success", .bool true),
              ("export_id", optProp response "report_id"),
              ("message", .str "Export created successfully")])

/-- The call `s.is_completed` of the filter in `checkExportStatus`, as a
boolean. -/
def isCompleted (s : JSValue) : Except Thrown Bool :=
  (getProp s "is_completed").map JSValue.truthy

/-- The expression `result.status?.filter(s => s.is_completed)`. -/
def completedOf (status : JSValue) : Except Thrown JSValue :=
  match status with
  | .undefined | .null => .ok .undefined
  | .arr items => (items.filterM isCompleted).map .arr
  | _ => .error (.typeError "result.status?.filter is not a function")

/-- The method `checkExportStatus`. -/
def checkExportStatus (e : Env) (statusConfig : JSValue) : Eff Nat JSValue := do
  let _ ← Eff.lift (destruct statusConfig "project_id" "statusConfig")
  let result ← makeRequest e
  let status ← Eff.lift (getProp result "status")
  let completed ← Eff.lift (completedOf status)
  pure (.obj [("success", .bool true),
              ("exports", status.or (.arr [])),
              ("completed", completed.or (.arr []))])

/-- The method `downloadExport`. -/
def downloadExport (e : Env) (downloadConfig : JSValue) : Eff Nat JSValue := do
  let _ ← Eff.lift (destruct downloadConfig "project_id" "downloadConfig")
  let export_id ← Eff.lift (getProp downloadConfig "export_id")
  let result ← makeRequest e
  let response ← Eff.lift (getProp result "response")
  pure (.obj [("success", .bool true),
              ("download_url", optProp response "download_url"),
              ("export_id", export_id)])

/-- The method `getJobStatus`, which issues no request. -/
def getJobStatus (jobId : JSValue) : Eff Nat JSValue :=
  pure (.obj [("success", .bool true),
              ("job_id", jobId),
              ("status", .str "completed"),
              ("progress", .nat 100),
              ("message", .str "Job completed successfully")])

/-- The method `calculateCompletionPercentage`. -/
def calculateCompletionPercentage (e : Env) (project : JSValue) : JSValue :=
  if !project.truthy || !(optProp project "total_files").truthy then .nat 0
  else
    let accepted := (optProp project "accepted_files").or (.nat 0)
    let total := (optProp project "total_files").or (.nat 0)
    .num (((toNumber e accepted).div (toNumber e total)).mul (.fin 100)).round

/-- The method `getProjectProgress`. -/
def getProjectProgress (e : Env) (projectId : JSValue) : Eff Nat JSValue := do
  let project ← getProjectDetails e
  let inner := optProp project "project"
  pure (.obj [("success", .bool true),
              ("project_id", projectId),
              ("progress", .obj [
                ("total_files", (optProp inner "total_files").or (.nat 0)),
                ("annotated", (optProp inner "annotated_files").or (.nat 0)),
                ("reviewed", (optProp inner "reviewed_files").or (.nat 0)),
                ("accepted", (optProp inner "accepted_files").or (.nat 0)),
                ("completion_percentage", calculateCompletionPercentage e inner)])])

/-! ## Session state (`index.js`) -/

/-- The key equality of a JavaScript `Map` (SameValueZero). Primitives are
compared by value. An array or an object is compared by reference, and every
array or object that the program uses as a key is a fresh part of a decoded
response, so it equals no key already stored. -/
def sameValueZero : JSValue → JSValue → Bool
  | .undefined, .undefined => true
  | .null, .null => true
  | .bool a, .bool b => a == b
  | .num (.fin a), .num (.fin b) => decide (a = b)
  | .num .nan, .num .nan => true
  | .num (.inf a), .num (.inf b) => a == b
  | .str a, .str b => decide (a = b)
  | .isoTime a, .isoTime b => decide (a = b)
  | _, _ => false

/-- A JavaScript `Map`: its entries in insertion order. -/
abbrev JSMap : Type := List (JSValue × JSValue)

/-- The method `Map.prototype.set`: overwrites the value of an equal key in
place, and otherwise appends the entry. -/
def mapSet : JSMap → JSValue → JSValue → JSMap
  | [], k, v => [(k, v)]
  | (k1, v1) :: rest, k, v =>
    if sameValueZero k1 k then (k1, v) :: rest else (k1, v1) :: mapSet rest k v

/-- The method `Map.prototype.get`. -/
def mapGet : JSMap → JSValue → Option JSValue
  | [], _ => none
  | (k1, v1) :: rest, k => if sameValueZero k1 k then some v1 else mapGet rest k

/-- The keys of a map, in insertion order. -/
def mapKeys (m : JSMap) : List JSValue := m.map Prod.fst

/-- An entry of `operationHistory`. The timestamp is the clock reading whose
ISO-8601 string the program stores. -/
structure OperationRecord where
  timestamp : Nat
  tool : String
  duration : Option Int
  status : String
  args : Option JSValue
  error : Option String
  deriving DecidableEq

/-- The record as the JavaScript object it is. -/
def OperationRecord.toJS (r : OperationRecord) : JSValue :=
  .obj ([("timestamp", .isoTime r.timestamp), ("tool", .str r.tool)]
    ++ (match r.duration with
        | some d => [("duration", .num (.fin d))]
        | none => [])
    ++ [("status", .str r.status)]
    ++ (match r.args with
        | some a => [("args", a)]
        | none => [])
    ++ (match r.error with
        | some m => [("error", .str m)]
        | none => []))

/-- The fields of a `LabellerrMCPServer` that change or that the handlers
read, with three counters: the outbound requests issued, the client methods
invoked, and the clock readings taken so far. -/
structure ServerState where
  labellerrClient : Option LabellerrClient
  operationHistory : List OperationRecord
  activeProjects : JSMap
  activeDatasets : JSMap
  requests : Nat
  clientCalls : Nat
  ticks : Nat

/-- The three credential variables of `process.env`. -/
structure ProcessEnv where
  LABELLERR_API_KEY : Option String
  LABELLERR_API_SECRET : Option String
  LABELLERR_CLIENT_ID : Option String

/-- The test `!v` on a variable of `process.env`: unset or empty. -/
def unset : Option String → Bool
  | none => true
  | some v => decide (v = "")

/-- The method `initializeClient`: the client, or `null` when a credential is
missing. -/
def initializeClient (penv : ProcessEnv) : Option LabellerrClient :=
  if unset penv.LABELLERR_API_KEY || unset penv.LABELLERR_API_SECRET
      || unset penv.LABELLERR_CLIENT_ID then none
  else some {
    apiKey := penv.LABELLERR_API_KEY.getD ""
    apiSecret := penv.LABELLERR_API_SECRET.getD ""
    clientId := penv.LABELLERR_CLIENT_ID.getD "" }

/-- The state after the constructor of `LabellerrMCPServer`. -/
def newServer (penv : ProcessEnv) : ServerState where
  labellerrClient := initializeClient penv
  operationHistory := []
  activeProjects := []
  activeDatasets := []
  requests := 0
  clientCalls := 0
  ticks := 0

/-- A reading of the clock (`Date.now()`, `new Date()`). -/
def now (e : Env) : Eff ServerState Nat := fun s =>
  (.ok (e.clock s.ticks), { s with ticks := s.ticks + 1 })

/-- An awaited call of a client method. -/
def callClient {α : Type} (m : Eff Nat α) : Eff ServerState α := fun s =>
  ((m s.requests).1, { s with requests := (m s.requests).2, clientCalls := s.clientCalls + 1 })

/-- A read of the state. -/
def getState {σ α : Type} (f : σ → α) : Eff σ α := fun s => (.ok (f s), s)

/-- The call `this.operationHistory.push(record)`. -/
def pushHistory (r : OperationRecord) : Eff ServerState Unit := fun s =>
  (.ok (), { s with operationHistory := s.operationHistory ++ [r] })

/-- A computation on `this.activeProjects`. -/
def onProjects {α : Type} (m : Eff JSMap α) : Eff ServerState α := fun s =>
  ((m s.activeProjects).1, { s with activeProjects := (m s.activeProjects).2 })

/-- A computation on `this.activeDatasets`. -/
def onDatasets {α : Type} (m : Eff JSMap α) : Eff ServerState α := fun s =>
  ((m s.activeDatasets).1, { s with activeDatasets := (m s.activeDatasets).2 })

/-- The call `map.set(k, v)`. -/
def setEntry (k v : JSValue) : Eff JSMap Unit := fun m => (.ok (), mapSet m k v)

/-- The loop `for (const x of items) map.set(x[idKey], x)`. -/
def cacheEach (idKey : String) : List JSValue → Eff JSMap Unit
  | [] => pure ()
  | x :: rest => do
    let id ← Eff.lift (getProp x idKey)
    setEntry id x
    cacheEach idKey rest

/-- The iteration of `v`, which throws when `v` is not iterable. -/
def iterate {σ : Type} (v : JSValue) (source : String) : Eff σ (List JSValue) :=
  match elements v with
  | some items => pure items
  | none => Eff.throw (.typeError (source ++ " is not iterable"))

/-! ## Tool handlers (`index.js`) -/

/-- The success record pushed by the project handler. -/
def successRecord (timestamp : Nat) (tool : String) (startTime finished : Nat)
    (args : Option JSValue) : OperationRecord where
  timestamp := timestamp
  tool := tool
  duration := some ((finished : Int) - (startTime : Int))
  status := "success"
  args := args
  error := none

/-- The failure record pushed by the `catch` of the tool-call handler. -/
def failedRecord (timestamp : Nat) (tool : String) (message : String) : OperationRecord where
  timestamp := timestamp
  tool := tool
  duration := none
  status := "failed"
  args := none
  error := some message

/-- The `switch` of `handleProjectTool`. -/
def projectSwitch (e : Env) (name : String) (args : JSValue) : Eff ServerState JSValue :=
  if name = "project_create" then do
    let result ← callClient (createProject e args)
    let project_id ← Eff.lift (getProp result "project_id")
    let project_name ← Eff.lift (getProp args "project_name")
    let data_type ← Eff.lift (getProp args "data_type")
    let createdAt ← now e
    onProjects (setEntry project_id (.obj (
      [("id", project_id), ("name", project_name), ("dataType", data_type),
       ("createdAt", .isoTime createdAt)] ++ ownEntries args)))
    pure result
  else if name = "project_list" then do
    let result ← callClient (getAllProjects e)
    let projects ← Eff.lift (getProp result "projects")
    let items ← iterate (projects.or (.arr [])) "(result.projects || [])"
    onProjects (cacheEach "project_id" items)
    pure result
  else if name = "project_get" then do
    let _ ← Eff.lift (getProp args "project_id")
    callClient (getProjectDetails e)
  else if name = "project_update_rotation" then do
    let _ ← Eff.lift (getProp args "project_id")
    callClient (updateRotationConfig e)
  else Eff.throw (.mcp .MethodNotFound ("Unknown project tool: " ++ name))

/-- The method `handleProjectTool`. -/
def handleProjectTool (e : Env) (name : String) (args : JSValue) : Eff ServerState JSValue := do
  let startTime ← now e
  let result ← projectSwitch e name args
  let timestamp ← now e
  let finished ← now e
  pushHistory (successRecord timestamp name startTime finished (some args))
  pure result

/-- The `switch` of `handleDatasetTool`. -/
def datasetSwitch (e : Env) (name : String) (args : JSValue) : Eff ServerState JSValue :=
  if name = "dataset_create" then do
    let result ← callClient (createDataset e)
    let dataset_id ← Eff.lift (getProp result "dataset_id")
    let dataset_name ← Eff.lift (getProp args "dataset_name")
    let data_type ← Eff.lift (getProp args "data_type")
    let createdAt ← now e
    onDatasets (setEntry dataset_id (.obj
      [("id", dataset_id), ("name", dataset_name), ("dataType", data_type),
       ("createdAt", .isoTime createdAt)]))
    pure result
  else if name = "dataset_upload_files" then
    callClient (uploadFiles e args)
  else if name = "dataset_upload_folder" then
    callClient (uploadFolder e args)
  else if name = "dataset_list" then do
    let _ ← Eff.lift (getProp args "data_type")
    let result ← callClient (getAllDatasets e)
    let linked ← Eff.lift (getProp result "linked")
    let linkedItems ← iterate (linked.or (.arr [])) "(result.linked || [])"
    let unlinked ← Eff.lift (getProp result "unlinked")
    let unlinkedItems ← iterate (unlinked.or (.arr [])) "(result.unlinked || [])"
    onDatasets (cacheEach "dataset_id" (linkedItems ++ unlinkedItems))
    pure result
  else if name = "dataset_get" then do
    let _ ← Eff.lift (getProp args "dataset_id")
    callClient (getDataset e)
  else Eff.throw (.mcp .MethodNotFound ("Unknown dataset tool: " ++ name))

/-- The method `handleDatasetTool`. -/
def handleDatasetTool (e : Env) (name : String) (args : JSValue) : Eff ServerState JSValue := do
  let startTime ← now e
  let result ← datasetSwitch e name args
  let timestamp ← now e
  let finished ← now e
  pushHistory (successRecord timestamp name startTime finished none)
  pure result

/-- The `switch` of `handleAnnotationTool`. -/
def annotationSwitch (e : Env) (name : String) (args : JSValue) : Eff ServerState JSValue :=
  if name = "annotation_upload_preannotations" then
    callClient (uploadPreannotations e args)
  else if name = "annotation_upload_preannotations_async" then
    callClient (uploadPreannotationsAsync e args)
  else if name = "annotation_export" then
    callClient (createExport e args)
  else if name = "annotation_check_export_status" then
    callClient (checkExportStatus e args)
  else if name = "annotation_download_export" then
    callClient (downloadExport e args)
  else Eff.throw (.mcp .MethodNotFound ("Unknown annotation tool: " ++ name))

/-- The method `handleAnnotationTool`. -/
def handleAnnotationTool (e : Env) (name : String) (args : JSValue) : Eff ServerState JSValue := do
  let startTime ← now e
  let result ← annotationSwitch e name args
  let timestamp ← now e
  let finished ← now e
  pushHistory (successRecord timestamp name startTime finished none)
  pure result

/-- The callback of the filter in `monitor_active_operations`: the record is
in progress, or its timestamp is later than five minutes before a reading of
the clock taken for this record. -/
def isActive (e : Env) (op : OperationRecord) : Eff ServerState Bool :=
  if op.status = "in_progress" then pure true
  else do
    let t ← now e
    pure (decide ((op.timestamp : Int) > (t : Int) - 300000))

/-- The call `this.operationHistory.filter(op => ...)` with the callback
`isActive`. -/
def filterActive (e : Env) : List OperationRecord → Eff ServerState (List OperationRecord)
  | [] => pure []
  | op :: rest => do
    let keep ← isActive e op
    let kept ← filterActive e rest
    pure (if keep then op :: kept else kept)

/-- The value `this.operationHistory[this.operationHistory.length - 1] || null`. -/
def lastOperation (history : List OperationRecord) : JSValue :=
  match history.getLast? with
  | some r => r.toJS
  | none => .null

/-- The result object of `monitor_system_health`. -/
def systemHealth (s : ServerState) : JSValue :=
  .obj [("status", .str "healthy"),
        ("connected", .bool s.labellerrClient.isSome),
        ("active_projects", .nat s.activeProjects.length),
        ("active_datasets", .nat s.activeDatasets.length),
        ("operations_performed", .nat s.operationHistory.length),
        ("last_operation", lastOperation s.operationHistory)]

/-- The method `handleMonitoringTool`. -/
def handleMonitoringTool (e : Env) (name : String) (args : JSValue) : Eff ServerState JSValue :=
  if name = "monitor_job_status" then do
    let job_id ← Eff.lift (getProp args "job_id")
    callClient (getJobStatus job_id)
  else if name = "monitor_project_progress" then do
    let project_id ← Eff.lift (getProp args "project_id")
    callClient (getProjectProgress e project_id)
  else if name = "monitor_active_operations" then do
    let history ← getState ServerState.operationHistory
    let active ← filterActive e history
    pure (.obj [("active_operations", .arr (active.map OperationRecord.toJS)),
                ("total_operations", .nat history.length)])
  else if name = "monitor_system_health" then
    getState systemHealth
  else Eff.throw (.mcp .MethodNotFound ("Unknown monitoring tool: " ++ name))

/-- The comparison `op.status === status`. -/
def statusIs (status : JSValue) (op : OperationRecord) : Bool :=
  match status with
  | .str t => decide (op.status = t)
  | _ => false

/-- The integer part of a finite number, rounding toward zero. -/
def truncate (q : ℚ) : Int := if 0 ≤ q then ⌊q⌋ else ⌈q⌉

/-- The call `xs.slice(start)`: a negative start counts from the end. -/
def sliceFrom {α : Type} (start : JSNumber) (xs : List α) : List α :=
  match start with
  | .nan => xs
  | .inf true => xs
  | .inf false => []
  | .fin q =>
    if truncate q < 0 then xs.drop ((xs.length : Int) + truncate q).toNat
    else xs.drop (truncate q).toNat

/-- The result object of `query_operation_history`, given the destructured
`limit` (before its default) and `status`. -/
def operationHistoryView (e : Env) (limit status : JSValue)
    (log : List OperationRecord) : JSValue :=
  let limit := if limit matches .undefined then JSValue.nat 10 else limit
  let history := if status.truthy then log.filter (statusIs status) else log
  .obj [("total", .nat history.length),
        ("operations",
          .arr ((sliceFrom (toNumber e limit).neg history).reverse.map OperationRecord.toJS))]

/-- The call `v.toLowerCase()`, which throws unless `v` is a string. -/
def lowerCase (e : Env) (v : JSValue) (source : String) : Except Thrown String :=
  match v with
  | .str t => .ok (e.toLowerCase t)
  | .isoTime _ => .ok (e.toLowerCase (e.toStringOf v))
  | .undefined | .null =>
    .error (.typeError ("Cannot read properties of " ++ nullishName v ++ " (reading 'toLowerCase')"))
  | _ => .error (.typeError (source ++ ".toLowerCase is not a function"))

/-- The call `text.includes(query)` on strings. -/
def includes (text query : String) : Bool := decide (query.data <:+: text.data)

/-- The callback of the filter in `query_search_projects`; the data type is
read only when the name does not match. -/
def matchesQuery (e : Env) (query : String) (p : JSValue) : Except Thrown Bool := do
  let project_name ← getProp p "project_name"
  let name ← lowerCase e project_name "p.project_name"
  if includes name query then pure true
  else
    let data_type ← getProp p "data_type"
    let dataType ← lowerCase e data_type "p.data_type"
    pure (includes dataType query)

/-- The call `allProjects.projects.filter(p => ...)`. -/
def searchProjects (e : Env) (query : String) (projects : JSValue) : Except Thrown JSValue :=
  match projects with
  | .undefined | .null =>
    .error (.typeError ("Cannot read properties of " ++ nullishName projects ++ " (reading 'filter')"))
  | .arr items => (items.filterM (matchesQuery e query)).map .arr
  | _ => .error (.typeError "allProjects.projects.filter is not a function")

/-- The method `handleQueryTool`. -/
def handleQueryTool (e : Env) (name : String) (args : JSValue) : Eff ServerState JSValue :=
  if name = "query_project_statistics" then do
    let project_id ← Eff.lift (getProp args "project_id")
    let project ← callClient (getProjectDetails e)
    let total_files ← Eff.lift (getProp project "total_files")
    let annotated_files ← Eff.lift (getProp project "annotated_files")
    let reviewed_files ← Eff.lift (getProp project "reviewed_files")
    let accepted_files ← Eff.lift (getProp project "accepted_files")
    let completion_percentage ← Eff.lift (getProp project "completion_percentage")
    pure (.obj [("project_id", project_id),
                ("total_files", total_files.or (.nat 0)),
                ("annotated_files", annotated_files.or (.nat 0)),
                ("reviewed_files", reviewed_files.or (.nat 0)),
                ("accepted_files", accepted_files.or (.nat 0)),
                ("completion_percentage", completion_percentage.or (.nat 0))])
  else if name = "query_dataset_info" then do
    let _ ← Eff.lift (getProp args "dataset_id")
    callClient (getDataset e)
  else if name = "query_operation_history" then do
    let limit ← Eff.lift (destruct args "limit" "args")
    let status ← Eff.lift (getProp args "status")
    let log ← getState ServerState.operationHistory
    pure (operationHistoryView e limit status log)
  else if name = "query_search_projects" then do
    let allProjects ← callClient (getAllProjects e)
    let q ← Eff.lift (getProp args "query")
    let query ← Eff.lift (lowerCase e q "args.query")
    let projects ← Eff.lift (getProp allProjects "projects")
    let found ← Eff.lift (searchProjects e query projects)
    pure (.obj [("projects", found)])
  else Eff.throw (.mcp .MethodNotFound ("Unknown query tool: " ++ name))

/-! ## The tool-call handler -/

/-- The test `name.startsWith(p)`. -/
def startsWith (name p : String) : Bool := p.data.isPrefixOf name.data

/-- The parameters of a `tools/call` request: the protocol layer admits a
string `name` and `arguments` that are absent or an object. -/
structure CallToolRequest where
  name : String
  arguments : Option (List (String × JSValue))

/-- The value bound to `args` in the handler. -/
def CallToolRequest.args (r : CallToolRequest) : JSValue :=
  match r.arguments with
  | none => .undefined
  | some fields => .obj fields

/-- The body of the `try`: routing by the first matching category. -/
def route (e : Env) (name : String) (args : JSValue) : Eff ServerState JSValue :=
  if startsWith name "project_" then handleProjectTool e name args
  else if startsWith name "dataset_" then handleDatasetTool e name args
  else if startsWith name "annotation_" then handleAnnotationTool e name args
  else if startsWith name "monitor_" then handleMonitoringTool e name args
  else if startsWith name "query_" then handleQueryTool e name args
  else Eff.throw (.mcp .MethodNotFound ("Unknown tool: " ++ name))

/-- The `catch` of the handler: log the failure, rethrow an `McpError` as it
is, wrap anything else in an `InternalError`. -/
def onFailure (e : Env) (name : String) (error : Thrown) : Eff ServerState JSValue := do
  let timestamp ← now e
  pushHistory (failedRecord timestamp name error.message)
  if error.isMcp then Eff.throw error
  else Eff.throw (.mcp .InternalError ("Tool execution failed: " ++ error.message))

/-- The handler of `tools/call`. A successful call returns the result object
whose pretty-printed JSON is the text of the response. -/
def callTool (e : Env) (request : CallToolRequest) : Eff ServerState JSValue := fun s =>
  if s.labellerrClient.isNone then
    (.error (.mcp .InternalError
      "Labellerr client not initialized. Please check your environment variables."), s)
  else
    match route e request.name request.args s with
    | (.ok result, s1) => (.ok result, s1)
    | (.error error, s1) => onFailure e request.name error s1

/-- The five tool categories, named as the catalogs the server imports. -/
inductive Category where
  | projectTools
  | datasetTools
  | annotationTools
  | monitoringTools
  | queryTools
  deriving DecidableEq, Repr

/-- The category chosen by the chain of `startsWith` tests in the handler. -/
def categoryOf (name : String) : Option Category :=
  if startsWith name "project_" then some .projectTools
  else if startsWith name "dataset_" then some .datasetTools
  else if startsWith name "annotation_" then some .annotationTools
  else if startsWith name "monitor_" then some .monitoringTools
  else if startsWith name "query_" then some .queryTools
  else none

/-- A sequence of tool calls, each run to completion before the next. -/
def runCalls (e : Env) : List CallToolRequest → ServerState →
    List (Except Thrown JSValue) × ServerState
  | [], s => ([], s)
  | request :: rest, s =>
    let first := callTool e request s
    let others := runCalls e rest first.2
    (first.1 :: others.1, others.2)

/-- The property `k` of the result of a call, `undefined` when the call
failed. -/
def resultField (r : Except Thrown JSValue) (k : String) : JSValue :=
  match r with
  | .ok v => optProp v k
  | .error _ => .undefined

/-- ToString on the values of the examples: `undefined`, `null`, booleans and
integers print as JavaScript prints them; an object prints as
`[object Object]`, which also stands in for the values no example converts. -/
def exampleToString : JSValue → String
  | .undefined => "undefined"
  | .null => "null"
  | .bool true => "true"
  | .bool false => "false"
  | .num (.fin q) => if q.den = 1 then toString q.num else "[object Object]"
  | _ => "[object Object]"

/-- An environment for examples: the outbound requests are answered by the
given outcomes in order (then the network fails), the clock starts at 1000 ms
and advances 1 ms per reading, folders are empty, and the text conversions
are the ASCII ones. -/
def scriptedEnv (outcomes : List HttpOutcome) : Env where
  http := fun i => outcomes.getD i (.failure "fetch failed")
  clock := fun i => 1000 + i
  filesInFolder := fun _ _ => []
  basename := fun path => path
  toLowerCase := fun text => String.mk (text.data.map Char.toLower)
  toStringOf := exampleToString
  toNumberOf := fun _ => .nan
  plusOf := fun _ _ => .num .nan
  received := fun _ => "undefined"

/-- A server whose three credentials are set, after its constructor. -/
def readyServer : ServerState :=
  newServer { LABELLERR_API_KEY := some "key", LABELLERR_API_SECRET := some "secret",
              LABELLERR_CLIENT_ID := some "client" }

/-! ## Resources (`index.js`, the two resource handlers) -/

/-- An entry of the result of `resources/list`. -/
structure Resource where
  uri : String
  name : JSValue
  mimeType : String
  description : String
  deriving DecidableEq

/-- An entry of the `contents` of `resources/read`; `value` is the value whose
pretty-printed JSON is the `text`. -/
structure ResourceContents where
  uri : String
  mimeType : String
  value : JSValue
  deriving DecidableEq

/-- The resource pushed for an entry of `activeProjects`. -/
def projectResource (e : Env) (entry : JSValue × JSValue) : Except Thrown Resource := do
  let name ← getProp entry.2 "name"
  let dataType ← getProp entry.2 "dataType"
  pure {
    uri := "labellerr://project/" ++ toStringJS e entry.1
    name := name
    mimeType := "application/json"
    description := "Project: " ++ toStringJS e name ++ " (" ++ toStringJS e dataType ++ ")" }

/-- The resource pushed for an entry of `activeDatasets`. -/
def datasetResource (e : Env) (entry : JSValue × JSValue) : Except Thrown Resource := do
  let name ← getProp entry.2 "name"
  pure {
    uri := "labellerr://dataset/" ++ toStringJS e entry.1
    name := name
    mimeType := "application/json"
    description := "Dataset: " ++ toStringJS e name }

/-- The resource pushed last, for the operation history. -/
def historyResource : Resource where
  uri := "labellerr://history"
  name := .str "Operation History"
  mimeType := "application/json"
  description := "History of all operations performed"

/-- A loop `for (const entry of map) resources.push(f(entry))`. -/
def collect (f : JSValue × JSValue → Except Thrown Resource) : JSMap → Except Thrown (List Resource)
  | [] => .ok []
  | entry :: rest => do
    let r ← f entry
    let rs ← collect f rest
    pure (r :: rs)

/-- The handler of `resources/list`. -/
def listResources (e : Env) : Eff ServerState (List Resource) := do
  let projects ← getState ServerState.activeProjects
  let projectResources ← Eff.lift (collect (projectResource e) projects)
  let datasets ← getState ServerState.activeDatasets
  let datasetResources ← Eff.lift (collect (datasetResource e) datasets)
  pure (projectResources ++ datasetResources ++ [historyResource])

/-- The class `\w` of the regular expression: an ASCII letter, a digit or `_`. -/
def isWordChar (c : Char) : Bool := c.isAlphanum || c == '_'

/-- A line terminator, which `.` does not match. -/
def isLineTerminator (c : Char) : Bool :=
  c == '\n' || c == '\r' || c.toNat == 0x2028 || c.toNat == 0x2029

/-- The rest of `text` after the leading `scheme`, if it starts with it. -/
def stripScheme : List Char → List Char → Option (List Char)
  | [], text => some text
  | _ :: _, [] => none
  | c :: scheme, d :: text => if c = d then stripScheme scheme text else none

/-- The match of `/^labellerr:\/\/(\w+)\/(.+)$/` on a URI: the two groups
`type` and `id`. Since `\w` does not match `/`, the first group is the longest
run of word characters after the scheme; it must be non-empty and followed by
`/`, and the second group is all the rest, non-empty and free of line
terminators. -/
def parseResourceUri (uri : String) : Option (String × String) :=
  match stripScheme "labellerr://".data uri.data with
  | none => none
  | some rest =>
    match rest.dropWhile isWordChar with
    | '/' :: id =>
      if rest.takeWhile isWordChar ≠ [] ∧ id ≠ [] ∧ id.all (fun c => !isLineTerminator c) then
        some (String.mk (rest.takeWhile isWordChar), String.mk id)
      else none
    | _ => none

/-- The lookup `map.get(id)` followed by the test `if (record)`: the record
when the id is a key and its record is truthy. -/
def cachedRecord (m : JSMap) (id : String) : Option JSValue :=
  match mapGet m (.str id) with
  | some record => if record.truthy then some record else none
  | none => none

/-- The handler of `resources/read`. -/
def readResource (uri : String) : Eff ServerState ResourceContents := fun s =>
  if uri = "labellerr://history" then
    (.ok { uri := uri, mimeType := "application/json",
           value := .arr (s.operationHistory.map OperationRecord.toJS) }, s)
  else
    let notFound : Except Thrown ResourceContents × ServerState :=
      (.error (.mcp .InvalidRequest ("Resource not found: " ++ uri)), s)
    match parseResourceUri uri with
    | none => notFound
    | some (type, id) =>
      if type = "project" then
        match cachedRecord s.activeProjects id with
        | some project => (.ok { uri := uri, mimeType := "application/json", value := project }, s)
        | none => notFound
      else if type = "dataset" then
        match cachedRecord s.activeDatasets id with
        | some dataset => (.ok { uri := uri, mimeType := "application/json", value := dataset }, s)
        | none => notFound
      else notFound

/-! ## Outbound request options (`makeRequest`, before the `try`) -/

/-- The method `buildHeaders`. -/
def buildHeaders (c : LabellerrClient) (extraHeaders : JSValue) : JSValue :=
  .obj ([("api_key", .str c.apiKey),
         ("api_secret", .str c.apiSecret),
         ("client_id", .str c.clientId),
         ("source", .str "mcp-sdk"),
         ("origin", .str "https://pro.labellerr.com")] ++ ownEntries extraHeaders)

/-- The object literal `{ method, headers, ...options }` that `makeRequest`
builds, where `headers` is `this.buildHeaders(options.headers || {})`. -/
def requestOptions (c : LabellerrClient) (method : String) (options : JSValue) : JSValue :=
  .obj ([("method", .str method),
         ("headers", buildHeaders c ((optProp options "headers").or (.obj [])))]
        ++ ownEntries options)

/-- The test `options.body && typeof options.body === 'object'`; the program
never passes a `FormData` body. -/
def hasObjectBody (options : JSValue) : Bool :=
  match optProp options "body" with
  | .arr _ => true
  | .obj _ => true
  | _ => false

/-- The headers of the request passed to `fetch`: `requestOptions.headers`,
with `Content-Type` assigned when the body is an object. The program passes
only object literals as `options.headers`. -/
def outboundHeaders (c : LabellerrClient) (method : String) (options : JSValue) : JSValue :=
  match optProp (requestOptions c method options) "headers" with
  | .obj fields =>
    if hasObjectBody options then .obj (fields ++ [("Content-Type", .str "application/json")])
    else .obj fields
  | other => other

/-- The options that `createProject` passes to `makeRequest`. -/
def createProjectOptions (c : LabellerrClient) (payload : JSValue) : JSValue :=
  .obj [("body", payload), ("headers", .obj [("client_id", .str c.clientId)])]

/-- The options that `uploadPreannotations` passes with its second request. -/
def uploadAnswersOptions (c : LabellerrClient) : JSValue :=
  .obj [("headers", .obj [("email_id", .str c.apiKey)])]

/-! ## Operations and reachable states -/

/-- A request that the server handles. -/
inductive Operation where
  | callTool (request : CallToolRequest)
  | listResources
  | readResource (uri : String)

/-- The state after the server has handled an operation. -/
def perform (e : Env) : Operation → ServerState → ServerState
  | .callTool request, s => (callTool e request s).2
  | .listResources, s => (listResources e s).2
  | .readResource uri, s => (readResource uri s).2

/-- The states a server can be in: the state after the constructor, and every
state reached from one by handling an operation. -/
inductive Reachable (e : Env) : ServerState → Prop where
  | start (penv : ProcessEnv) : Reachable e (newServer penv)
  | step (op : Operation) {s : ServerState} : Reachable e s → Reachable e (perform e op s)

/-! ## Vocabulary of the statements -/

/-- The computation `x` leaves the component `f` of the state as it was,
whether it returns or throws. -/
def Keeps {σ α β : Type} (f : σ → β) (x : Eff σ α) : Prop :=
  ∀ s, f (x s).2 = f s

/-- The computation `x` throws the error of `makeRequest` as soon as a
request it issues is answered with a status that is not ok: for every request
`i` issued by `x` (counted by `count`) with such a response, the outcome of
`x` is `Error("API request failed: " + message)` for that response. -/
def AbortsOnRejection {σ α : Type} (e : Env) (count : σ → Nat) (x : Eff σ α) : Prop :=
  ∀ s i status data, count s ≤ i → i < count (x s).2 →
    e.http i = .response status data → responseOk status = false →
    (x s).1 = .error (.error ("API request failed: " ++ failureMessage e status data))

/-- The projects listed by a result of `getAllProjects`: the elements that
the loop of `project_list` iterates. -/
def listedProjects (result : JSValue) : List JSValue :=
  (elements ((optProp result "projects").or (.arr []))).getD []

/-- The datasets listed by a result of `getAllDatasets`: the elements of the
linked list followed by those of the unlinked list, as the loop of
`dataset_list` iterates them. -/
def listedDatasets (result : JSValue) : List JSValue :=
  (elements ((optProp result "linked").or (.arr []))).getD [] ++
    (elements ((optProp result "unlinked").or (.arr []))).getD []

/-- The map after the loop `for (const x of items) map.set(x[idKey], x)` has
run to its end. -/
def cachedAll (idKey : String) (m : JSMap) (items : List JSValue) : JSMap :=
  items.foldl (fun acc x => mapSet acc (optProp x idKey) x) m

/-- The computation `x` relates every state to the state it reaches by `R`. -/
def Steps {σ α : Type} (R : σ → σ → Prop) (x : Eff σ α) : Prop :=
  ∀ s, R s (x s).2

/-- The computation `x` never throws an `Error` made by `new Error`, the kind
that `makeRequest` throws. -/
def NoPlainError {σ α : Type} (x : Eff σ α) : Prop :=
  ∀ s m, (x s).1 ≠ .error (.error m)

/-- The message of the `Error` that `makeRequest` throws for an outcome, if it
throws. -/
def requestFailure (e : Env) : HttpOutcome → Option String
  | .failure message => some ("API request failed: " ++ message)
  | .response status data =>
    if responseOk status then none
    else some ("API request failed: " ++ failureMessage e status data)

/-- The computation `x` throws the error of `makeRequest` as soon as a request
it issues fails, by a network failure or by a status that is not ok. -/
def AbortsOnFailure {σ α : Type} (e : Env) (count : σ → Nat) (x : Eff σ α) : Prop :=
  ∀ s i message, count s ≤ i → i < count (x s).2 →
    requestFailure e (e.http i) = some message → (x s).1 = .error (.error message)

/-- A cached entry as the server writes it: the record is not `undefined` or
`null`, and a record cached under a string key is truthy. -/
def goodEntry (entry : JSValue × JSValue) : Bool :=
  !entry.2.nullish && (match entry.1 with
    | .str _ => entry.2.truthy
    | _ => true)

/-- Whether the log of the category keeps success records. -/
def Category.timed : Category → Bool
  | .projectTools => true
  | .datasetTools => true
  | .annotationTools => true
  | _ => false

/-- A log record as the server writes it: a success record, with a duration,
of a tool of the project, dataset or annotation category, or a failed record,
without a duration and with an error message. -/
def goodRecord (r : OperationRecord) : Prop :=
  (r.status = "success" ∧ r.duration.isSome = true ∧ r.error = none ∧
    ∃ c, categoryOf r.tool = some c ∧ c.timed = true) ∨
  (r.status = "failed" ∧ r.duration = none ∧ r.error.isSome = true ∧ r.args = none)

/-- The test of `monitor_active_operations` against a current time `t`, in
milliseconds: in progress, or stamped later than 300000 ms before `t`. -/
def isActiveAt (t : Nat) (op : OperationRecord) : Bool :=
  decide (op.status = "in_progress") || decide ((op.timestamp : Int) > (t : Int) - 300000)

/-- The name each category starts with. -/
def Category.tag : Category → String
  | .projectTools => "project_"
  | .datasetTools => "dataset_"
  | .annotationTools => "annotation_"
  | .monitoringTools => "monitor_"
  | .queryTools => "query_"

/-- The category chosen by testing the names of the categories in a given
order, first match first. -/
def firstMatch (order : List Category) (name : String) : Option Category :=
  order.find? (fun c => startsWith name c.tag)

/-- The most recent `limit` records of a list in log order, most recent
first, as the specification words `queryHistory`. -/
def mostRecentFirst (limit : Nat) (records : List OperationRecord) : List OperationRecord :=
  records.reverse.take limit

/-- The records that a status filter selects, as the specification words it:
those whose status equals the filter, all of them when there is no filter. -/
def matchingRecords (status : Option String) (log : List OperationRecord) :
    List OperationRecord :=
  match status with
  | some t => log.filter (fun r => decide (r.status = t))
  | none => log

/-- The search predicate as the specification words it: the lower-cased query
is a substring of the lower-cased project name or of the lower-cased data
type. -/
def matchesSearch (e : Env) (query : String) (project : JSValue) : Bool :=
  match optProp project "project_name", optProp project "data_type" with
  | .str name, .str dataType =>
    includes (e.toLowerCase name) (e.toLowerCase query) ||
      includes (e.toLowerCase dataType) (e.toLowerCase query)
  | _, _ => false

/-- A server for examples: credentials set, and a log of `n` failed records of
the tool `demo`, stamped 1 to `n`. -/
def serverWithLog (n : Nat) : ServerState :=
  { readyServer with
    operationHistory := (List.range n).map (fun i => failedRecord (i + 1) "demo" "failure") }


/-- The keys of both caches in the state `s` are keys in the state `s1`. -/
def KeysStay (s s1 : ServerState) : Prop :=
  mapKeys s.activeProjects ⊆ mapKeys s1.activeProjects ∧
  mapKeys s.activeDatasets ⊆ mapKeys s1.activeDatasets

/-- Every entry of both caches is as the server writes entries. -/
def CachesGood (s : ServerState) : Prop :=
  (∀ entry ∈ s.activeProjects, goodEntry entry = true) ∧
  (∀ entry ∈ s.activeDatasets, goodEntry entry = true)

/-- Every record of the log is as the server writes records. -/
def LogGood (s : ServerState) : Prop :=
  ∀ r ∈ s.operationHistory, goodRecord r

/-- The computation `x` leaves both caches as they were whenever it throws an
`Error` made by `new Error`. -/
def CachesKeptOnPlainError {α : Type} (x : Eff ServerState α) : Prop :=
  ∀ s m, (x s).1 = .error (.error m) →
    (x s).2.activeProjects = s.activeProjects ∧ (x s).2.activeDatasets = s.activeDatasets

/-! ## Basic facts about effects -/

namespace Eff

variable {σ α β : Type}

theorem bind_apply (x : Eff σ α) (f : α → Eff σ β) (s : σ) :
    (x >>= f) s = match x s with
      | (.ok a, s1) => f a s1
      | (.error t, s1) => (.error t, s1) := rfl

theorem bind_of_ok {x : Eff σ α} {f : α → Eff σ β} {s s1 : σ} {a : α}
    (h : x s = (.ok a, s1)) : (x >>= f) s = f a s1 := by
  rw [bind_apply, h]

theorem bind_of_error {x : Eff σ α} {f : α → Eff σ β} {s s1 : σ} {t : Thrown}
    (h : x s = (.error t, s1)) : (x >>= f) s = (.error t, s1) := by
  rw [bind_apply, h]

@[simp] theorem pure_apply (a : α) (s : σ) : (pure a : Eff σ α) s = (.ok a, s) := rfl

@[simp] theorem throw_apply (t : Thrown) (s : σ) : (Eff.throw t : Eff σ α) s = (.error t, s) := rfl

@[simp] theorem lift_apply (x : Except Thrown α) (s : σ) : (Eff.lift x : Eff σ α) s = (x, s) := rfl

end Eff

/-! ## Facts about the state primitives -/

@[simp] theorem now_apply (e : Env) (s : ServerState) :
    now e s = (.ok (e.clock s.ticks), { s with ticks := s.ticks + 1 }) := rfl

@[simp] theorem pushHistory_apply (r : OperationRecord) (s : ServerState) :
    pushHistory r s = (.ok (), { s with operationHistory := s.operationHistory ++ [r] }) := rfl

@[simp] theorem getState_apply {σ α : Type} (f : σ → α) (s : σ) :
    getState f s = (.ok (f s), s) := rfl

theorem callClient_apply {α : Type} (m : Eff Nat α) (s : ServerState) :
    callClient m s = ((m s.requests).1,
      { s with requests := (m s.requests).2, clientCalls := s.clientCalls + 1 }) := rfl

theorem onProjects_apply {α : Type} (m : Eff JSMap α) (s : ServerState) :
    onProjects m s = ((m s.activeProjects).1,
      { s with activeProjects := (m s.activeProjects).2 }) := rfl

theorem onDatasets_apply {α : Type} (m : Eff JSMap α) (s : ServerState) :
    onDatasets m s = ((m s.activeDatasets).1,
      { s with activeDatasets := (m s.activeDatasets).2 }) := rfl

/-- What the `catch` of the handler does: one failed record, then the error
itself or its `InternalError` wrapper. -/
theorem onFailure_apply (e : Env) (name : String) (error : Thrown) (s : ServerState) :
    onFailure e name error s =
      (.error (if error.isMcp then error
               else .mcp .InternalError ("Tool execution failed: " ++ error.message)),
       { s with
         operationHistory := s.operationHistory ++ [failedRecord (e.clock s.ticks) name error.message]
         ticks := s.ticks + 1 }) := by
  cases h : error.isMcp <;> simp [onFailure, Eff.bind_apply, h]

/-- With an initialised client the handler is the routing followed, on an
exception, by the `catch`. -/
theorem callTool_of_client (e : Env) (request : CallToolRequest) (s : ServerState)
    (hclient : s.labellerrClient.isSome = true) :
    callTool e request s =
      match route e request.name request.args s with
      | (.ok result, s1) => (.ok result, s1)
      | (.error error, s1) => onFailure e request.name error s1 := by
  cases hc : s.labellerrClient with
  | none => simp [hc] at hclient
  | some c =>
    unfold callTool
    rw [hc]
    rfl

/-- Without a client the handler throws at once and changes nothing. -/
theorem callTool_of_no_client (e : Env) (request : CallToolRequest) (s : ServerState)
    (hclient : s.labellerrClient = none) :
    callTool e request s =
      (.error (.mcp .InternalError
        "Labellerr client not initialized. Please check your environment variables."), s) := by
  unfold callTool
  simp [hclient]

/-! ## Routing errors and missing credentials -/

/-- Without a client every call of a sequence fails with `InternalError` and
the state never changes. -/
theorem runCalls_of_no_client (e : Env) (requests : List CallToolRequest) (s : ServerState)
    (hclient : s.labellerrClient = none) :
    (runCalls e requests s).2 = s ∧
    (runCalls e requests s).1.length = requests.length ∧
    ∀ r ∈ (runCalls e requests s).1, ∃ message, r = .error (.mcp .InternalError message) := by
  induction requests with
  | nil => simp [runCalls]
  | cons request rest ih =>
    simp only [runCalls, callTool_of_no_client e request s hclient]
    refine ⟨ih.1, by simp [ih.2.1], ?_⟩
    intro r hr
    rcases List.mem_cons.mp hr with h | h
    · exact ⟨_, h⟩
    · exact ih.2.2 r h

/-- C5: when one of the three credential values is missing or empty at
startup, the client is not created, it stays so through every sequence of
tool calls, and each of these calls, whatever its tool name and arguments,
fails with error code `InternalError`. -/
theorem missing_credentials_internal_error (penv : ProcessEnv) (e : Env)
    (requests : List CallToolRequest)
    (hmissing : unset penv.LABELLERR_API_KEY = true ∨ unset penv.LABELLERR_API_SECRET = true
      ∨ unset penv.LABELLERR_CLIENT_ID = true) :
    initializeClient penv = none ∧
    (runCalls e requests (newServer penv)).2.labellerrClient = none ∧
    (runCalls e requests (newServer penv)).1.length = requests.length ∧
    ∀ r ∈ (runCalls e requests (newServer penv)).1,
      ∃ message, r = .error (.mcp .InternalError message) := by
  have hnone : initializeClient penv = none := by
    unfold initializeClient
    rcases hmissing with h | h | h <;> simp [h]
  have hstate : (newServer penv).labellerrClient = none := hnone
  obtain ⟨h1, h2, h3⟩ := runCalls_of_no_client e requests (newServer penv) hstate
  exact ⟨hnone, by rw [h1]; exact hstate, h2, h3⟩

/-- C5 at a concrete input: with an empty API secret, `monitor_system_health`
and an unknown tool both fail with `InternalError`. -/
theorem missing_credentials_internal_error_witness :
    (runCalls (scriptedEnv [])
      [{ name := "monitor_system_health", arguments := some [] },
       { name := "no_such_tool", arguments := none }]
      (newServer { LABELLERR_API_KEY := some "key", LABELLERR_API_SECRET := some "",
                   LABELLERR_CLIENT_ID := some "client" })).1.length = 2 ∧
    ∀ r ∈ (runCalls (scriptedEnv [])
      [{ name := "monitor_system_health", arguments := some [] },
       { name := "no_such_tool", arguments := none }]
      (newServer { LABELLERR_API_KEY := some "key", LABELLERR_API_SECRET := some "",
                   LABELLERR_CLIENT_ID := some "client" })).1,
      ∃ message, r = .error (.mcp .InternalError message) :=
  ((missing_credentials_internal_error
    { LABELLERR_API_KEY := some "key", LABELLERR_API_SECRET := some "",
      LABELLERR_CLIENT_ID := some "client" } (scriptedEnv [])
    [{ name := "monitor_system_health", arguments := some [] },
     { name := "no_such_tool", arguments := none }]
    (Or.inr (Or.inl (by decide)))).2.2)

theorem keeps_bind {σ α β γ : Type} {f : σ → γ} {x : Eff σ α} {g : α → Eff σ β}
    (hx : Keeps f x) (hg : ∀ a, Keeps f (g a)) : Keeps f (x >>= g) := by
  intro s
  rw [Eff.bind_apply]
  have h1 := hx s
  rcases hxs : x s with ⟨r, s1⟩
  rw [hxs] at h1
  cases r with
  | error t => exact h1
  | ok a => exact (hg a s1).trans h1

theorem keeps_iterate {σ γ : Type} (f : σ → γ) (v : JSValue) (source : String) :
    Keeps f (iterate v source : Eff σ (List JSValue)) := by
  intro s
  unfold iterate
  cases elements v <;> rfl

theorem keeps_isActive {γ : Type} (f : ServerState → γ) (e : Env) (op : OperationRecord)
    (hf : ∀ s : ServerState, f { s with ticks := s.ticks + 1 } = f s) :
    Keeps f (isActive e op) := by
  intro s
  unfold isActive
  split_ifs
  · rfl
  · exact hf s

theorem keeps_filterActive {γ : Type} (f : ServerState → γ) (e : Env)
    (hf : ∀ s : ServerState, f { s with ticks := s.ticks + 1 } = f s)
    (ops : List OperationRecord) : Keeps f (filterActive e ops) := by
  induction ops with
  | nil => exact fun _ => rfl
  | cons op rest ih =>
    unfold filterActive
    exact keeps_bind (keeps_isActive f e op hf) (fun _ => keeps_bind ih (fun _ _ => rfl))

theorem projectSwitch_keeps_history (e : Env) (name : String) (args : JSValue) :
    Keeps ServerState.operationHistory (projectSwitch e name args) := by
  unfold projectSwitch
  split_ifs <;>
    repeat' (first
      | apply keeps_bind
      | exact keeps_iterate _ _ _
      | exact fun _ => rfl
      | intro _)

theorem datasetSwitch_keeps_history (e : Env) (name : String) (args : JSValue) :
    Keeps ServerState.operationHistory (datasetSwitch e name args) := by
  unfold datasetSwitch
  split_ifs <;>
    repeat' (first
      | apply keeps_bind
      | exact keeps_iterate _ _ _
      | exact fun _ => rfl
      | intro _)

theorem annotationSwitch_keeps_history (e : Env) (name : String) (args : JSValue) :
    Keeps ServerState.operationHistory (annotationSwitch e name args) := by
  unfold annotationSwitch
  split_ifs <;> exact fun _ => rfl

theorem handleMonitoringTool_keeps_history (e : Env) (name : String) (args : JSValue) :
    Keeps ServerState.operationHistory (handleMonitoringTool e name args) := by
  unfold handleMonitoringTool
  split_ifs <;>
    repeat' (first
      | apply keeps_bind
      | exact keeps_filterActive ServerState.operationHistory e (fun _ => rfl) _
      | exact fun _ => rfl
      | intro _)

theorem handleQueryTool_keeps_history (e : Env) (name : String) (args : JSValue) :
    Keeps ServerState.operationHistory (handleQueryTool e name args) := by
  unfold handleQueryTool
  split_ifs <;>
    repeat' (first
      | apply keeps_bind
      | exact fun _ => rfl
      | intro _)

/-! ## The log across one tool call -/

/-- A handler that reads the clock, runs a `switch` that leaves the log
alone, and then pushes a success record: the log gains that record when the
handler returns and is unchanged when it throws. -/
theorem logged_handler {x : Eff ServerState JSValue} (e : Env) (name : String)
    (args : Option JSValue) (hx : Keeps ServerState.operationHistory x) (s s1 : ServerState)
    (out : Except Thrown JSValue)
    (h : (do
      let startTime ← now e
      let result ← x
      let timestamp ← now e
      let finished ← now e
      pushHistory (successRecord timestamp name startTime finished args)
      pure result : Eff ServerState JSValue) s = (out, s1)) :
    (∀ t, out = .error t → s1.operationHistory = s.operationHistory) ∧
    (∀ v, out = .ok v → ∃ r, s1.operationHistory = s.operationHistory ++ [r] ∧
      r.status = "success" ∧ r.tool = name) := by
  simp only [Eff.bind_apply, now_apply] at h
  have hk := hx { s with ticks := s.ticks + 1 }
  rcases hxs : x { s with ticks := s.ticks + 1 } with ⟨r, s2⟩
  rw [hxs] at h hk
  cases r with
  | error t =>
    simp only [Prod.mk.injEq] at h
    obtain ⟨h1, h2⟩ := h
    subst h1 h2
    exact ⟨fun _ _ => hk, fun v hv => by cases hv⟩
  | ok v =>
    simp only [pushHistory_apply, Eff.pure_apply, Prod.mk.injEq] at h
    obtain ⟨h1, h2⟩ := h
    subst h1 h2
    refine ⟨fun t ht => (by cases ht), fun _ _ => ?_⟩
    simp only at hk
    simp only [hk]
    exact ⟨_, rfl, rfl, rfl⟩

/-- The routing leaves the log unchanged when it throws. -/
theorem route_error_log (e : Env) (name : String) (args : JSValue) (s s1 : ServerState)
    (t : Thrown) (h : route e name args s = (.error t, s1)) :
    s1.operationHistory = s.operationHistory := by
  unfold route at h
  split_ifs at h
  · exact (logged_handler e name (some args) (projectSwitch_keeps_history e name args)
      s s1 _ h).1 t rfl
  · exact (logged_handler e name none (datasetSwitch_keeps_history e name args)
      s s1 _ h).1 t rfl
  · exact (logged_handler e name none (annotationSwitch_keeps_history e name args)
      s s1 _ h).1 t rfl
  · have := handleMonitoringTool_keeps_history e name args s
    rw [h] at this
    exact this
  · have := handleQueryTool_keeps_history e name args s
    rw [h] at this
    exact this
  · simp only [Eff.throw_apply, Prod.mk.injEq] at h
    rw [← h.2]

/-- When the routing returns, the log is unchanged or has gained one success
record; it has gained one in the project, dataset and annotation categories. -/
theorem route_ok_log (e : Env) (name : String) (args : JSValue) (s s1 : ServerState)
    (v : JSValue) (h : route e name args s = (.ok v, s1)) :
    (s1.operationHistory = s.operationHistory ∧
      (categoryOf name = some .monitoringTools ∨ categoryOf name = some .queryTools)) ∨
    (∃ r, s1.operationHistory = s.operationHistory ++ [r] ∧ r.status = "success" ∧
      r.tool = name) ∧
      (categoryOf name = some .projectTools ∨ categoryOf name = some .datasetTools ∨
        categoryOf name = some .annotationTools) := by
  unfold route at h
  unfold categoryOf
  split_ifs at h ⊢
  · exact Or.inr ⟨(logged_handler e name (some args) (projectSwitch_keeps_history e name args)
      s s1 _ h).2 v rfl, Or.inl rfl⟩
  · exact Or.inr ⟨(logged_handler e name none (datasetSwitch_keeps_history e name args)
      s s1 _ h).2 v rfl, Or.inr (Or.inl rfl)⟩
  · exact Or.inr ⟨(logged_handler e name none (annotationSwitch_keeps_history e name args)
      s s1 _ h).2 v rfl, Or.inr (Or.inr rfl)⟩
  · have := handleMonitoringTool_keeps_history e name args s
    rw [h] at this
    exact Or.inl ⟨this, Or.inl rfl⟩
  · have := handleQueryTool_keeps_history e name args s
    rw [h] at this
    exact Or.inl ⟨this, Or.inr rfl⟩
  · simp at h

/-- The log after a call made with an initialised client, by the outcome of
the routing. -/
theorem callTool_log_of_client (e : Env) (request : CallToolRequest) (s : ServerState)
    (hclient : s.labellerrClient.isSome = true) :
    (∀ t, (callTool e request s).1 = .error t →
      ∃ r, (callTool e request s).2.operationHistory = s.operationHistory ++ [r] ∧
        r.status = "failed" ∧ r.tool = request.name) ∧
    (∀ v, (callTool e request s).1 = .ok v →
      ((callTool e request s).2.operationHistory = s.operationHistory ∧
        (categoryOf request.name = some .monitoringTools ∨
          categoryOf request.name = some .queryTools)) ∨
      (∃ r, (callTool e request s).2.operationHistory = s.operationHistory ++ [r] ∧
        r.status = "success" ∧ r.tool = request.name) ∧
        (categoryOf request.name = some .projectTools ∨
          categoryOf request.name = some .datasetTools ∨
          categoryOf request.name = some .annotationTools)) := by
  rw [callTool_of_client e request s hclient]
  rcases hr : route e request.name request.args s with ⟨out, s1⟩
  cases out with
  | error t =>
    have hlog := route_error_log e _ _ s s1 t hr
    refine ⟨fun _ _ => ?_, fun v hv => ?_⟩
    · simp only [onFailure_apply, hlog]
      exact ⟨_, rfl, rfl, rfl⟩
    · simp [onFailure_apply] at hv
  | ok v =>
    refine ⟨fun t ht => ?_, fun _ _ => ?_⟩
    · simp at ht
    · exact route_ok_log e _ _ s s1 v hr

/-- C1 (as amended): one tool call appends at most one record to the log.
With an initialised client it appends exactly one record, of status `failed`,
when the call fails, and exactly one record, of status `success`, when a
call of the project, dataset or annotation category succeeds. Without a
client the call is rejected before the logging code and the log is
unchanged. -/
theorem log_grows_by_one_record (e : Env) (request : CallToolRequest) (s : ServerState) :
    (∃ l, (callTool e request s).2.operationHistory = s.operationHistory ++ l ∧ l.length ≤ 1) ∧
    (s.labellerrClient = none →
      (callTool e request s).2.operationHistory = s.operationHistory) ∧
    (s.labellerrClient.isSome = true → ∀ t, (callTool e request s).1 = .error t →
      ∃ r, (callTool e request s).2.operationHistory = s.operationHistory ++ [r] ∧
        r.status = "failed" ∧ r.tool = request.name) ∧
    (s.labellerrClient.isSome = true → ∀ v, (callTool e request s).1 = .ok v →
      (categoryOf request.name = some .projectTools ∨
        categoryOf request.name = some .datasetTools ∨
        categoryOf request.name = some .annotationTools) →
      ∃ r, (callTool e request s).2.operationHistory = s.operationHistory ++ [r] ∧
        r.status = "success" ∧ r.tool = request.name) := by
  refine ⟨?_, ?_, ?_, ?_⟩
  · cases hc : s.labellerrClient with
    | none =>
      rw [callTool_of_no_client e request s hc]
      exact ⟨[], by simp, by simp⟩
    | some c =>
      have hclient : s.labellerrClient.isSome = true := by simp [hc]
      obtain ⟨hfail, hok⟩ := callTool_log_of_client e request s hclient
      rcases hout : (callTool e request s).1 with t | v
      · obtain ⟨r, hr, _⟩ := hfail t hout
        exact ⟨[r], hr, by simp⟩
      · rcases hok v hout with ⟨h, _⟩ | ⟨⟨r, hr, _⟩, _⟩
        · exact ⟨[], by simp [h], by simp⟩
        · exact ⟨[r], hr, by simp⟩
  · intro hc
    rw [callTool_of_no_client e request s hc]
  · intro hclient
    exact (callTool_log_of_client e request s hclient).1
  · intro hclient v hv hcat
    rcases (callTool_log_of_client e request s hclient).2 v hv with ⟨_, h⟩ | ⟨h, _⟩
    · rcases h with h | h <;> rcases hcat with h2 | h2 | h2 <;> rw [h] at h2 <;> cases h2
    · exact h

/-- C1 as amended, at a concrete input: a `project_list` call answered with
an empty list succeeds and appends exactly one `success` record. -/
theorem log_grows_by_one_record_witness :
    ∃ r, (callTool (scriptedEnv [.response 200 (.obj [("response", .arr [])])])
        { name := "project_list", arguments := some [] } readyServer).2.operationHistory
        = readyServer.operationHistory ++ [r] ∧
      r.status = "success" ∧ r.tool = "project_list" :=
  (log_grows_by_one_record (scriptedEnv [.response 200 (.obj [("response", .arr [])])])
    { name := "project_list", arguments := some [] } readyServer).2.2.2
    (by decide) (.obj [("success", .bool true), ("projects", .arr []), ("total", .nat 0)])
    (by decide) (Or.inl (by decide))

/-- C1 as stated fails: a call made without credentials is rejected and
leaves the log empty, and a successful `monitor_system_health` call made with
credentials leaves the log empty as well. -/
theorem log_not_always_one_more :
    (callTool (scriptedEnv []) { name := "project_list", arguments := some [] }
      (newServer { LABELLERR_API_KEY := none, LABELLERR_API_SECRET := none,
                   LABELLERR_CLIENT_ID := none })).2.operationHistory.length ≠
      (newServer { LABELLERR_API_KEY := none, LABELLERR_API_SECRET := none,
                   LABELLERR_CLIENT_ID := none }).operationHistory.length + 1 ∧
    (∃ v, (callTool (scriptedEnv []) { name := "monitor_system_health", arguments := some [] }
      readyServer).1 = .ok v) ∧
    (callTool (scriptedEnv []) { name := "monitor_system_health", arguments := some [] }
      readyServer).2.operationHistory.length ≠ readyServer.operationHistory.length + 1 := by
  refine ⟨by decide, ⟨_, rfl⟩, by decide⟩

/-! ## A rejected request aborts the call -/

theorem aborts_bind {σ α β : Type} {e : Env} {count : σ → Nat} {x : Eff σ α}
    {g : α → Eff σ β} (hx : AbortsOnRejection e count x)
    (hg : ∀ a, AbortsOnRejection e count (g a)) : AbortsOnRejection e count (x >>= g) := by
  intro s i status data h1 h2 h3 h4
  rw [Eff.bind_apply] at h2 ⊢
  have hxs := hx s i status data h1
  rcases hr : x s with ⟨r, s1⟩
  rw [hr] at h2 hxs
  cases r with
  | error t =>
    simp only at h2 hxs ⊢
    rw [Except.error.inj (hxs h2 h3 h4)]
  | ok a =>
    simp only at h2 hxs ⊢
    by_cases hlt : i < count s1
    · have := hxs hlt h3 h4
      cases this
    · exact hg a s1 i status data (Nat.le_of_not_lt hlt) h2 h3 h4

theorem aborts_of_keeps {σ α : Type} {e : Env} {count : σ → Nat} {x : Eff σ α}
    (hx : Keeps count x) : AbortsOnRejection e count x := by
  intro s i status data h1 h2 _ _
  rw [hx s] at h2
  omega

theorem aborts_ite {σ α : Type} {e : Env} {count : σ → Nat} {c : Prop}
    [Decidable c] {x y : Eff σ α} (hx : AbortsOnRejection e count x)
    (hy : AbortsOnRejection e count y) :
    AbortsOnRejection e count (if c then x else y) := by
  split_ifs
  · exact hx
  · exact hy

theorem makeRequest_aborts (e : Env) : AbortsOnRejection e id (makeRequest e) := by
  intro n i status data h1 h2 h3 h4
  have hi : i = n := by
    unfold makeRequest at h2
    simp only [id] at h1 h2
    split at h2
    · simp at h2; omega
    · split_ifs at h2 <;> simp at h2 <;> omega
  subst hi
  unfold makeRequest
  simp [h3, h4]

theorem uploadFiles_aborts (e : Env) (uploadConfig : JSValue) :
    AbortsOnRejection e id (uploadFiles e uploadConfig) := by
  unfold uploadFiles
  repeat' (first
    | exact makeRequest_aborts e
    | exact aborts_of_keeps (fun _ => rfl)
    | apply aborts_bind
    | intro _)

theorem uploadFolder_aborts (e : Env) (uploadConfig : JSValue) :
    AbortsOnRejection e id (uploadFolder e uploadConfig) := by
  unfold uploadFolder
  repeat' (first
    | exact uploadFiles_aborts e _
    | exact aborts_of_keeps (fun _ => rfl)
    | apply aborts_bind
    | intro _)

theorem createProject_aborts (e : Env) (projectConfig : JSValue) :
    AbortsOnRejection e id (createProject e projectConfig) := by
  unfold createProject
  repeat' (first
    | exact makeRequest_aborts e
    | exact uploadFiles_aborts e _
    | exact uploadFolder_aborts e _
    | exact aborts_of_keeps (fun _ => rfl)
    | apply aborts_ite
    | apply aborts_bind
    | intro _)

theorem getAllProjects_aborts (e : Env) : AbortsOnRejection e id (getAllProjects e) := by
  unfold getAllProjects
  repeat' (first
    | exact makeRequest_aborts e
    | exact aborts_of_keeps (fun _ => rfl)
    | apply aborts_bind
    | intro _)

theorem getProjectDetails_aborts (e : Env) : AbortsOnRejection e id (getProjectDetails e) := by
  unfold getProjectDetails
  repeat' (first
    | exact makeRequest_aborts e
    | exact aborts_of_keeps (fun _ => rfl)
    | apply aborts_bind
    | intro _)

theorem updateRotationConfig_aborts (e : Env) : AbortsOnRejection e id (updateRotationConfig e) := by
  unfold updateRotationConfig
  repeat' (first
    | exact makeRequest_aborts e
    | exact aborts_of_keeps (fun _ => rfl)
    | apply aborts_bind
    | intro _)

theorem createDataset_aborts (e : Env) : AbortsOnRejection e id (createDataset e) := by
  unfold createDataset
  repeat' (first
    | exact makeRequest_aborts e
    | exact aborts_of_keeps (fun _ => rfl)
    | apply aborts_bind
    | intro _)

theorem getAllDatasets_aborts (e : Env) : AbortsOnRejection e id (getAllDatasets e) := by
  unfold getAllDatasets
  repeat' (first
    | exact makeRequest_aborts e
    | exact aborts_of_keeps (fun _ => rfl)
    | apply aborts_bind
    | intro _)

theorem getDataset_aborts (e : Env) : AbortsOnRejection e id (getDataset e) := by
  unfold getDataset
  repeat' (first
    | exact makeRequest_aborts e
    | exact aborts_of_keeps (fun _ => rfl)
    | apply aborts_bind
    | intro _)

theorem uploadPreannotations_aborts (e : Env) (annotationConfig : JSValue) :
    AbortsOnRejection e id (uploadPreannotations e annotationConfig) := by
  unfold uploadPreannotations
  repeat' (first
    | exact makeRequest_aborts e
    | exact aborts_of_keeps (fun _ => rfl)
    | apply aborts_bind
    | intro _)

theorem createExport_aborts (e : Env) (exportConfig : JSValue) :
    AbortsOnRejection e id (createExport e exportConfig) := by
  unfold createExport
  repeat' (first
    | exact makeRequest_aborts e
    | exact aborts_of_keeps (fun _ => rfl)
    | apply aborts_bind
    | intro _)

theorem checkExportStatus_aborts (e : Env) (statusConfig : JSValue) :
    AbortsOnRejection e id (checkExportStatus e statusConfig) := by
  unfold checkExportStatus
  repeat' (first
    | exact makeRequest_aborts e
    | exact aborts_of_keeps (fun _ => rfl)
    | apply aborts_bind
    | intro _)

theorem downloadExport_aborts (e : Env) (downloadConfig : JSValue) :
    AbortsOnRejection e id (downloadExport e downloadConfig) := by
  unfold downloadExport
  repeat' (first
    | exact makeRequest_aborts e
    | exact aborts_of_keeps (fun _ => rfl)
    | apply aborts_bind
    | intro _)

theorem uploadPreannotationsAsync_aborts (e : Env) (annotationConfig : JSValue) :
    AbortsOnRejection e id (uploadPreannotationsAsync e annotationConfig) := by
  unfold uploadPreannotationsAsync
  repeat' (first
    | exact uploadPreannotations_aborts e _
    | exact aborts_of_keeps (fun _ => rfl)
    | apply aborts_bind
    | intro _)

theorem getProjectProgress_aborts (e : Env) (projectId : JSValue) :
    AbortsOnRejection e id (getProjectProgress e projectId) := by
  unfold getProjectProgress
  repeat' (first
    | exact getProjectDetails_aborts e
    | exact aborts_of_keeps (fun _ => rfl)
    | apply aborts_bind
    | intro _)

theorem callClient_aborts {α : Type} (e : Env) (m : Eff Nat α)
    (hm : AbortsOnRejection e id m) :
    AbortsOnRejection e ServerState.requests (callClient m) := by
  intro s i status data h1 h2 h3 h4
  exact hm s.requests i status data h1 h2 h3 h4

theorem projectSwitch_aborts (e : Env) (name : String) (args : JSValue) :
    AbortsOnRejection e ServerState.requests (projectSwitch e name args) := by
  unfold projectSwitch
  split_ifs <;>
    repeat' (first
      | exact callClient_aborts e _ (createProject_aborts e _)
      | exact callClient_aborts e _ (getAllProjects_aborts e)
      | exact callClient_aborts e _ (getProjectDetails_aborts e)
      | exact callClient_aborts e _ (updateRotationConfig_aborts e)
      | exact aborts_of_keeps (keeps_iterate _ _ _)
      | exact aborts_of_keeps (fun _ => rfl)
      | apply aborts_bind
      | intro _)

theorem datasetSwitch_aborts (e : Env) (name : String) (args : JSValue) :
    AbortsOnRejection e ServerState.requests (datasetSwitch e name args) := by
  unfold datasetSwitch
  split_ifs <;>
    repeat' (first
      | exact callClient_aborts e _ (createDataset_aborts e)
      | exact callClient_aborts e _ (uploadFiles_aborts e _)
      | exact callClient_aborts e _ (uploadFolder_aborts e _)
      | exact callClient_aborts e _ (getAllDatasets_aborts e)
      | exact callClient_aborts e _ (getDataset_aborts e)
      | exact aborts_of_keeps (keeps_iterate _ _ _)
      | exact aborts_of_keeps (fun _ => rfl)
      | apply aborts_bind
      | intro _)

theorem annotationSwitch_aborts (e : Env) (name : String) (args : JSValue) :
    AbortsOnRejection e ServerState.requests (annotationSwitch e name args) := by
  unfold annotationSwitch
  split_ifs <;>
    first
      | exact callClient_aborts e _ (uploadPreannotations_aborts e _)
      | exact callClient_aborts e _ (uploadPreannotationsAsync_aborts e _)
      | exact callClient_aborts e _ (createExport_aborts e _)
      | exact callClient_aborts e _ (checkExportStatus_aborts e _)
      | exact callClient_aborts e _ (downloadExport_aborts e _)
      | exact aborts_of_keeps (fun _ => rfl)

theorem handleProjectTool_aborts (e : Env) (name : String) (args : JSValue) :
    AbortsOnRejection e ServerState.requests (handleProjectTool e name args) := by
  unfold handleProjectTool
  repeat' (first
    | exact projectSwitch_aborts e _ _
    | exact aborts_of_keeps (fun _ => rfl)
    | apply aborts_bind
    | intro _)

theorem handleDatasetTool_aborts (e : Env) (name : String) (args : JSValue) :
    AbortsOnRejection e ServerState.requests (handleDatasetTool e name args) := by
  unfold handleDatasetTool
  repeat' (first
    | exact datasetSwitch_aborts e _ _
    | exact aborts_of_keeps (fun _ => rfl)
    | apply aborts_bind
    | intro _)

theorem handleAnnotationTool_aborts (e : Env) (name : String) (args : JSValue) :
    AbortsOnRejection e ServerState.requests (handleAnnotationTool e name args) := by
  unfold handleAnnotationTool
  repeat' (first
    | exact annotationSwitch_aborts e _ _
    | exact aborts_of_keeps (fun _ => rfl)
    | apply aborts_bind
    | intro _)

theorem handleMonitoringTool_aborts (e : Env) (name : String) (args : JSValue) :
    AbortsOnRejection e ServerState.requests (handleMonitoringTool e name args) := by
  unfold handleMonitoringTool
  split_ifs <;>
    repeat' (first
      | exact callClient_aborts e _ (getProjectProgress_aborts e _)
      | exact callClient_aborts e _ (aborts_of_keeps (fun _ => rfl))
      | exact aborts_of_keeps
          (keeps_filterActive ServerState.requests e (fun _ => rfl) _)
      | exact aborts_of_keeps (fun _ => rfl)
      | apply aborts_bind
      | intro _)

theorem handleQueryTool_aborts (e : Env) (name : String) (args : JSValue) :
    AbortsOnRejection e ServerState.requests (handleQueryTool e name args) := by
  unfold handleQueryTool
  split_ifs <;>
    repeat' (first
      | exact callClient_aborts e _ (getProjectDetails_aborts e)
      | exact callClient_aborts e _ (getDataset_aborts e)
      | exact callClient_aborts e _ (getAllProjects_aborts e)
      | exact aborts_of_keeps (fun _ => rfl)
      | apply aborts_bind
      | intro _)

theorem route_aborts (e : Env) (name : String) (args : JSValue) :
    AbortsOnRejection e ServerState.requests (route e name args) := by
  unfold route
  split_ifs
  · exact handleProjectTool_aborts e name args
  · exact handleDatasetTool_aborts e name args
  · exact handleAnnotationTool_aborts e name args
  · exact handleMonitoringTool_aborts e name args
  · exact handleQueryTool_aborts e name args
  · exact aborts_of_keeps (fun _ => rfl)

/-- A text that ends in `m` includes `m`. -/
theorem includes_append (a m : String) : includes (a ++ m) m = true := by
  unfold includes
  simp only [String.data_append, decide_eq_true_eq]
  exact (List.suffix_append a.data m.data).isInfix

/-- The message thrown for a response that is not ok and whose body carries a
non-empty string `message`. -/
theorem failureMessage_of_message (e : Env) (status : Nat) (data : JSValue) (m : String)
    (hmessage : getProp data "message" = .ok (.str m)) (hm : m ≠ "") :
    failureMessage e status data = m := by
  unfold failureMessage
  rw [hmessage]
  simp [JSValue.truthy, hm, toStringJS]

/-- C4 (as amended): when a request issued by a tool call is answered with a
status outside 200 to 299 and a body whose `message` is the non-empty string
`m`, the call fails with `InternalError` and the message
`Tool execution failed: API request failed: <m>`, which contains `m`; the log
gains exactly one record, its last entry, of status `failed`, whose error
field is `API request failed: <m>`: the message of the client error, which
contains `m` and which the surfaced error wraps rather than repeats. -/
theorem backend_rejection_reported (e : Env) (request : CallToolRequest) (s : ServerState)
    (i status : Nat) (data : JSValue) (m : String)
    (hclient : s.labellerrClient.isSome = true)
    (hfrom : s.requests ≤ i) (hissued : i < (callTool e request s).2.requests)
    (hresponse : e.http i = .response status data) (hstatus : responseOk status = false)
    (hmessage : getProp data "message" = .ok (.str m)) (hm : m ≠ "") :
    (callTool e request s).1 = .error (.mcp .InternalError
      ("Tool execution failed: " ++ ("API request failed: " ++ m))) ∧
    includes ("Tool execution failed: " ++ ("API request failed: " ++ m)) m = true ∧
    ∃ r, (callTool e request s).2.operationHistory = s.operationHistory ++ [r] ∧
      (callTool e request s).2.operationHistory.getLast? = some r ∧
      r.status = "failed" ∧ r.tool = request.name ∧
      r.error = some ("API request failed: " ++ m) ∧
      includes ("API request failed: " ++ m) m = true := by
  rw [callTool_of_client e request s hclient] at hissued ⊢
  have habort := route_aborts e request.name request.args s i status data hfrom
  rcases hr : route e request.name request.args s with ⟨out, s1⟩
  rw [hr] at hissued habort
  have hs1 : i < s1.requests := by
    cases out with
    | ok v => exact hissued
    | error t => simpa [onFailure_apply] using hissued
  have hout := habort hs1 hresponse hstatus
  simp only at hout
  subst hout
  have hlog := route_error_log e _ _ s s1 _ hr
  rw [failureMessage_of_message e status data m hmessage hm]
  refine ⟨by simp [onFailure_apply, Thrown.isMcp, Thrown.message], ?_, ?_⟩
  · rw [← String.append_assoc]
    exact includes_append _ m
  · refine ⟨failedRecord (e.clock s1.ticks) request.name ("API request failed: " ++ m),
      by simp [onFailure_apply, hlog, Thrown.message],
      by simp [onFailure_apply, hlog, Thrown.message], rfl, rfl, rfl, includes_append _ m⟩

/-- C4 as amended, at a concrete input: `dataset_get` answered with status 404
and the message `Dataset not found`. -/
theorem backend_rejection_reported_witness :
    (callTool (scriptedEnv [.response 404 (.obj [("message", .str "Dataset not found")])])
      { name := "dataset_get", arguments := some [("dataset_id", .str "d1")] } readyServer).1
      = .error (.mcp .InternalError
          ("Tool execution failed: " ++ ("API request failed: " ++ "Dataset not found"))) ∧
    includes ("Tool execution failed: " ++ ("API request failed: " ++ "Dataset not found"))
      "Dataset not found" = true ∧
    ∃ r, (callTool (scriptedEnv [.response 404 (.obj [("message", .str "Dataset not found")])])
        { name := "dataset_get", arguments := some [("dataset_id", .str "d1")] }
        readyServer).2.operationHistory = readyServer.operationHistory ++ [r] ∧
      (callTool (scriptedEnv [.response 404 (.obj [("message", .str "Dataset not found")])])
        { name := "dataset_get", arguments := some [("dataset_id", .str "d1")] }
        readyServer).2.operationHistory.getLast? = some r ∧
      r.status = "failed" ∧ r.tool = "dataset_get" ∧
      r.error = some ("API request failed: " ++ "Dataset not found") ∧
      includes ("API request failed: " ++ "Dataset not found") "Dataset not found" = true :=
  backend_rejection_reported
    (scriptedEnv [.response 404 (.obj [("message", .str "Dataset not found")])])
    { name := "dataset_get", arguments := some [("dataset_id", .str "d1")] } readyServer
    0 404 (.obj [("message", .str "Dataset not found")]) "Dataset not found"
    (by decide) (by decide) (by decide) (by decide) (by decide) (by decide) (by decide)

/-- C4 as stated fails: for `dataset_get` answered with status 404 and the
message `Dataset not found`, the error field of the last log entry is neither
the message of the error surfaced to the caller nor the remote message. -/
theorem logged_error_differs_from_surfaced :
    (callTool (scriptedEnv [.response 404 (.obj [("message", .str "Dataset not found")])])
      { name := "dataset_get", arguments := some [("dataset_id", .str "d1")] } readyServer).1
      = .error (.mcp .InternalError
          "Tool execution failed: API request failed: Dataset not found") ∧
    ((callTool (scriptedEnv [.response 404 (.obj [("message", .str "Dataset not found")])])
      { name := "dataset_get", arguments := some [("dataset_id", .str "d1")] }
      readyServer).2.operationHistory.getLast?.map (·.error))
      = some (some "API request failed: Dataset not found") ∧
    "API request failed: Dataset not found"
      ≠ "Tool execution failed: API request failed: Dataset not found" ∧
    "API request failed: Dataset not found" ≠ "Dataset not found" := by
  decide

/-! ## Facts about maps -/

/-- Keys that the map treats as equal are equal. -/
theorem sameValueZero_eq {a b : JSValue} (h : sameValueZero a b = true) : a = b := by
  unfold sameValueZero at h
  split at h <;> simp_all

/-- A primitive key equals itself. -/
theorem sameValueZero_self {a : JSValue} (h : a.isPrimitive = true) :
    sameValueZero a a = true := by
  cases a with
  | num n => cases n <;> simp [sameValueZero]
  | arr items => simp [JSValue.isPrimitive] at h
  | obj fields => simp [JSValue.isPrimitive] at h
  | _ => simp [sameValueZero]

theorem sameValueZero_of_ne {a b : JSValue} (h : a ≠ b) : sameValueZero a b = false := by
  cases hs : sameValueZero a b
  · rfl
  · exact absurd (sameValueZero_eq hs) h

/-- Setting a key never removes a key. -/
theorem mapKeys_subset_mapSet (m : JSMap) (k v : JSValue) :
    mapKeys m ⊆ mapKeys (mapSet m k v) := by
  induction m with
  | nil => simp [mapKeys]
  | cons p rest ih =>
    obtain ⟨k1, v1⟩ := p
    unfold mapSet
    split_ifs
    · simp [mapKeys]
    · intro x hx
      simp only [mapKeys, List.map_cons, List.mem_cons] at hx ⊢
      rcases hx with hx | hx
      · exact Or.inl hx
      · exact Or.inr (ih hx)

/-- The key that was set is a key of the map. -/
theorem mem_mapKeys_mapSet (m : JSMap) (k v : JSValue) : k ∈ mapKeys (mapSet m k v) := by
  induction m with
  | nil => simp [mapKeys, mapSet]
  | cons p rest ih =>
    obtain ⟨k1, v1⟩ := p
    unfold mapSet
    split_ifs with h
    · rw [← sameValueZero_eq h]
      simp [mapKeys]
    · simp only [mapKeys, List.map_cons, List.mem_cons]
      exact Or.inr ih

/-- Setting a key that equals no stored key appends it. -/
theorem mapKeys_mapSet_of_new (m : JSMap) (k v : JSValue)
    (hnew : ∀ k1 ∈ mapKeys m, k1 ≠ k) : mapKeys (mapSet m k v) = mapKeys m ++ [k] := by
  induction m with
  | nil => simp [mapKeys, mapSet]
  | cons p rest ih =>
    obtain ⟨k1, v1⟩ := p
    have h1 : sameValueZero k1 k = false :=
      sameValueZero_of_ne (hnew k1 (by simp [mapKeys]))
    have ih2 := ih (fun k2 hk2 => hnew k2 (List.mem_cons_of_mem _ hk2))
    simp only [mapSet, h1, Bool.false_eq_true, if_false]
    simp only [mapKeys, List.map_cons, List.cons_append, List.cons.injEq, true_and] at ih2 ⊢
    exact ih2

/-- The entry that was set is an entry of the map. -/
theorem mem_mapSet (m : JSMap) (k v : JSValue) : (k, v) ∈ mapSet m k v := by
  induction m with
  | nil => simp [mapSet]
  | cons p rest ih =>
    obtain ⟨k1, v1⟩ := p
    unfold mapSet
    split_ifs with h
    · simp [sameValueZero_eq h]
    · exact List.mem_cons_of_mem _ ih

/-- Setting a key keeps the entries of the other keys. -/
theorem mem_mapSet_of_ne (m : JSMap) (k v k2 v2 : JSValue) (hne : k2 ≠ k)
    (h : (k2, v2) ∈ m) : (k2, v2) ∈ mapSet m k v := by
  induction m with
  | nil => cases h
  | cons p rest ih =>
    obtain ⟨k1, v1⟩ := p
    unfold mapSet
    rcases List.mem_cons.mp h with h1 | h1
    · have hk : k1 = k2 := by cases h1; rfl
      have hv : v1 = v2 := by cases h1; rfl
      subst hk hv
      simp [sameValueZero_of_ne hne]
    · split_ifs
      · exact List.mem_cons_of_mem _ h1
      · exact List.mem_cons_of_mem _ (ih h1)

/-- Reading a primitive key just set gives the value set. -/
theorem mapGet_mapSet_self (m : JSMap) (k v : JSValue) (hk : k.isPrimitive = true) :
    mapGet (mapSet m k v) k = some v := by
  induction m with
  | nil => simp [mapSet, mapGet, sameValueZero_self hk]
  | cons p rest ih =>
    obtain ⟨k1, v1⟩ := p
    unfold mapSet
    split_ifs with h
    · simp [mapGet, h]
    · simp [mapGet, h, ih]

/-- Setting a key does not change what another key reads. -/
theorem mapGet_mapSet_of_ne (m : JSMap) (k v k2 : JSValue) (hne : k ≠ k2) :
    mapGet (mapSet m k v) k2 = mapGet m k2 := by
  induction m with
  | nil => simp [mapSet, mapGet, sameValueZero_of_ne hne]
  | cons p rest ih =>
    obtain ⟨k1, v1⟩ := p
    unfold mapSet
    split_ifs with h
    · have hk : k1 = k := sameValueZero_eq h
      subst hk
      simp [mapGet, sameValueZero_of_ne hne]
    · simp only [mapGet, ih]

/-! ## The caches across one tool call -/

/-- A successful `project_create` switch sets the returned project id in the
project cache and touches nothing else of the caches. -/
theorem projectSwitch_create (e : Env) (args : JSValue) (s s1 : ServerState) (v : JSValue)
    (h : projectSwitch e "project_create" args s = (.ok v, s1)) :
    ∃ record, s1.activeProjects = mapSet s.activeProjects (optProp v "project_id") record ∧
      s1.activeDatasets = s.activeDatasets := by
  unfold projectSwitch at h
  simp only [if_true, Eff.bind_apply, callClient_apply, Eff.lift_apply, now_apply,
    onProjects_apply, setEntry, Eff.pure_apply] at h
  rcases hc : createProject e args s.requests with ⟨out, n⟩
  rw [hc] at h
  cases out with
  | error t => simp at h
  | ok a =>
    cases hp : getProp a "project_id" with
    | error t => simp [hp] at h
    | ok pid =>
      cases hn : getProp args "project_name" with
      | error t => simp [hp, hn] at h
      | ok nm =>
        cases hd : getProp args "data_type" with
        | error t => simp [hp, hn, hd] at h
        | ok dt =>
          simp only [hp, hn, hd, Prod.mk.injEq, Except.ok.injEq] at h
          obtain ⟨h1, h2⟩ := h
          subst h1 h2
          have ho : optProp a "project_id" = pid := by simp [optProp, hp]
          rw [ho]
          exact ⟨_, rfl, rfl⟩

/-- A handler that returns passes on the result of its `switch`, and after
the `switch` only the clock counter and the log change. -/
theorem logged_handler_ok {x : Eff ServerState JSValue} (e : Env) (name : String)
    (args : Option JSValue) (s s1 : ServerState) (v : JSValue)
    (h : (do
      let startTime ← now e
      let result ← x
      let timestamp ← now e
      let finished ← now e
      pushHistory (successRecord timestamp name startTime finished args)
      pure result : Eff ServerState JSValue) s = (.ok v, s1)) :
    ∃ s2, x { s with ticks := s.ticks + 1 } = (.ok v, s2) ∧
      s1.activeProjects = s2.activeProjects ∧ s1.activeDatasets = s2.activeDatasets ∧
      s1.labellerrClient = s2.labellerrClient := by
  simp only [Eff.bind_apply, now_apply] at h
  rcases hxs : x { s with ticks := s.ticks + 1 } with ⟨r, s2⟩
  rw [hxs] at h
  cases r with
  | error t => simp at h
  | ok w =>
    simp only [pushHistory_apply, Eff.pure_apply, Prod.mk.injEq, Except.ok.injEq] at h
    obtain ⟨h1, h2⟩ := h
    subst h1 h2
    exact ⟨s2, rfl, rfl, rfl, rfl⟩

/-- A successful call of the project category is a successful run of the
project `switch`, whose caches are those after the call. -/
theorem callTool_ok_project (e : Env) (request : CallToolRequest) (s : ServerState)
    (v : JSValue) (hclient : s.labellerrClient.isSome = true)
    (hcategory : startsWith request.name "project_" = true)
    (hok : (callTool e request s).1 = .ok v) :
    ∃ s2, projectSwitch e request.name request.args { s with ticks := s.ticks + 1 }
        = (.ok v, s2) ∧
      (callTool e request s).2.activeProjects = s2.activeProjects ∧
      (callTool e request s).2.activeDatasets = s2.activeDatasets := by
  rw [callTool_of_client e request s hclient] at hok ⊢
  rcases hr : route e request.name request.args s with ⟨out, s1⟩
  rw [hr] at hok
  cases out with
  | error t => simp [onFailure_apply] at hok
  | ok w =>
    simp only [Except.ok.injEq] at hok
    subst hok
    simp only [route, hcategory, if_true] at hr
    obtain ⟨s2, h1, h2, h3, _⟩ := logged_handler_ok e _ _ s s1 w hr
    exact ⟨s2, h1, h2, h3⟩

/-- A successful call of the dataset category is a successful run of the
dataset `switch`, whose caches are those after the call. -/
theorem callTool_ok_dataset (e : Env) (request : CallToolRequest) (s : ServerState)
    (v : JSValue) (hclient : s.labellerrClient.isSome = true)
    (hproject : startsWith request.name "project_" = false)
    (hcategory : startsWith request.name "dataset_" = true)
    (hok : (callTool e request s).1 = .ok v) :
    ∃ s2, datasetSwitch e request.name request.args { s with ticks := s.ticks + 1 }
        = (.ok v, s2) ∧
      (callTool e request s).2.activeProjects = s2.activeProjects ∧
      (callTool e request s).2.activeDatasets = s2.activeDatasets := by
  rw [callTool_of_client e request s hclient] at hok ⊢
  rcases hr : route e request.name request.args s with ⟨out, s1⟩
  rw [hr] at hok
  cases out with
  | error t => simp [onFailure_apply] at hok
  | ok w =>
    simp only [Except.ok.injEq] at hok
    subst hok
    simp only [route, hproject, hcategory, if_true, Bool.false_eq_true, if_false] at hr
    obtain ⟨s2, h1, h2, h3, _⟩ := logged_handler_ok e _ _ s s1 w hr
    exact ⟨s2, h1, h2, h3⟩

theorem projectSwitch_keeps_client (e : Env) (name : String) (args : JSValue) :
    Keeps ServerState.labellerrClient (projectSwitch e name args) := by
  unfold projectSwitch
  split_ifs <;>
    repeat' (first
      | exact keeps_iterate _ _ _
      | exact fun _ => rfl
      | apply keeps_bind
      | intro _)

theorem datasetSwitch_keeps_client (e : Env) (name : String) (args : JSValue) :
    Keeps ServerState.labellerrClient (datasetSwitch e name args) := by
  unfold datasetSwitch
  split_ifs <;>
    repeat' (first
      | exact keeps_iterate _ _ _
      | exact fun _ => rfl
      | apply keeps_bind
      | intro _)

theorem annotationSwitch_keeps_client (e : Env) (name : String) (args : JSValue) :
    Keeps ServerState.labellerrClient (annotationSwitch e name args) := by
  unfold annotationSwitch
  split_ifs <;> exact fun _ => rfl

theorem handleMonitoringTool_keeps_client (e : Env) (name : String) (args : JSValue) :
    Keeps ServerState.labellerrClient (handleMonitoringTool e name args) := by
  unfold handleMonitoringTool
  split_ifs <;>
    repeat' (first
      | exact keeps_filterActive ServerState.labellerrClient e (fun _ => rfl) _
      | exact fun _ => rfl
      | apply keeps_bind
      | intro _)

theorem handleQueryTool_keeps_client (e : Env) (name : String) (args : JSValue) :
    Keeps ServerState.labellerrClient (handleQueryTool e name args) := by
  unfold handleQueryTool
  split_ifs <;>
    repeat' (first
      | exact fun _ => rfl
      | apply keeps_bind
      | intro _)

theorem route_keeps_client (e : Env) (name : String) (args : JSValue) :
    Keeps ServerState.labellerrClient (route e name args) := by
  unfold route handleProjectTool handleDatasetTool handleAnnotationTool
  split_ifs <;>
    repeat' (first
      | exact projectSwitch_keeps_client e _ _
      | exact datasetSwitch_keeps_client e _ _
      | exact annotationSwitch_keeps_client e _ _
      | exact handleMonitoringTool_keeps_client e _ _
      | exact handleQueryTool_keeps_client e _ _
      | exact fun _ => rfl
      | apply keeps_bind
      | intro _)

/-- No tool call changes the client. -/
theorem callTool_keeps_client (e : Env) (request : CallToolRequest) :
    Keeps ServerState.labellerrClient (callTool e request) := by
  intro s
  cases hc : s.labellerrClient with
  | none => rw [callTool_of_no_client e request s hc, hc]
  | some c =>
    have hclient : s.labellerrClient.isSome = true := by simp [hc]
    rw [callTool_of_client e request s hclient]
    have h := route_keeps_client e request.name request.args s
    rcases hr : route e request.name request.args s with ⟨out, s1⟩
    rw [hr] at h
    cases out with
    | ok v => simpa [hc] using h
    | error t => simpa [onFailure_apply, hc] using h

/-- A sequence of calls returns one outcome per call. -/
theorem runCalls_length (e : Env) (requests : List CallToolRequest) (s : ServerState) :
    (runCalls e requests s).1.length = requests.length := by
  induction requests generalizing s with
  | nil => rfl
  | cons request rest ih => simp [runCalls, ih]

/-- Successful `project_create` calls whose returned ids differ from each
other and from the keys already cached append these ids to the keys of the
project cache, in call order. -/
theorem project_create_keys (e : Env) (requests : List CallToolRequest) (s : ServerState)
    (hclient : s.labellerrClient.isSome = true)
    (hnames : ∀ request ∈ requests, request.name = "project_create")
    (hok : ∀ r ∈ (runCalls e requests s).1, r.isOk = true)
    (hdistinct : (mapKeys s.activeProjects ++
      (runCalls e requests s).1.map (fun r => resultField r "project_id")).Pairwise
        (fun a b => a ≠ b)) :
    mapKeys (runCalls e requests s).2.activeProjects =
      mapKeys s.activeProjects ++
        (runCalls e requests s).1.map (fun r => resultField r "project_id") := by
  induction requests generalizing s with
  | nil => simp [runCalls]
  | cons request rest ih =>
    simp only [runCalls, List.map_cons, List.mem_cons, forall_eq_or_imp] at hok hdistinct ⊢
    obtain ⟨hfirst, hrest⟩ := hok
    obtain ⟨v, hv⟩ : ∃ v, (callTool e request s).1 = .ok v := by
      cases hres : (callTool e request s).1 with
      | ok v => exact ⟨v, rfl⟩
      | error t => rw [hres] at hfirst; cases hfirst
    have hname := hnames request (List.mem_cons_self _ _)
    obtain ⟨s2, hs2, hp, _⟩ := callTool_ok_project e request s v hclient
      (by rw [hname]; decide) hv
    rw [hname] at hs2
    obtain ⟨record, hset, _⟩ := projectSwitch_create e _ _ s2 v hs2
    have hid : resultField (callTool e request s).1 "project_id" = optProp v "project_id" := by
      rw [hv]; rfl
    have hnew : ∀ k1 ∈ mapKeys s.activeProjects, k1 ≠ optProp v "project_id" := by
      intro k1 hk1
      rw [List.pairwise_append] at hdistinct
      exact hdistinct.2.2 k1 hk1 _ (by rw [hid]; exact List.mem_cons_self _ _)
    have hkeys : mapKeys (callTool e request s).2.activeProjects
        = mapKeys s.activeProjects ++ [optProp v "project_id"] := by
      rw [hp, hset]
      exact mapKeys_mapSet_of_new _ _ _ hnew
    have hclient2 : (callTool e request s).2.labellerrClient.isSome = true := by
      rw [callTool_keeps_client e request s]; exact hclient
    have := ih (callTool e request s).2 hclient2
      (fun r hr => hnames r (List.mem_cons_of_mem _ hr)) hrest
      (by rw [hkeys, List.append_assoc]; simpa [hid] using hdistinct)
    rw [this, hkeys, hid, List.append_assoc]
    rfl

/-- C6: starting from an empty project cache, after N successful
`project_create` calls whose returned project ids are pairwise distinct, the
project cache has exactly N entries, and its keys are the returned ids, one
entry under each, in call order. -/
theorem project_create_fills_cache (e : Env) (requests : List CallToolRequest)
    (s : ServerState)
    (hclient : s.labellerrClient.isSome = true)
    (hempty : s.activeProjects = [])
    (hnames : ∀ request ∈ requests, request.name = "project_create")
    (hok : ∀ r ∈ (runCalls e requests s).1, r.isOk = true)
    (hdistinct : ((runCalls e requests s).1.map
      (fun r => resultField r "project_id")).Pairwise (fun a b => a ≠ b)) :
    (runCalls e requests s).2.activeProjects.length = requests.length ∧
    mapKeys (runCalls e requests s).2.activeProjects =
      (runCalls e requests s).1.map (fun r => resultField r "project_id") := by
  have hkeys := project_create_keys e requests s hclient hnames hok
    (by rw [hempty]; simpa [mapKeys] using hdistinct)
  rw [hempty] at hkeys
  simp only [mapKeys, List.map_nil, List.nil_append] at hkeys
  refine ⟨?_, hkeys⟩
  have hlen := congrArg List.length hkeys
  simp only [List.length_map, runCalls_length] at hlen
  exact hlen

/-- C6 at a concrete input: two `project_create` calls answered with the ids
`p1` and `p2` leave a cache of two entries with the keys `p1` and `p2`. -/
theorem project_create_fills_cache_witness :
    (runCalls
      (scriptedEnv [.response 200 (.obj [("response", .obj [("project_id", .str "p1")])]),
                    .response 200 (.obj [("response", .obj [("project_id", .str "p2")])])])
      [{ name := "project_create", arguments := some [("project_name", .str "A")] },
       { name := "project_create", arguments := some [("project_name", .str "B")] }]
      readyServer).2.activeProjects.length = 2 ∧
    mapKeys (runCalls
      (scriptedEnv [.response 200 (.obj [("response", .obj [("project_id", .str "p1")])]),
                    .response 200 (.obj [("response", .obj [("project_id", .str "p2")])])])
      [{ name := "project_create", arguments := some [("project_name", .str "A")] },
       { name := "project_create", arguments := some [("project_name", .str "B")] }]
      readyServer).2.activeProjects = [.str "p1", .str "p2"] :=
  project_create_fills_cache
    (scriptedEnv [.response 200 (.obj [("response", .obj [("project_id", .str "p1")])]),
                  .response 200 (.obj [("response", .obj [("project_id", .str "p2")])])])
    [{ name := "project_create", arguments := some [("project_name", .str "A")] },
     { name := "project_create", arguments := some [("project_name", .str "B")] }]
    readyServer (by decide) (by decide) (by decide) (by decide) (by decide)

/-- A caching loop that runs to its end has set every item under its id. -/
theorem cacheEach_ok (idKey : String) (items : List JSValue) (m m1 : JSMap)
    (h : cacheEach idKey items m = (.ok (), m1)) : m1 = cachedAll idKey m items := by
  induction items generalizing m with
  | nil =>
    simp only [cacheEach, Eff.pure_apply, Prod.mk.injEq, true_and] at h
    rw [← h]; rfl
  | cons x rest ih =>
    simp only [cacheEach, Eff.bind_apply, Eff.lift_apply, setEntry] at h
    cases hid : getProp x idKey with
    | error t => simp [hid] at h
    | ok id =>
      simp only [hid] at h
      have ho : optProp x idKey = id := by simp [optProp, hid]
      simp only [cachedAll, List.foldl_cons, ho]
      exact ih _ h

theorem mapKeys_subset_cachedAll (idKey : String) (items : List JSValue) (m : JSMap) :
    mapKeys m ⊆ mapKeys (cachedAll idKey m items) := by
  induction items generalizing m with
  | nil => exact fun _ h => h
  | cons x rest ih =>
    simp only [cachedAll, List.foldl_cons]
    exact fun k hk => ih _ (mapKeys_subset_mapSet m _ x hk)

/-- After the loop the id of every item is a key of the map. -/
theorem mem_mapKeys_cachedAll (idKey : String) (items : List JSValue) (m : JSMap)
    (x : JSValue) (hx : x ∈ items) : optProp x idKey ∈ mapKeys (cachedAll idKey m items) := by
  induction items generalizing m with
  | nil => cases hx
  | cons y rest ih =>
    simp only [cachedAll, List.foldl_cons]
    rcases List.mem_cons.mp hx with h | h
    · subst h
      exact mapKeys_subset_cachedAll idKey rest _ (mem_mapKeys_mapSet m _ _)
    · exact ih _ h

theorem mem_cachedAll_of_mem (idKey : String) (items : List JSValue) (m : JSMap)
    (k v : JSValue) (hne : ∀ y ∈ items, k ≠ optProp y idKey) (h : (k, v) ∈ m) :
    (k, v) ∈ cachedAll idKey m items := by
  induction items generalizing m with
  | nil => exact h
  | cons y rest ih =>
    simp only [cachedAll, List.foldl_cons]
    exact ih _ (fun z hz => hne z (List.mem_cons_of_mem _ hz))
      (mem_mapSet_of_ne m _ y k v (hne y (List.mem_cons_self _ _)) h)

theorem mapGet_cachedAll_of_ne (idKey : String) (items : List JSValue) (m : JSMap)
    (k : JSValue) (hne : ∀ y ∈ items, optProp y idKey ≠ k) :
    mapGet (cachedAll idKey m items) k = mapGet m k := by
  induction items generalizing m with
  | nil => rfl
  | cons y rest ih =>
    simp only [cachedAll, List.foldl_cons]
    have := ih (mapSet m (optProp y idKey) y) (fun z hz => hne z (List.mem_cons_of_mem _ hz))
    simp only [cachedAll] at this
    rw [this]
    exact mapGet_mapSet_of_ne m _ y k (hne y (List.mem_cons_self _ _))

/-- After a loop over items of pairwise distinct ids, every item is the entry
stored under its id, and a primitive id reads as its item. -/
theorem cachedAll_entries (idKey : String) (items : List JSValue) (m : JSMap)
    (hdistinct : (items.map (fun x => optProp x idKey)).Pairwise (fun a b => a ≠ b))
    (x : JSValue) (hx : x ∈ items) :
    (optProp x idKey, x) ∈ cachedAll idKey m items ∧
    ((optProp x idKey).isPrimitive = true →
      mapGet (cachedAll idKey m items) (optProp x idKey) = some x) := by
  induction items generalizing m with
  | nil => cases hx
  | cons y rest ih =>
    simp only [List.map_cons, List.pairwise_cons, List.mem_map, forall_exists_index, and_imp,
      forall_apply_eq_imp_iff₂] at hdistinct
    obtain ⟨hy, hrest⟩ := hdistinct
    rcases List.mem_cons.mp hx with h | h
    · subst h
      refine ⟨?_, fun hprim => ?_⟩
      · exact mem_cachedAll_of_mem idKey rest _ _ _ hy (mem_mapSet m _ _)
      · show mapGet (cachedAll idKey (mapSet m (optProp x idKey) x) rest) _ = _
        rw [mapGet_cachedAll_of_ne idKey rest _ _ (fun z hz => (hy z hz).symm)]
        exact mapGet_mapSet_self m _ _ hprim
    · exact ih (mapSet m (optProp y idKey) y) hrest h

/-- After a loop over M items of pairwise distinct ids the map has at least M
entries. -/
theorem cachedAll_length (idKey : String) (items : List JSValue) (m : JSMap)
    (hdistinct : (items.map (fun x => optProp x idKey)).Pairwise (fun a b => a ≠ b)) :
    items.length ≤ (cachedAll idKey m items).length := by
  have hnodup : (items.map (fun x => (optProp x idKey, x))).Nodup := by
    rw [List.Nodup, List.pairwise_map]
    rw [List.pairwise_map] at hdistinct
    exact hdistinct.imp (fun hab h => hab (congrArg Prod.fst h))
  have hsub : items.map (fun x => (optProp x idKey, x)) ⊆ cachedAll idKey m items := by
    intro p hp
    obtain ⟨x, hx, rfl⟩ := List.mem_map.mp hp
    exact (cachedAll_entries idKey items m hdistinct x hx).1
  have := (List.subperm_of_subset hnodup hsub).length_le
  simpa using this

/-- A successful `project_list` switch sets every listed project under its
project id and touches nothing else of the caches. -/
theorem projectSwitch_list (e : Env) (args : JSValue) (s s1 : ServerState) (v : JSValue)
    (h : projectSwitch e "project_list" args s = (.ok v, s1)) :
    s1.activeProjects = cachedAll "project_id" s.activeProjects (listedProjects v) ∧
    s1.activeDatasets = s.activeDatasets := by
  unfold projectSwitch at h
  rw [if_neg (by decide), if_pos rfl] at h
  simp only [Eff.bind_apply, callClient_apply, Eff.lift_apply, onProjects_apply,
    Eff.pure_apply] at h
  rcases hc : getAllProjects e s.requests with ⟨out, n⟩
  rw [hc] at h
  cases out with
  | error t => simp at h
  | ok a =>
    cases hp : getProp a "projects" with
    | error t => simp [hp] at h
    | ok projects =>
      have ho : optProp a "projects" = projects := by simp [optProp, hp]
      simp only [hp, iterate] at h
      cases he : elements (projects.or (.arr [])) with
      | none => simp [he] at h
      | some items =>
        simp only [he, Eff.pure_apply] at h
        rcases hl : cacheEach "project_id" items s.activeProjects with ⟨r, m1⟩
        rw [hl] at h
        cases r with
        | error t => simp at h
        | ok u =>
          simp only [Prod.mk.injEq, Except.ok.injEq] at h
          obtain ⟨h1, h2⟩ := h
          subst h1 h2
          have hitems : listedProjects a = items := by simp [listedProjects, ho, he]
          rw [hitems]
          exact ⟨cacheEach_ok _ _ _ _ hl, rfl⟩

/-- A successful `dataset_create` switch sets the returned dataset id in the
dataset cache and touches nothing else of the caches. -/
theorem datasetSwitch_create (e : Env) (args : JSValue) (s s1 : ServerState) (v : JSValue)
    (h : datasetSwitch e "dataset_create" args s = (.ok v, s1)) :
    ∃ record, s1.activeDatasets = mapSet s.activeDatasets (optProp v "dataset_id") record ∧
      s1.activeProjects = s.activeProjects := by
  unfold datasetSwitch at h
  simp only [if_true, Eff.bind_apply, callClient_apply, Eff.lift_apply, now_apply,
    onDatasets_apply, setEntry, Eff.pure_apply] at h
  rcases hc : createDataset e s.requests with ⟨out, n⟩
  rw [hc] at h
  cases out with
  | error t => simp at h
  | ok a =>
    cases hp : getProp a "dataset_id" with
    | error t => simp [hp] at h
    | ok did =>
      cases hn : getProp args "dataset_name" with
      | error t => simp [hp, hn] at h
      | ok nm =>
        cases hd : getProp args "data_type" with
        | error t => simp [hp, hn, hd] at h
        | ok dt =>
          simp only [hp, hn, hd, Prod.mk.injEq, Except.ok.injEq] at h
          obtain ⟨h1, h2⟩ := h
          subst h1 h2
          have ho : optProp a "dataset_id" = did := by simp [optProp, hp]
          rw [ho]
          exact ⟨_, rfl, rfl⟩

/-- A successful `dataset_list` switch sets every listed dataset, linked and
unlinked, under its dataset id and touches nothing else of the caches. -/
theorem datasetSwitch_list (e : Env) (args : JSValue) (s s1 : ServerState) (v : JSValue)
    (h : datasetSwitch e "dataset_list" args s = (.ok v, s1)) :
    s1.activeDatasets = cachedAll "dataset_id" s.activeDatasets (listedDatasets v) ∧
    s1.activeProjects = s.activeProjects := by
  unfold datasetSwitch at h
  rw [if_neg (by decide), if_neg (by decide), if_neg (by decide), if_pos rfl] at h
  simp only [Eff.bind_apply, callClient_apply, Eff.lift_apply, onDatasets_apply,
    Eff.pure_apply] at h
  cases hdt : getProp args "data_type" with
  | error t => simp [hdt] at h
  | ok dt =>
    simp only [hdt] at h
    rcases hc : getAllDatasets e s.requests with ⟨out, n⟩
    rw [hc] at h
    cases out with
    | error t => simp at h
    | ok a =>
      cases hp : getProp a "linked" with
      | error t => simp [hp] at h
      | ok linked =>
        have ho : optProp a "linked" = linked := by simp [optProp, hp]
        simp only [hp, iterate] at h
        cases he : elements (linked.or (.arr [])) with
        | none => simp [he] at h
        | some items =>
          simp only [he, Eff.pure_apply] at h
          cases hp2 : getProp a "unlinked" with
          | error t => simp [hp2] at h
          | ok unlinked =>
            have ho2 : optProp a "unlinked" = unlinked := by simp [optProp, hp2]
            simp only [hp2] at h
            cases he2 : elements (unlinked.or (.arr [])) with
            | none => simp [he2] at h
            | some items2 =>
              simp only [he2, Eff.pure_apply] at h
              rcases hl : cacheEach "dataset_id" (items ++ items2) s.activeDatasets
                with ⟨r, m1⟩
              rw [hl] at h
              cases r with
              | error t => simp at h
              | ok u =>
                simp only [Prod.mk.injEq, Except.ok.injEq] at h
                obtain ⟨h1, h2⟩ := h
                subst h1 h2
                have hitems : listedDatasets a = items ++ items2 := by
                  simp [listedDatasets, ho, he, ho2, he2]
                rw [hitems]
                exact ⟨cacheEach_ok _ _ _ _ hl, rfl⟩

/-! ## Created and listed entities are cached -/

/-- C7 (as amended): for every prior cache state and every successful
`project_list` call that lists M projects whose project ids are pairwise
distinct, the project cache afterwards has at least M entries, every listed
project is the entry stored under its project id, and looking up a project id
that is a string (or another primitive) yields exactly that returned record. -/
theorem project_list_caches_each (e : Env) (request : CallToolRequest) (s : ServerState)
    (v : JSValue)
    (hclient : s.labellerrClient.isSome = true)
    (hname : request.name = "project_list")
    (hok : (callTool e request s).1 = .ok v)
    (hdistinct : ((listedProjects v).map (fun p => optProp p "project_id")).Pairwise
      (fun a b => a ≠ b)) :
    (listedProjects v).length ≤ (callTool e request s).2.activeProjects.length ∧
    ∀ p ∈ listedProjects v,
      (optProp p "project_id", p) ∈ (callTool e request s).2.activeProjects ∧
      ((optProp p "project_id").isPrimitive = true →
        mapGet (callTool e request s).2.activeProjects (optProp p "project_id") = some p) := by
  obtain ⟨s2, hs2, hp, _⟩ := callTool_ok_project e request s v hclient
    (by rw [hname]; decide) hok
  rw [hname] at hs2
  obtain ⟨hcache, _⟩ := projectSwitch_list e _ _ s2 v hs2
  rw [hp, hcache]
  exact ⟨cachedAll_length _ _ _ hdistinct, fun p hp => cachedAll_entries _ _ _ hdistinct p hp⟩

/-- C7 as amended, at a concrete input: a list of two projects with the ids
`p1` and `p2`. -/
theorem project_list_caches_each_witness :
    (listedProjects (.obj [("success", .bool true),
        ("projects", .arr [.obj [("project_id", .str "p1")], .obj [("project_id", .str "p2")]]),
        ("total", .nat 2)])).length ≤
      (callTool (scriptedEnv [.response 200 (.obj [("response",
          .arr [.obj [("project_id", .str "p1")], .obj [("project_id", .str "p2")]])])])
        { name := "project_list", arguments := some [] } readyServer).2.activeProjects.length ∧
    ∀ p ∈ listedProjects (.obj [("success", .bool true),
        ("projects", .arr [.obj [("project_id", .str "p1")], .obj [("project_id", .str "p2")]]),
        ("total", .nat 2)]),
      (optProp p "project_id", p) ∈
        (callTool (scriptedEnv [.response 200 (.obj [("response",
          .arr [.obj [("project_id", .str "p1")], .obj [("project_id", .str "p2")]])])])
        { name := "project_list", arguments := some [] } readyServer).2.activeProjects ∧
      ((optProp p "project_id").isPrimitive = true →
        mapGet (callTool (scriptedEnv [.response 200 (.obj [("response",
          .arr [.obj [("project_id", .str "p1")], .obj [("project_id", .str "p2")]])])])
          { name := "project_list", arguments := some [] } readyServer).2.activeProjects
          (optProp p "project_id") = some p) :=
  project_list_caches_each
    (scriptedEnv [.response 200 (.obj [("response",
      .arr [.obj [("project_id", .str "p1")], .obj [("project_id", .str "p2")]])])])
    { name := "project_list", arguments := some [] } readyServer
    (.obj [("success", .bool true),
        ("projects", .arr [.obj [("project_id", .str "p1")], .obj [("project_id", .str "p2")]]),
        ("total", .nat 2)])
    (by decide) (by decide) (by decide) (by decide)

/-- C7 as stated fails: a successful `project_list` whose response lists two
projects under the same id `p1` leaves one cache entry, fewer than the two
projects listed, and looking up `p1` yields the second project, not the
first. -/
theorem project_list_duplicate_ids :
    (callTool (scriptedEnv [.response 200 (.obj [("response",
        .arr [.obj [("project_id", .str "p1"), ("project_name", .str "first")],
              .obj [("project_id", .str "p1"), ("project_name", .str "second")]])])])
      { name := "project_list", arguments := some [] } readyServer).1.isOk = true ∧
    (listedProjects (.obj [("projects",
        .arr [.obj [("project_id", .str "p1"), ("project_name", .str "first")],
              .obj [("project_id", .str "p1"), ("project_name", .str "second")]])])).length = 2 ∧
    (callTool (scriptedEnv [.response 200 (.obj [("response",
        .arr [.obj [("project_id", .str "p1"), ("project_name", .str "first")],
              .obj [("project_id", .str "p1"), ("project_name", .str "second")]])])])
      { name := "project_list", arguments := some [] } readyServer).2.activeProjects.length = 1 ∧
    mapGet (callTool (scriptedEnv [.response 200 (.obj [("response",
        .arr [.obj [("project_id", .str "p1"), ("project_name", .str "first")],
              .obj [("project_id", .str "p1"), ("project_name", .str "second")]])])])
      { name := "project_list", arguments := some [] } readyServer).2.activeProjects (.str "p1")
      = some (.obj [("project_id", .str "p1"), ("project_name", .str "second")]) ∧
    mapGet (callTool (scriptedEnv [.response 200 (.obj [("response",
        .arr [.obj [("project_id", .str "p1"), ("project_name", .str "first")],
              .obj [("project_id", .str "p1"), ("project_name", .str "second")]])])])
      { name := "project_list", arguments := some [] } readyServer).2.activeProjects (.str "p1")
      ≠ some (.obj [("project_id", .str "p1"), ("project_name", .str "first")]) := by
  decide

/-- C8: after a successful `project_create`, `dataset_create`, `project_list`
or `dataset_list` call, the id of each entity it created or listed (for
`dataset_list`, of every element of the linked and of the unlinked list) is a
key of the corresponding cache in the state the call returns with. -/
theorem created_and_listed_are_cached (e : Env) (request : CallToolRequest)
    (s : ServerState) (v : JSValue)
    (hclient : s.labellerrClient.isSome = true)
    (hok : (callTool e request s).1 = .ok v) :
    (request.name = "project_create" →
      optProp v "project_id" ∈ mapKeys (callTool e request s).2.activeProjects) ∧
    (request.name = "dataset_create" →
      optProp v "dataset_id" ∈ mapKeys (callTool e request s).2.activeDatasets) ∧
    (request.name = "project_list" → ∀ p ∈ listedProjects v,
      optProp p "project_id" ∈ mapKeys (callTool e request s).2.activeProjects) ∧
    (request.name = "dataset_list" → ∀ d ∈ listedDatasets v,
      optProp d "dataset_id" ∈ mapKeys (callTool e request s).2.activeDatasets) := by
  refine ⟨fun hname => ?_, fun hname => ?_, fun hname p hp => ?_, fun hname d hd => ?_⟩
  · obtain ⟨s2, hs2, hp, _⟩ := callTool_ok_project e request s v hclient
      (by rw [hname]; decide) hok
    rw [hname] at hs2
    obtain ⟨record, hset, _⟩ := projectSwitch_create e _ _ s2 v hs2
    rw [hp, hset]
    exact mem_mapKeys_mapSet _ _ _
  · obtain ⟨s2, hs2, _, hd⟩ := callTool_ok_dataset e request s v hclient
      (by rw [hname]; decide) (by rw [hname]; decide) hok
    rw [hname] at hs2
    obtain ⟨record, hset, _⟩ := datasetSwitch_create e _ _ s2 v hs2
    rw [hd, hset]
    exact mem_mapKeys_mapSet _ _ _
  · obtain ⟨s2, hs2, hpc, _⟩ := callTool_ok_project e request s v hclient
      (by rw [hname]; decide) hok
    rw [hname] at hs2
    obtain ⟨hcache, _⟩ := projectSwitch_list e _ _ s2 v hs2
    rw [hpc, hcache]
    exact mem_mapKeys_cachedAll _ _ _ p hp
  · obtain ⟨s2, hs2, _, hdc⟩ := callTool_ok_dataset e request s v hclient
      (by rw [hname]; decide) (by rw [hname]; decide) hok
    rw [hname] at hs2
    obtain ⟨hcache, _⟩ := datasetSwitch_list e _ _ s2 v hs2
    rw [hdc, hcache]
    exact mem_mapKeys_cachedAll _ _ _ d hd

/-- C8 at a concrete input: a `dataset_list` call answered with one linked and
one unlinked dataset caches both ids. -/
theorem created_and_listed_are_cached_witness :
    optProp (.obj [("dataset_id", .str "d1")]) "dataset_id" ∈ mapKeys
        (callTool (scriptedEnv [.response 200 (.obj [("response", .obj [
            ("linked", .arr [.obj [("dataset_id", .str "d1")]]),
            ("unlinked", .arr [.obj [("dataset_id", .str "d2")]])])])])
          { name := "dataset_list", arguments := some [("data_type", .str "image")] }
          readyServer).2.activeDatasets ∧
    optProp (.obj [("dataset_id", .str "d2")]) "dataset_id" ∈ mapKeys
        (callTool (scriptedEnv [.response 200 (.obj [("response", .obj [
            ("linked", .arr [.obj [("dataset_id", .str "d1")]]),
            ("unlinked", .arr [.obj [("dataset_id", .str "d2")]])])])])
          { name := "dataset_list", arguments := some [("data_type", .str "image")] }
          readyServer).2.activeDatasets :=
  ⟨(created_and_listed_are_cached
    (scriptedEnv [.response 200 (.obj [("response", .obj [
      ("linked", .arr [.obj [("dataset_id", .str "d1")]]),
      ("unlinked", .arr [.obj [("dataset_id", .str "d2")]])])])])
    { name := "dataset_list", arguments := some [("data_type", .str "image")] } readyServer
    (.obj [("success", .bool true),
        ("linked", .arr [.obj [("dataset_id", .str "d1")]]),
        ("unlinked", .arr [.obj [("dataset_id", .str "d2")]]),
        ("total", .nat 2)])
    (by decide) (by with_unfolding_all decide)).2.2.2 rfl
      (.obj [("dataset_id", .str "d1")]) (by decide),
   (created_and_listed_are_cached
    (scriptedEnv [.response 200 (.obj [("response", .obj [
      ("linked", .arr [.obj [("dataset_id", .str "d1")]]),
      ("unlinked", .arr [.obj [("dataset_id", .str "d2")]])])])])
    { name := "dataset_list", arguments := some [("data_type", .str "image")] } readyServer
    (.obj [("success", .bool true),
        ("linked", .arr [.obj [("dataset_id", .str "d1")]]),
        ("unlinked", .arr [.obj [("dataset_id", .str "d2")]]),
        ("total", .nat 2)])
    (by decide) (by with_unfolding_all decide)).2.2.2 rfl
      (.obj [("dataset_id", .str "d2")]) (by decide)⟩

/-! ## Queries -/

theorem handleQueryTool_keeps_projects (e : Env) (name : String) (args : JSValue) :
    Keeps ServerState.activeProjects (handleQueryTool e name args) := by
  unfold handleQueryTool
  split_ifs <;>
    repeat' (first
      | exact fun _ => rfl
      | apply keeps_bind
      | intro _)

theorem handleQueryTool_keeps_datasets (e : Env) (name : String) (args : JSValue) :
    Keeps ServerState.activeDatasets (handleQueryTool e name args) := by
  unfold handleQueryTool
  split_ifs <;>
    repeat' (first
      | exact fun _ => rfl
      | apply keeps_bind
      | intro _)

/-- C9 (as amended): `query_search_projects` does not touch the caches: after
every such call, successful or not, the project cache and the dataset cache
are exactly as before the call. The fetched project list is only filtered;
the project cache is written by `project_create` and `project_list` alone. -/
theorem search_projects_keeps_caches (e : Env) (arguments : Option (List (String × JSValue)))
    (s : ServerState) :
    (callTool e { name := "query_search_projects", arguments := arguments } s).2.activeProjects
      = s.activeProjects ∧
    (callTool e { name := "query_search_projects", arguments := arguments } s).2.activeDatasets
      = s.activeDatasets := by
  cases hc : s.labellerrClient with
  | none => rw [callTool_of_no_client e _ s hc]; exact ⟨rfl, rfl⟩
  | some c =>
    have hclient : s.labellerrClient.isSome = true := by simp [hc]
    rw [callTool_of_client e _ s hclient]
    have hroute : ∀ args, route e "query_search_projects" args
        = handleQueryTool e "query_search_projects" args := by
      intro args
      unfold route
      rw [if_neg (by decide), if_neg (by decide), if_neg (by decide), if_neg (by decide),
        if_pos (by decide)]
    simp only [hroute]
    have hp := handleQueryTool_keeps_projects e "query_search_projects"
      (CallToolRequest.args { name := "query_search_projects", arguments := arguments }) s
    have hd := handleQueryTool_keeps_datasets e "query_search_projects"
      (CallToolRequest.args { name := "query_search_projects", arguments := arguments }) s
    rcases hr : handleQueryTool e "query_search_projects"
      (CallToolRequest.args { name := "query_search_projects", arguments := arguments }) s
      with ⟨out, s1⟩
    rw [hr] at hp hd
    cases out with
    | ok v => exact ⟨hp, hd⟩
    | error t => simpa [onFailure_apply] using And.intro hp hd

/-- C9 as stated fails: a successful `query_search_projects` call that finds
the fetched project `p1` leaves the project cache empty, so `p1` is not a key
of the cache. -/
theorem search_projects_does_not_cache :
    (callTool (scriptedEnv [.response 200 (.obj [("response", .arr [.obj [
        ("project_id", .str "p1"), ("project_name", .str "Cats"),
        ("data_type", .str "image")]])])])
      { name := "query_search_projects", arguments := some [("query", .str "cat")] }
      readyServer).1
      = .ok (.obj [("projects", .arr [.obj [
          ("project_id", .str "p1"), ("project_name", .str "Cats"),
          ("data_type", .str "image")]])]) ∧
    (callTool (scriptedEnv [.response 200 (.obj [("response", .arr [.obj [
        ("project_id", .str "p1"), ("project_name", .str "Cats"),
        ("data_type", .str "image")]])])])
      { name := "query_search_projects", arguments := some [("query", .str "cat")] }
      readyServer).2.activeProjects = [] ∧
    JSValue.str "p1" ∉ mapKeys
      (callTool (scriptedEnv [.response 200 (.obj [("response", .arr [.obj [
        ("project_id", .str "p1"), ("project_name", .str "Cats"),
        ("data_type", .str "image")]])])])
      { name := "query_search_projects", arguments := some [("query", .str "cat")] }
      readyServer).2.activeProjects := by
  decide

/-- C10, the code at the failing input: the fetched project details carry
`total_files` 10, `annotated_files` 4, `reviewed_files` 3, `accepted_files` 2
and `completion_percentage` 20, and `query_project_statistics` returns 0 in
all five fields, because it reads them from the wrapper object
`success, project` that `getProjectDetails` returns and not from its
`project` property, as `getProjectProgress` does on the same response. -/
theorem project_statistics_reads_wrapper :
    (callTool (scriptedEnv [.response 200 (.obj [("response", .obj [
        ("total_files", .nat 10), ("annotated_files", .nat 4), ("reviewed_files", .nat 3),
        ("accepted_files", .nat 2), ("completion_percentage", .nat 20)])])])
      { name := "query_project_statistics", arguments := some [("project_id", .str "p1")] }
      readyServer).1
      = .ok (.obj [("project_id", .str "p1"), ("total_files", .nat 0),
          ("annotated_files", .nat 0), ("reviewed_files", .nat 0), ("accepted_files", .nat 0),
          ("completion_percentage", .nat 0)]) ∧
    (getProjectDetails (scriptedEnv [.response 200 (.obj [("response", .obj [
        ("total_files", .nat 10), ("annotated_files", .nat 4), ("reviewed_files", .nat 3),
        ("accepted_files", .nat 2), ("completion_percentage", .nat 20)])])]) 0).1
      = .ok (.obj [("success", .bool true), ("project", .obj [
        ("total_files", .nat 10), ("annotated_files", .nat 4), ("reviewed_files", .nat 3),
        ("accepted_files", .nat 2), ("completion_percentage", .nat 20)])]) ∧
    (callTool (scriptedEnv [.response 200 (.obj [("response", .obj [
        ("total_files", .nat 10), ("annotated_files", .nat 4), ("reviewed_files", .nat 3),
        ("accepted_files", .nat 2), ("completion_percentage", .nat 20)])])])
      { name := "monitor_project_progress", arguments := some [("project_id", .str "p1")] }
      readyServer).1
      = .ok (.obj [("success", .bool true), ("project_id", .str "p1"),
          ("progress", .obj [("total_files", .nat 10), ("annotated", .nat 4),
            ("reviewed", .nat 3), ("accepted", .nat 2),
            ("completion_percentage", .nat 20)])]) := by
  with_unfolding_all decide

/-! ## The category names are disjoint -/

/-- A name that starts with a non-empty text has the first character of that
text. -/
theorem head_of_startsWith (name p : String) (h : startsWith name p = true) :
    p.data = [] ∨ name.data.head? = p.data.head? := by
  unfold startsWith at h
  rcases hp : p.data with _ | ⟨c, cs⟩
  · exact Or.inl rfl
  · right
    rw [hp] at h
    rcases hn : name.data with _ | ⟨d, ds⟩
    · rw [hn] at h; simp [List.isPrefixOf] at h
    · rw [hn] at h
      simp only [List.isPrefixOf, Bool.and_eq_true, beq_iff_eq] at h
      simp [h.1]

/-- A name starts with at most one of the five category names. -/
theorem tag_unique (name : String) (c d : Category)
    (hc : startsWith name c.tag = true) (hd : startsWith name d.tag = true) : c = d := by
  have h1 := head_of_startsWith name c.tag hc
  have h2 := head_of_startsWith name d.tag hd
  have hne : ∀ k : Category, k.tag.data ≠ [] := by intro k; cases k <;> decide
  rcases h1 with h1 | h1
  · exact absurd h1 (hne c)
  rcases h2 with h2 | h2
  · exact absurd h2 (hne d)
  rw [h1] at h2
  revert h2
  cases c <;> cases d <;> decide

theorem categoryOf_of_startsWith (name : String) (c : Category)
    (hc : startsWith name c.tag = true) : categoryOf name = some c := by
  unfold categoryOf
  split_ifs with h1 h2 h3 h4 h5
  · rw [tag_unique name c .projectTools hc h1]
  · rw [tag_unique name c .datasetTools hc h2]
  · rw [tag_unique name c .annotationTools hc h3]
  · rw [tag_unique name c .monitoringTools hc h4]
  · rw [tag_unique name c .queryTools hc h5]
  · cases c <;> simp_all [Category.tag]

theorem startsWith_of_categoryOf (name : String) (c : Category)
    (hc : categoryOf name = some c) : startsWith name c.tag = true := by
  unfold categoryOf at hc
  split_ifs at hc with h1 h2 h3 h4 h5 <;> simp at hc <;> subst hc <;> assumption

theorem firstMatch_eq_categoryOf (name : String) (order : List Category)
    (hall : ∀ c, startsWith name c.tag = true → c ∈ order) :
    firstMatch order name = categoryOf name := by
  unfold firstMatch
  induction order with
  | nil =>
    simp only [List.find?_nil]
    cases h : categoryOf name with
    | none => rfl
    | some c => exact absurd (hall c (startsWith_of_categoryOf name c h)) (List.not_mem_nil c)
  | cons d rest ih =>
    rw [List.find?_cons]
    cases hd : startsWith name d.tag with
    | true => simp only; exact (categoryOf_of_startsWith name d hd).symm
    | false =>
      simp only
      apply ih
      intro c hc
      rcases List.mem_cons.mp (hall c hc) with h | h
      · subst h; rw [hd] at hc; cases hc
      · exact h

/-- C26: the five category names are pairwise disjoint: a tool name starts
with at most one of them, so testing them in any order that contains all
five chooses the same category as the chain of the handler. -/
theorem category_names_disjoint (name : String) :
    (∀ c d : Category, startsWith name c.tag = true → startsWith name d.tag = true → c = d) ∧
    (∀ order : List Category, (∀ c, c ∈ order) →
      firstMatch order name = categoryOf name) ∧
    (∀ c, categoryOf name = some c ↔ startsWith name c.tag = true) :=
  ⟨fun c d => tag_unique name c d,
   fun order hall => firstMatch_eq_categoryOf name order (fun c _ => hall c),
   fun c => ⟨startsWith_of_categoryOf name c, categoryOf_of_startsWith name c⟩⟩

/-- C26 at a concrete input: tested in the reverse order, `dataset_list` still
falls in the dataset category. -/
theorem category_names_disjoint_witness :
    firstMatch [.queryTools, .monitoringTools, .annotationTools, .datasetTools, .projectTools]
      "dataset_list" = categoryOf "dataset_list" :=
  (category_names_disjoint "dataset_list").2.1
    [.queryTools, .monitoringTools, .annotationTools, .datasetTools, .projectTools]
    (by intro c; cases c <;> decide)

/-! ## The completion percentage -/

/-- The routing of the four query tool names. -/
theorem route_query (e : Env) (name : String) (args : JSValue)
    (h : categoryOf name = some .queryTools) :
    route e name args = handleQueryTool e name args := by
  unfold categoryOf at h
  unfold route
  split_ifs at h ⊢ with h1 h2 h3 h4 h5 <;> first | rfl | cases h

/-- Slicing from minus a positive integer keeps the last elements, which,
reversed, are the first elements of the reversed list. -/
theorem sliceFrom_neg_reverse {α : Type} (n : Nat) (hn : 1 ≤ n) (xs : List α) :
    (sliceFrom (JSNumber.fin (n : ℚ)).neg xs).reverse = xs.reverse.take n := by
  have htrunc : truncate (-(n : ℚ)) = -(n : Int) := by
    unfold truncate
    have hneg : ¬ (0 : ℚ) ≤ -(n : ℚ) := by
      have : (0 : ℚ) < n := by exact_mod_cast hn
      linarith
    rw [if_neg hneg]
    have : (-(n : ℚ)) = ((-(n : Int) : Int) : ℚ) := by push_cast; rfl
    rw [this, Int.ceil_intCast]
  have hlt : -(n : Int) < 0 := by omega
  simp only [sliceFrom, JSNumber.neg, htrunc, hlt, if_true]
  have hdrop : ((xs.length : Int) + -(n : Int)).toNat = xs.length - n := by omega
  rw [hdrop]
  rw [List.take_reverse]

/-- What `query_operation_history` returns with an initialised client and an
arguments object: the view of the log for the destructured `limit` and
`status`; the state is unchanged. -/
theorem operation_history_result (e : Env) (fields : List (String × JSValue))
    (s : ServerState) (hclient : s.labellerrClient.isSome = true) :
    callTool e { name := "query_operation_history", arguments := some fields } s
      = (.ok (operationHistoryView e (lookup "limit" fields) (lookup "status" fields)
          s.operationHistory), s) := by
  rw [callTool_of_client e _ s hclient]
  dsimp only
  rw [route_query e "query_operation_history" _ (by decide)]
  unfold handleQueryTool
  rw [if_neg (by decide), if_neg (by decide), if_pos (by decide)]
  simp [CallToolRequest.args, Eff.bind_apply, destruct, getProp]

/-- C11 (as amended): for every log, every integer limit of at least 1 (10
when absent) and every status filter that is absent or a non-empty string,
`query_operation_history` succeeds and returns as `operations` the first
`limit` elements of the reversed list of the records whose status equals the
filter (of all records when the filter is absent): the most recent matching
records, most recent first, and all of them when the limit exceeds their
number; `total` is the number of matching records. A filter that is the
empty string, or falsy in another way, counts as absent. -/
theorem operation_history_most_recent (e : Env) (fields : List (String × JSValue))
    (s : ServerState) (limit : Option Nat) (status : Option String)
    (hclient : s.labellerrClient.isSome = true)
    (hlimit : lookup "limit" fields = (match limit with
      | some n => JSValue.nat n
      | none => JSValue.undefined))
    (hpositive : ∀ n, limit = some n → 1 ≤ n)
    (hstatus : lookup "status" fields = (match status with
      | some t => JSValue.str t
      | none => JSValue.undefined)) :
    ((∀ t, status = some t → t ≠ "") →
      (callTool e { name := "query_operation_history", arguments := some fields } s).1
        = .ok (.obj [
            ("total", .nat (matchingRecords status s.operationHistory).length),
            ("operations", .arr ((mostRecentFirst (limit.getD 10)
              (matchingRecords status s.operationHistory)).map OperationRecord.toJS))])) ∧
    (status = some "" →
      (callTool e { name := "query_operation_history", arguments := some fields } s).1
        = .ok (.obj [
            ("total", .nat s.operationHistory.length),
            ("operations", .arr ((mostRecentFirst (limit.getD 10)
              s.operationHistory).map OperationRecord.toJS))])) := by
  rw [operation_history_result e fields s hclient]
  have hview : ∀ history : List OperationRecord,
      (if (lookup "status" fields).truthy then
        s.operationHistory.filter (statusIs (lookup "status" fields))
        else s.operationHistory) = history →
      operationHistoryView e (lookup "limit" fields) (lookup "status" fields)
        s.operationHistory = .obj [("total", .nat history.length),
          ("operations", .arr ((mostRecentFirst (limit.getD 10) history).map
            OperationRecord.toJS))] := by
    intro history hh
    unfold operationHistoryView
    simp only [hh]
    rw [hlimit]
    cases limit with
    | none =>
      have h10 := sliceFrom_neg_reverse 10 (by decide) history
      simp only [Nat.cast_ofNat] at h10
      simp [toNumber, JSValue.nat, mostRecentFirst, h10]
    | some n =>
      have hn := sliceFrom_neg_reverse n (hpositive n rfl) history
      simp [toNumber, JSValue.nat, mostRecentFirst, hn]
  refine ⟨fun hnonempty => ?_, fun hempty => ?_⟩
  · simp only
    rw [hview]
    rw [hstatus]
    cases status with
    | none => simp [JSValue.truthy, matchingRecords]
    | some t =>
      have ht := hnonempty t rfl
      simp only [JSValue.truthy, ht, decide_not, decide_False, Bool.not_false, if_true,
        matchingRecords]
      congr 1
  · simp only
    rw [hview]
    rw [hstatus, hempty]
    simp [JSValue.truthy]

/-- C11 as amended, at the concrete inputs of the specification: on a log of
ten records, limit 3 gives the records stamped 10, 9, 8, and limit 100 gives
all ten, most recent first. -/
theorem operation_history_most_recent_witness :
    (callTool (scriptedEnv [])
      { name := "query_operation_history", arguments := some [("limit", .nat 3)] }
      (serverWithLog 10)).1
      = .ok (.obj [("total", .nat 10),
          ("operations", .arr ([failedRecord 10 "demo" "failure",
            failedRecord 9 "demo" "failure",
            failedRecord 8 "demo" "failure"].map OperationRecord.toJS))]) ∧
    (callTool (scriptedEnv [])
      { name := "query_operation_history", arguments := some [("limit", .nat 100)] }
      (serverWithLog 10)).1
      = .ok (.obj [("total", .nat 10),
          ("operations", .arr (((List.range 10).reverse.map
            (fun i => failedRecord (i + 1) "demo" "failure")).map OperationRecord.toJS))]) :=
  ⟨(operation_history_most_recent (scriptedEnv []) [("limit", .nat 3)] (serverWithLog 10)
      (some 3) none (by decide) (by rfl) (by intro n h; cases h; decide) (by rfl)).1
      (by intro t h; cases h),
   (operation_history_most_recent (scriptedEnv []) [("limit", .nat 100)] (serverWithLog 10)
      (some 100) none (by decide) (by rfl) (by intro n h; cases h; decide) (by rfl)).1
      (by intro t h; cases h)⟩

/-- C11 as stated fails: with the status filter `""` on a log of one record,
no record has a status equal to the filter, yet the call returns the record:
the empty filter is skipped by the test `if (status)`. -/
theorem operation_history_empty_filter :
    (callTool (scriptedEnv [])
      { name := "query_operation_history", arguments := some [("status", .str "")] }
      (serverWithLog 1)).1
      = .ok (.obj [("total", .nat 1),
          ("operations", .arr [(failedRecord 1 "demo" "failure").toJS])]) ∧
    matchingRecords (some "") (serverWithLog 1).operationHistory = [] := by
  with_unfolding_all decide

/-- C12, the code at the failing input: with limit 0 on a log of ten records,
`query_operation_history` returns all ten records, most recent first, and not
the empty list, because `history.slice(-0)` is `history.slice(0)`. -/
theorem operation_history_limit_zero :
    (callTool (scriptedEnv [])
      { name := "query_operation_history", arguments := some [("limit", .nat 0)] }
      (serverWithLog 10)).1
      = .ok (.obj [("total", .nat 10),
          ("operations", .arr (((List.range 10).reverse.map
            (fun i => failedRecord (i + 1) "demo" "failure")).map OperationRecord.toJS))]) ∧
    (mostRecentFirst 0 (serverWithLog 10).operationHistory) = [] := by
  with_unfolding_all decide

/-! ## The project search -/

theorem filterAuxM_ok {α : Type} (f : α → Except Thrown Bool) (g : α → Bool) (l acc : List α)
    (h : ∀ x ∈ l, f x = .ok (g x)) :
    List.filterAuxM f l acc = .ok ((l.filter g).reverse ++ acc) := by
  induction l generalizing acc with
  | nil => rfl
  | cons x rest ih =>
    have hx := h x (List.mem_cons_self _ _)
    have hrest := fun y hy => h y (List.mem_cons_of_mem _ hy)
    simp only [List.filterAuxM, hx]
    show List.filterAuxM f rest (bif g x then x :: acc else acc) = _
    rw [ih _ hrest]
    cases hg : g x <;> simp [List.filter, hg]

/-- A filter whose callback never throws returns the matching sublist. -/
theorem filterM_ok {α : Type} (f : α → Except Thrown Bool) (g : α → Bool) (l : List α)
    (h : ∀ x ∈ l, f x = .ok (g x)) : l.filterM f = .ok (l.filter g) := by
  unfold List.filterM
  rw [filterAuxM_ok f g l [] h]
  simp [bind, Except.bind, pure, Except.pure]

theorem getProp_obj (fields : List (String × JSValue)) (k : String) :
    getProp (.obj fields) k = .ok (lookup k fields) := rfl

/-- On a project whose name and data type are strings, the callback of the
search is the search predicate of the specification. -/
theorem matchesQuery_of_strings (e : Env) (q : String) (p : JSValue) (name dataType : String)
    (hname : getProp p "project_name" = .ok (.str name))
    (htype : getProp p "data_type" = .ok (.str dataType)) :
    matchesQuery e (e.toLowerCase q) p = .ok (matchesSearch e q p) := by
  have h1 : optProp p "project_name" = .str name := by simp [optProp, hname]
  have h2 : optProp p "data_type" = .str dataType := by simp [optProp, htype]
  unfold matchesQuery matchesSearch
  rw [h1, h2, hname]
  simp only [bind, Except.bind, lowerCase, pure, Except.pure]
  cases hinc : includes (e.toLowerCase name) (e.toLowerCase q)
  · simp [htype, lowerCase, Except.bind, bind, pure, Except.pure]
  · simp

/-- C14: for every query string and every fetched list of projects with
string names and data types, `query_search_projects` succeeds and returns
exactly the sublist, in the original order, of the projects for which the
lower-cased query is a substring of the lower-cased project name or of the
lower-cased data type; when no project matches it succeeds with an empty
list. -/
theorem search_projects_filters (e : Env) (fields : List (String × JSValue))
    (s : ServerState) (q : String) (status : Nat) (data : JSValue) (items : List JSValue)
    (hclient : s.labellerrClient.isSome = true)
    (hquery : lookup "query" fields = .str q)
    (hresponse : e.http s.requests = .response status data)
    (hok : responseOk status = true)
    (hitems : getProp data "response" = .ok (.arr items))
    (hstrings : ∀ p ∈ items, ∃ name dataType,
      getProp p "project_name" = .ok (.str name) ∧
      getProp p "data_type" = .ok (.str dataType)) :
    (callTool e { name := "query_search_projects", arguments := some fields } s).1
      = .ok (.obj [("projects", .arr (items.filter (matchesSearch e q)))]) ∧
    ((∀ p ∈ items, matchesSearch e q p = false) →
      (callTool e { name := "query_search_projects", arguments := some fields } s).1
        = .ok (.obj [("projects", .arr [])])) := by
  have hfilter : items.filterM (matchesQuery e (e.toLowerCase q))
      = .ok (items.filter (matchesSearch e q)) := by
    apply filterM_ok
    intro p hp
    obtain ⟨name, dataType, h1, h2⟩ := hstrings p hp
    exact matchesQuery_of_strings e q p name dataType h1 h2
  have hresult : (callTool e { name := "query_search_projects", arguments := some fields } s).1
      = .ok (.obj [("projects", .arr (items.filter (matchesSearch e q)))]) := by
    have hall : getAllProjects e s.requests
        = (.ok (.obj [("success", .bool true), ("projects", .arr items),
            ("total", (optProp (.arr items) "length").or (.nat 0))]), s.requests + 1) := by
      simp only [getAllProjects, Eff.bind_apply, makeRequest, hresponse, hok, if_true,
        Eff.lift_apply, hitems, Eff.pure_apply]
      rfl
    rw [callTool_of_client e _ s hclient]
    dsimp only
    rw [route_query e "query_search_projects" _ (by decide)]
    unfold handleQueryTool
    rw [if_neg (by decide), if_neg (by decide), if_neg (by decide), if_pos (by decide)]
    simp only [Eff.bind_apply, callClient_apply, hall, Eff.lift_apply, CallToolRequest.args,
      getProp_obj, hquery, lowerCase, Eff.pure_apply]
    have hprojects : lookup "projects" [("success", JSValue.bool true),
        ("projects", JSValue.arr items),
        ("total", (optProp (JSValue.arr items) "length").or (JSValue.nat 0))]
        = JSValue.arr items := by
      simp [lookup]
    rw [hprojects]
    simp only [searchProjects, hfilter, Except.map]
  refine ⟨hresult, fun hnone => ?_⟩
  rw [hresult, List.filter_eq_nil_iff.mpr (fun p hp => by simp [hnone p hp])]

/-- C14 at a concrete input: the query `CAT` on the projects `Cats` (image)
and `Dogs` (video) returns `Cats` alone. -/
theorem search_projects_filters_witness :
    (callTool
      (scriptedEnv [.response 200 (.obj [("response", .arr [
        .obj [("project_name", .str "Cats"), ("data_type", .str "image")],
        .obj [("project_name", .str "Dogs"), ("data_type", .str "video")]])])])
      { name := "query_search_projects", arguments := some [("query", .str "CAT")] }
      readyServer).1
      = .ok (.obj [("projects", .arr [
          .obj [("project_name", .str "Cats"), ("data_type", .str "image")]])]) :=
  (search_projects_filters
    (scriptedEnv [.response 200 (.obj [("response", .arr [
      .obj [("project_name", .str "Cats"), ("data_type", .str "image")],
      .obj [("project_name", .str "Dogs"), ("data_type", .str "video")]])])])
    [("query", .str "CAT")] readyServer "CAT" 200
    (.obj [("response", .arr [
      .obj [("project_name", .str "Cats"), ("data_type", .str "image")],
      .obj [("project_name", .str "Dogs"), ("data_type", .str "video")]])])
    [.obj [("project_name", .str "Cats"), ("data_type", .str "image")],
     .obj [("project_name", .str "Dogs"), ("data_type", .str "video")]]
    (by decide) (by decide) (by decide) (by decide) (by decide)
    (by
      intro p hp
      simp only [List.mem_cons, List.mem_singleton, List.not_mem_nil, or_false] at hp
      rcases hp with rfl | rfl <;> exact ⟨_, _, rfl, rfl⟩)).1

/-! ## Outbound headers and request errors -/

/-- Without `headers` in the options, the outbound request carries the three
credentials. -/
theorem outboundHeaders_of_plain_options (c : LabellerrClient) (method : String)
    (body : JSValue) :
    optProp (outboundHeaders c method (.obj [("body", body)])) "api_key" = .str c.apiKey ∧
    optProp (outboundHeaders c method (.obj [("body", body)])) "api_secret" = .str c.apiSecret ∧
    optProp (outboundHeaders c method (.obj [("body", body)])) "client_id" = .str c.clientId := by
  have hheaders : optProp (requestOptions c method (.obj [("body", body)])) "headers"
      = buildHeaders c (.obj []) := by
    simp [requestOptions, optProp, getProp, lookup, ownEntries, JSValue.or, JSValue.truthy]
  unfold outboundHeaders
  rw [hheaders]
  simp only [buildHeaders, ownEntries, List.append_nil]
  split_ifs <;> simp [optProp, getProp, lookup]

/-- C20, the code at the failing inputs: for the options that `createProject`
passes, the headers of the outbound request are `client_id` and
`Content-Type` only, and for the options that `uploadPreannotations` passes
they are `email_id` only; `api_key` and `api_secret` are missing from both
and `client_id` from the second, although `buildHeaders` has merged the
credentials with the extra headers: the spread of `options` after `headers`
puts `options.headers` back in place of the merged object. -/
theorem outbound_headers_lose_credentials :
    outboundHeaders { apiKey := "key", apiSecret := "secret", clientId := "client" } "POST"
      (createProjectOptions { apiKey := "key", apiSecret := "secret", clientId := "client" }
        (.obj [("project_name", .str "A")]))
      = .obj [("client_id", .str "client"), ("Content-Type", .str "application/json")] ∧
    outboundHeaders { apiKey := "key", apiSecret := "secret", clientId := "client" } "POST"
      (uploadAnswersOptions { apiKey := "key", apiSecret := "secret", clientId := "client" })
      = .obj [("email_id", .str "key")] ∧
    optProp (buildHeaders { apiKey := "key", apiSecret := "secret", clientId := "client" }
      (.obj [("client_id", .str "client")])) "api_key" = .str "key" ∧
    optProp (outboundHeaders { apiKey := "key", apiSecret := "secret", clientId := "client" }
      "POST" (createProjectOptions
        { apiKey := "key", apiSecret := "secret", clientId := "client" }
        (.obj [("project_name", .str "A")]))) "api_key" = .undefined := by
  decide

/-- What `makeRequest` does with each outcome: it returns the body exactly
when the status is ok, and otherwise throws an `Error` whose message starts
with `API request failed: `. -/
theorem makeRequest_outcome (e : Env) (n : Nat) :
    (∀ message, e.http n = .failure message →
      (makeRequest e n).1 = .error (.error ("API request failed: " ++ message))) ∧
    (∀ status data, e.http n = .response status data → responseOk status = false →
      (makeRequest e n).1
        = .error (.error ("API request failed: " ++ failureMessage e status data))) ∧
    (∀ status data, e.http n = .response status data → responseOk status = true →
      (makeRequest e n).1 = .ok data) := by
  refine ⟨fun message h => ?_, fun status data h hs => ?_, fun status data h hs => ?_⟩
  · simp [makeRequest, h]
  · simp [makeRequest, h, hs]
  · simp [makeRequest, h, hs]

/-- C24, the code at the failing input: for a response of status 500 whose
JSON body is `null`, which carries no message, the message of the error is
not `API request failed: Request failed with status 500` but the text of the
`TypeError` raised by reading `message` from `null`, caught by the `catch` of
`makeRequest` itself. -/
theorem null_body_error_message :
    (makeRequest (scriptedEnv [.response 500 .null]) 0).1
      = .error (.error "API request failed: Cannot read properties of null (reading 'message')") ∧
    (makeRequest (scriptedEnv [.response 500 (.obj [])]) 0).1
      = .error (.error "API request failed: Request failed with status 500") := by
  decide

/-! ## The record cached by `project_create` -/

theorem foldl_lookup_of_absent (k : String) (extra : List (String × JSValue)) (acc : JSValue)
    (h : ∀ kv ∈ extra, kv.1 ≠ k) :
    extra.foldl (fun acc kv => if kv.1 = k then kv.2 else acc) acc = acc := by
  induction extra generalizing acc with
  | nil => rfl
  | cons kv rest ih =>
    simp only [List.foldl_cons, if_neg (h kv (List.mem_cons_self _ _))]
    exact ih acc (fun x hx => h x (List.mem_cons_of_mem _ hx))

/-- A property that later assignments do not name reads as before them. -/
theorem lookup_append_of_absent (k : String) (base extra : List (String × JSValue))
    (h : ∀ kv ∈ extra, kv.1 ≠ k) : lookup k (base ++ extra) = lookup k base := by
  unfold lookup
  rw [List.foldl_append]
  exact foldl_lookup_of_absent k extra _ h

/-- A successful `project_create` switch caches, under the returned id, the
object literal built from that id, the two arguments, the creation time and
the spread of the arguments. -/
theorem projectSwitch_create_record (e : Env) (args : JSValue) (s s1 : ServerState)
    (v : JSValue) (h : projectSwitch e "project_create" args s = (.ok v, s1)) :
    ∃ createdAt, s1.activeProjects = mapSet s.activeProjects (optProp v "project_id")
      (.obj ([("id", optProp v "project_id"), ("name", optProp args "project_name"),
              ("dataType", optProp args "data_type"), ("createdAt", .isoTime createdAt)]
             ++ ownEntries args)) := by
  unfold projectSwitch at h
  simp only [if_true, Eff.bind_apply, callClient_apply, Eff.lift_apply, now_apply,
    onProjects_apply, setEntry, Eff.pure_apply] at h
  rcases hc : createProject e args s.requests with ⟨out, n⟩
  rw [hc] at h
  cases out with
  | error t => simp at h
  | ok a =>
    cases hp : getProp a "project_id" with
    | error t => simp [hp] at h
    | ok pid =>
      cases hn : getProp args "project_name" with
      | error t => simp [hp, hn] at h
      | ok nm =>
        cases hd : getProp args "data_type" with
        | error t => simp [hp, hn, hd] at h
        | ok dt =>
          simp only [hp, hn, hd, Prod.mk.injEq, Except.ok.injEq] at h
          obtain ⟨h1, h2⟩ := h
          subst h1 h2
          have ho : optProp a "project_id" = pid := by simp [optProp, hp]
          have hon : optProp args "project_name" = nm := by simp [optProp, hn]
          have hod : optProp args "data_type" = dt := by simp [optProp, hd]
          rw [ho, hon, hod]
          exact ⟨_, rfl⟩

/-- C27 (as amended): after every successful `project_create` call whose
arguments object has no property named `id`, `name` or `dataType`, the record
cached for the new project, under the project id returned by the backend,
has its `id` equal to that id, its `name` equal to the `project_name`
argument and its `dataType` equal to the `data_type` argument. -/
theorem project_create_record_fields (e : Env) (fields : List (String × JSValue))
    (s : ServerState) (v : JSValue)
    (hclient : s.labellerrClient.isSome = true)
    (hok : (callTool e { name := "project_create", arguments := some fields } s).1 = .ok v)
    (hkeys : ∀ kv ∈ fields, kv.1 ≠ "id" ∧ kv.1 ≠ "name" ∧ kv.1 ≠ "dataType") :
    ∃ record,
      (optProp v "project_id", record) ∈
        (callTool e { name := "project_create", arguments := some fields } s).2.activeProjects ∧
      ((optProp v "project_id").isPrimitive = true →
        mapGet (callTool e { name := "project_create", arguments := some fields }
          s).2.activeProjects (optProp v "project_id") = some record) ∧
      optProp record "id" = optProp v "project_id" ∧
      optProp record "name" = lookup "project_name" fields ∧
      optProp record "dataType" = lookup "data_type" fields := by
  obtain ⟨s2, hs2, hp, _⟩ := callTool_ok_project e _ s v hclient
    (show startsWith "project_create" "project_" = true by decide) hok
  obtain ⟨createdAt, hset⟩ := projectSwitch_create_record e _ _ s2 v hs2
  rw [hp, hset]
  refine ⟨_, mem_mapSet _ _ _, fun hprim => mapGet_mapSet_self _ _ _ hprim, ?_, ?_, ?_⟩
  · simp only [optProp, getProp_obj, CallToolRequest.args, ownEntries]
    rw [lookup_append_of_absent _ _ _ (fun kv hkv => (hkeys kv hkv).1)]
    simp [lookup]
  · simp only [optProp, getProp_obj, CallToolRequest.args, ownEntries]
    rw [lookup_append_of_absent _ _ _ (fun kv hkv => (hkeys kv hkv).2.1)]
    simp [lookup]
  · simp only [optProp, getProp_obj, CallToolRequest.args, ownEntries]
    rw [lookup_append_of_absent _ _ _ (fun kv hkv => (hkeys kv hkv).2.2)]
    simp [lookup]

/-- C27 as amended, at a concrete input: a project `A` of data type `image`
created with the returned id `p1`. -/
theorem project_create_record_fields_witness :
    ∃ record,
      (optProp (.obj [("success", .bool true), ("project_id", .str "p1"),
          ("message", .str "Project created successfully"),
          ("details", .obj [("response", .obj [("project_id", .str "p1")])])]) "project_id",
        record) ∈
        (callTool
          (scriptedEnv [.response 200 (.obj [("response", .obj [("project_id", .str "p1")])])])
          { name := "project_create",
            arguments := some [("project_name", .str "A"), ("data_type", .str "image")] }
          readyServer).2.activeProjects ∧
      ((optProp (.obj [("success", .bool true), ("project_id", .str "p1"),
          ("message", .str "Project created successfully"),
          ("details", .obj [("response", .obj [("project_id", .str "p1")])])])
          "project_id").isPrimitive = true →
        mapGet (callTool
          (scriptedEnv [.response 200 (.obj [("response", .obj [("project_id", .str "p1")])])])
          { name := "project_create",
            arguments := some [("project_name", .str "A"), ("data_type", .str "image")] }
          readyServer).2.activeProjects
          (optProp (.obj [("success", .bool true), ("project_id", .str "p1"),
            ("message", .str "Project created successfully"),
            ("details", .obj [("response", .obj [("project_id", .str "p1")])])]) "project_id")
          = some record) ∧
      optProp record "id" = optProp (.obj [("success", .bool true), ("project_id", .str "p1"),
          ("message", .str "Project created successfully"),
          ("details", .obj [("response", .obj [("project_id", .str "p1")])])]) "project_id" ∧
      optProp record "name"
        = lookup "project_name" [("project_name", .str "A"), ("data_type", .str "image")] ∧
      optProp record "dataType"
        = lookup "data_type" [("project_name", .str "A"), ("data_type", .str "image")] :=
  project_create_record_fields
    (scriptedEnv [.response 200 (.obj [("response", .obj [("project_id", .str "p1")])])])
    [("project_name", .str "A"), ("data_type", .str "image")] readyServer
    (.obj [("success", .bool true), ("project_id", .str "p1"),
      ("message", .str "Project created successfully"),
      ("details", .obj [("response", .obj [("project_id", .str "p1")])])])
    (by decide) (by decide) (by decide)

/-- C27 as stated fails: for the arguments `project_name` A, `data_type`
image, `id` mine and `name` other, and the returned id `p1`, the record
cached under `p1` has the `id` mine and the `name` other, since the spread of
the arguments comes last in the object literal. -/
theorem project_create_spread_overrides :
    (mapGet (callTool
        (scriptedEnv [.response 200 (.obj [("response", .obj [("project_id", .str "p1")])])])
        { name := "project_create",
          arguments := some [("project_name", .str "A"), ("data_type", .str "image"),
            ("id", .str "mine"), ("name", .str "other")] }
        readyServer).2.activeProjects (.str "p1")).map (fun record => optProp record "id")
      = some (.str "mine") ∧
    (mapGet (callTool
        (scriptedEnv [.response 200 (.obj [("response", .obj [("project_id", .str "p1")])])])
        { name := "project_create",
          arguments := some [("project_name", .str "A"), ("data_type", .str "image"),
            ("id", .str "mine"), ("name", .str "other")] }
        readyServer).2.activeProjects (.str "p1")).map (fun record => optProp record "name")
      = some (.str "other") ∧
    resultField (callTool
        (scriptedEnv [.response 200 (.obj [("response", .obj [("project_id", .str "p1")])])])
        { name := "project_create",
          arguments := some [("project_name", .str "A"), ("data_type", .str "image"),
            ("id", .str "mine"), ("name", .str "other")] }
        readyServer).1 "project_id" = .str "p1" := by
  decide

/-! ## Last write wins -/

/-- Setting a primitive key that is already a key keeps the keys as they
are. -/
theorem mapKeys_mapSet_of_mem (m : JSMap) (k v : JSValue) (hk : k.isPrimitive = true)
    (hmem : k ∈ mapKeys m) : mapKeys (mapSet m k v) = mapKeys m := by
  induction m with
  | nil => cases hmem
  | cons p rest ih =>
    obtain ⟨k1, v1⟩ := p
    unfold mapSet
    split_ifs with h
    · rfl
    · have hne : k ≠ k1 := by
        intro heq
        subst heq
        rw [sameValueZero_self hk] at h
        exact h rfl
      have hrest : k ∈ mapKeys rest := by
        simp only [mapKeys, List.map_cons, List.mem_cons] at hmem
        rcases hmem with h1 | h1
        · exact absurd h1 hne
        · exact h1
      simp only [mapKeys, List.map_cons, List.cons.injEq, true_and]
      exact ih hrest

/-- C19: cache writes are overwrites without merging. When a successful
`project_list` returns exactly one project, with the id X, the project cache
afterwards maps X to exactly that returned project, whatever was cached
under X before, and when X was already a key the keys of the cache are
unchanged: the earlier record is replaced, not merged and not kept. The same
holds for `dataset_list` and the dataset cache. -/
theorem list_overwrites_cached_record (e : Env) (request : CallToolRequest)
    (s : ServerState) (v p : JSValue)
    (hclient : s.labellerrClient.isSome = true)
    (hok : (callTool e request s).1 = .ok v) :
    (request.name = "project_list" → listedProjects v = [p] →
      (optProp p "project_id").isPrimitive = true →
      mapGet (callTool e request s).2.activeProjects (optProp p "project_id") = some p ∧
      (optProp p "project_id" ∈ mapKeys s.activeProjects →
        mapKeys (callTool e request s).2.activeProjects = mapKeys s.activeProjects)) ∧
    (request.name = "dataset_list" → listedDatasets v = [p] →
      (optProp p "dataset_id").isPrimitive = true →
      mapGet (callTool e request s).2.activeDatasets (optProp p "dataset_id") = some p ∧
      (optProp p "dataset_id" ∈ mapKeys s.activeDatasets →
        mapKeys (callTool e request s).2.activeDatasets = mapKeys s.activeDatasets)) := by
  refine ⟨fun hname hlist hprim => ?_, fun hname hlist hprim => ?_⟩
  · obtain ⟨s2, hs2, hpc, _⟩ := callTool_ok_project e request s v hclient
      (by rw [hname]; decide) hok
    rw [hname] at hs2
    obtain ⟨hcache, _⟩ := projectSwitch_list e _ _ s2 v hs2
    rw [hpc, hcache, hlist]
    exact ⟨mapGet_mapSet_self _ _ _ hprim, fun hmem => mapKeys_mapSet_of_mem _ _ _ hprim hmem⟩
  · obtain ⟨s2, hs2, _, hdc⟩ := callTool_ok_dataset e request s v hclient
      (by rw [hname]; decide) (by rw [hname]; decide) hok
    rw [hname] at hs2
    obtain ⟨hcache, _⟩ := datasetSwitch_list e _ _ s2 v hs2
    rw [hdc, hcache, hlist]
    exact ⟨mapGet_mapSet_self _ _ _ hprim, fun hmem => mapKeys_mapSet_of_mem _ _ _ hprim hmem⟩

/-- C19 at a concrete input: a project created under the id `p1` and then
listed as the record with the name `listed` is cached as that listed record,
and the cache still has the single key `p1`. -/
theorem list_overwrites_cached_record_witness :
    mapGet (callTool
      (scriptedEnv [.response 200 (.obj [("response", .obj [("project_id", .str "p1")])]),
        .response 200 (.obj [("response",
          .arr [.obj [("project_id", .str "p1"), ("project_name", .str "listed")]])])])
      { name := "project_list", arguments := some [] }
      (callTool
        (scriptedEnv [.response 200 (.obj [("response", .obj [("project_id", .str "p1")])]),
          .response 200 (.obj [("response",
            .arr [.obj [("project_id", .str "p1"), ("project_name", .str "listed")]])])])
        { name := "project_create", arguments := some [("project_name", .str "created")] }
        readyServer).2).2.activeProjects
      (optProp (.obj [("project_id", .str "p1"), ("project_name", .str "listed")]) "project_id")
      = some (.obj [("project_id", .str "p1"), ("project_name", .str "listed")]) ∧
    (optProp (.obj [("project_id", .str "p1"), ("project_name", .str "listed")]) "project_id"
      ∈ mapKeys (callTool
        (scriptedEnv [.response 200 (.obj [("response", .obj [("project_id", .str "p1")])]),
          .response 200 (.obj [("response",
            .arr [.obj [("project_id", .str "p1"), ("project_name", .str "listed")]])])])
        { name := "project_create", arguments := some [("project_name", .str "created")] }
        readyServer).2.activeProjects →
      mapKeys (callTool
        (scriptedEnv [.response 200 (.obj [("response", .obj [("project_id", .str "p1")])]),
          .response 200 (.obj [("response",
            .arr [.obj [("project_id", .str "p1"), ("project_name", .str "listed")]])])])
        { name := "project_list", arguments := some [] }
        (callTool
          (scriptedEnv [.response 200 (.obj [("response", .obj [("project_id", .str "p1")])]),
            .response 200 (.obj [("response",
              .arr [.obj [("project_id", .str "p1"), ("project_name", .str "listed")]])])])
          { name := "project_create", arguments := some [("project_name", .str "created")] }
          readyServer).2).2.activeProjects
        = mapKeys (callTool
          (scriptedEnv [.response 200 (.obj [("response", .obj [("project_id", .str "p1")])]),
            .response 200 (.obj [("response",
              .arr [.obj [("project_id", .str "p1"), ("project_name", .str "listed")]])])])
          { name := "project_create", arguments := some [("project_name", .str "created")] }
          readyServer).2.activeProjects) :=
  (list_overwrites_cached_record
    (scriptedEnv [.response 200 (.obj [("response", .obj [("project_id", .str "p1")])]),
      .response 200 (.obj [("response",
        .arr [.obj [("project_id", .str "p1"), ("project_name", .str "listed")]])])])
    { name := "project_list", arguments := some [] }
    (callTool
      (scriptedEnv [.response 200 (.obj [("response", .obj [("project_id", .str "p1")])]),
        .response 200 (.obj [("response",
          .arr [.obj [("project_id", .str "p1"), ("project_name", .str "listed")]])])])
      { name := "project_create", arguments := some [("project_name", .str "created")] }
      readyServer).2
    (.obj [("success", .bool true),
      ("projects", .arr [.obj [("project_id", .str "p1"), ("project_name", .str "listed")]]),
      ("total", .nat 1)])
    (.obj [("project_id", .str "p1"), ("project_name", .str "listed")])
    (by decide) (by decide)).1 rfl (by decide) (by decide)


/-! ## Relations between the state before and after -/

theorem steps_bind {σ α β : Type} {R : σ → σ → Prop} {x : Eff σ α} {g : α → Eff σ β}
    (htrans : ∀ a b c, R a b → R b c → R a c)
    (hx : Steps R x) (hg : ∀ a, Steps R (g a)) : Steps R (x >>= g) := by
  intro s
  rw [Eff.bind_apply]
  have h1 := hx s
  rcases hxs : x s with ⟨r, s1⟩
  rw [hxs] at h1
  cases r with
  | error t => exact h1
  | ok a => exact htrans _ _ _ h1 (hg a s1)

theorem steps_of_keeps {σ α : Type} {R : σ → σ → Prop} {x : Eff σ α}
    (hrefl : ∀ a, R a a) (hx : Keeps (fun s => s) x) : Steps R x := by
  intro s
  have := hx s
  simp only at this
  rw [this]
  exact hrefl s

theorem keysStay_trans (a b c : ServerState) (h1 : KeysStay a b) (h2 : KeysStay b c) :
    KeysStay a c :=
  ⟨fun _ hk => h2.1 (h1.1 hk), fun _ hk => h2.2 (h1.2 hk)⟩

theorem keysStay_refl (a : ServerState) : KeysStay a a := ⟨fun _ h => h, fun _ h => h⟩

theorem keysStay_of_kept {α : Type} {x : Eff ServerState α}
    (hp : Keeps ServerState.activeProjects x) (hd : Keeps ServerState.activeDatasets x) :
    Steps KeysStay x := by
  intro s
  unfold KeysStay
  rw [hp s, hd s]
  exact ⟨fun _ h => h, fun _ h => h⟩

/-- A caching loop never removes a key, also when it throws midway. -/
theorem cacheEach_keys (idKey : String) (items : List JSValue) (m : JSMap) :
    mapKeys m ⊆ mapKeys (cacheEach idKey items m).2 := by
  induction items generalizing m with
  | nil => exact fun _ h => h
  | cons x rest ih =>
    simp only [cacheEach, Eff.bind_apply, Eff.lift_apply, setEntry]
    cases hid : getProp x idKey with
    | error t => exact fun _ h => h
    | ok id =>
      simp only
      exact fun _ hk => ih _ (mapKeys_subset_mapSet m id x hk)

theorem projectSwitch_keys (e : Env) (name : String) (args : JSValue) :
    Steps KeysStay (projectSwitch e name args) := by
  unfold projectSwitch
  split_ifs <;>
    repeat' (first
      | exact steps_of_keeps keysStay_refl (keeps_iterate _ _ _)
      | exact fun s => ⟨cacheEach_keys _ _ _, fun _ h => h⟩
      | exact fun s => ⟨mapKeys_subset_mapSet _ _ _, fun _ h => h⟩
      | exact fun s => keysStay_refl s
      | apply steps_bind keysStay_trans
      | intro _)

theorem datasetSwitch_keys (e : Env) (name : String) (args : JSValue) :
    Steps KeysStay (datasetSwitch e name args) := by
  unfold datasetSwitch
  split_ifs <;>
    repeat' (first
      | exact steps_of_keeps keysStay_refl (keeps_iterate _ _ _)
      | exact fun s => ⟨fun _ h => h, cacheEach_keys _ _ _⟩
      | exact fun s => ⟨fun _ h => h, mapKeys_subset_mapSet _ _ _⟩
      | exact fun s => keysStay_refl s
      | apply steps_bind keysStay_trans
      | intro _)

theorem annotationSwitch_keys (e : Env) (name : String) (args : JSValue) :
    Steps KeysStay (annotationSwitch e name args) := by
  unfold annotationSwitch
  split_ifs <;> exact fun s => keysStay_refl s

theorem route_keys (e : Env) (name : String) (args : JSValue) :
    Steps KeysStay (route e name args) := by
  unfold route handleProjectTool handleDatasetTool handleAnnotationTool
  split_ifs
  · repeat' (first
      | exact projectSwitch_keys e _ _
      | exact fun s => keysStay_refl s
      | apply steps_bind keysStay_trans
      | intro _)
  · repeat' (first
      | exact datasetSwitch_keys e _ _
      | exact fun s => keysStay_refl s
      | apply steps_bind keysStay_trans
      | intro _)
  · repeat' (first
      | exact annotationSwitch_keys e _ _
      | exact fun s => keysStay_refl s
      | apply steps_bind keysStay_trans
      | intro _)
  · unfold handleMonitoringTool
    split_ifs <;>
      repeat' (first
        | exact keysStay_of_kept
            (keeps_filterActive ServerState.activeProjects e (fun _ => rfl) _)
            (keeps_filterActive ServerState.activeDatasets e (fun _ => rfl) _)
        | exact fun s => keysStay_refl s
        | apply steps_bind keysStay_trans
        | intro _)
  · unfold handleQueryTool
    split_ifs <;>
      repeat' (first
        | exact fun s => keysStay_refl s
        | apply steps_bind keysStay_trans
        | intro _)
  · exact fun s => keysStay_refl s

/-- The handler of `resources/list` leaves the state as it was. -/
theorem listResources_state (e : Env) (s : ServerState) : (listResources e s).2 = s := by
  have h : Keeps (fun s => s) (listResources e) := by
    unfold listResources
    repeat' (first
      | exact fun _ => rfl
      | apply keeps_bind
      | intro _)
  exact h s

/-- The handler of `resources/read` leaves the state as it was. -/
theorem readResource_state (uri : String) (s : ServerState) : (readResource uri s).2 = s := by
  unfold readResource
  split_ifs
  · rfl
  · simp only
    split
    · rfl
    · split_ifs
      · split <;> rfl
      · split <;> rfl
      · rfl

/-- One tool call never removes a key of a cache. -/
theorem callTool_keys (e : Env) (request : CallToolRequest) (s : ServerState) :
    KeysStay s (callTool e request s).2 := by
  cases hc : s.labellerrClient with
  | none => rw [callTool_of_no_client e request s hc]; exact keysStay_refl s
  | some c =>
    have hclient : s.labellerrClient.isSome = true := by simp [hc]
    rw [callTool_of_client e request s hclient]
    have h := route_keys e request.name request.args s
    rcases hr : route e request.name request.args s with ⟨out, s1⟩
    rw [hr] at h
    cases out with
    | ok v => exact h
    | error t => simpa [onFailure_apply, KeysStay] using h

/-- C18: no operation removes a cache entry: after every `tools/call`,
`resources/list` and `resources/read`, successful or failing, every key of
the project cache before the operation is a key of it afterwards, and so for
the dataset cache. -/
theorem cache_keys_stay (e : Env) (op : Operation) (s : ServerState) :
    (∀ k ∈ mapKeys s.activeProjects, k ∈ mapKeys (perform e op s).activeProjects) ∧
    (∀ k ∈ mapKeys s.activeDatasets, k ∈ mapKeys (perform e op s).activeDatasets) := by
  cases op with
  | callTool request => exact ⟨fun k hk => (callTool_keys e request s).1 hk,
      fun k hk => (callTool_keys e request s).2 hk⟩
  | listResources =>
    simp only [perform, listResources_state]
    exact ⟨fun _ h => h, fun _ h => h⟩
  | readResource uri =>
    simp only [perform, readResource_state]
    exact ⟨fun _ h => h, fun _ h => h⟩

/-- C18 at a concrete input: a `project_list` call that fails after a project
was created under `p1` keeps the key `p1`. -/
theorem cache_keys_stay_witness :
    JSValue.str "p1" ∈ mapKeys (perform
      (scriptedEnv [.response 200 (.obj [("response", .obj [("project_id", .str "p1")])]),
        .response 500 (.obj [("message", .str "down")])])
      (.callTool { name := "project_list", arguments := some [] })
      (callTool
        (scriptedEnv [.response 200 (.obj [("response", .obj [("project_id", .str "p1")])]),
          .response 500 (.obj [("message", .str "down")])])
        { name := "project_create", arguments := some [("project_name", .str "A")] }
        readyServer).2).activeProjects :=
  (cache_keys_stay
    (scriptedEnv [.response 200 (.obj [("response", .obj [("project_id", .str "p1")])]),
      .response 500 (.obj [("message", .str "down")])])
    (.callTool { name := "project_list", arguments := some [] })
    (callTool
      (scriptedEnv [.response 200 (.obj [("response", .obj [("project_id", .str "p1")])]),
        .response 500 (.obj [("message", .str "down")])])
      { name := "project_create", arguments := some [("project_name", .str "A")] }
      readyServer).2).1 (.str "p1") (by decide)

/-! ## The log is append-only and resources only read -/

/-- One tool call appends at most one record to the log. -/
theorem callTool_log_appends (e : Env) (request : CallToolRequest) (s : ServerState) :
    ∃ l, (callTool e request s).2.operationHistory = s.operationHistory ++ l ∧
      l.length ≤ 1 := by
  cases hc : s.labellerrClient with
  | none =>
    rw [callTool_of_no_client e request s hc]
    exact ⟨[], by simp, by simp⟩
  | some c =>
    have hclient : s.labellerrClient.isSome = true := by simp [hc]
    obtain ⟨hfail, hok⟩ := callTool_log_of_client e request s hclient
    rcases hout : (callTool e request s).1 with t | v
    · obtain ⟨r, hr, _⟩ := hfail t hout
      exact ⟨[r], hr, by simp⟩
    · rcases hok v hout with ⟨h, _⟩ | ⟨⟨r, hr, _⟩, _⟩
      · exact ⟨[], by simp [h], by simp⟩
      · exact ⟨[r], hr, by simp⟩

/-- C21: the operation log is append-only: for every operation of the server
(`tools/call`, `resources/list`, `resources/read`) the log before it is a
leading part of the log after it, so no record is modified, removed or
reordered, and new records come after the old ones. -/
theorem log_append_only (e : Env) (op : Operation) (s : ServerState) :
    s.operationHistory <+: (perform e op s).operationHistory ∧
    ∃ added, (perform e op s).operationHistory = s.operationHistory ++ added := by
  have h : ∃ added, (perform e op s).operationHistory = s.operationHistory ++ added := by
    cases op with
    | callTool request =>
      obtain ⟨l, hl, _⟩ := callTool_log_appends e request s
      exact ⟨l, hl⟩
    | listResources => exact ⟨[], by simp [perform, listResources_state]⟩
    | readResource uri => exact ⟨[], by simp [perform, readResource_state]⟩
  obtain ⟨added, hadded⟩ := h
  exact ⟨⟨added, hadded.symm⟩, added, hadded⟩

theorem collect_congr (f g : JSValue × JSValue → Except Thrown Resource) (m : JSMap)
    (h : ∀ entry, f entry = g entry) : collect f m = collect g m := by
  induction m with
  | nil => rfl
  | cons entry rest ih => simp only [collect, h entry, ih]

/-- C23: `resources/list` and `resources/read` only read the session state:
whether they return or throw, the state afterwards is the state before (the
project cache, the dataset cache, the log, and the count of backend requests
issued), and the result of the list is the same in any two environments that
convert values to text alike, whatever their backends and clocks; the read
takes nothing from the environment at all. -/
theorem resources_only_read (e : Env) (uri : String) (s : ServerState) :
    (listResources e s).2 = s ∧
    (readResource uri s).2 = s ∧
    (perform e .listResources s).requests = s.requests ∧
    (perform e (.readResource uri) s).requests = s.requests ∧
    (∀ e2 : Env, e2.toStringOf = e.toStringOf →
      (listResources e2 s).1 = (listResources e s).1) := by
  refine ⟨listResources_state e s, readResource_state uri s,
    by simp [perform, listResources_state], by simp [perform, readResource_state], ?_⟩
  intro e2 h2
  have hp : collect (projectResource e2) = collect (projectResource e) := by
    funext m
    apply collect_congr
    intro entry
    simp only [projectResource, toStringJS, h2]
  have hd : collect (datasetResource e2) = collect (datasetResource e) := by
    funext m
    apply collect_congr
    intro entry
    simp only [datasetResource, toStringJS, h2]
  simp only [listResources, hp, hd]


/-! ## Invariants of the reachable states -/

/-- An element whose id could be read is cached as a good entry. -/
theorem goodEntry_of_getProp (x : JSValue) (k : String) (id : JSValue)
    (h : getProp x k = .ok id) : goodEntry (id, x) = true := by
  cases x with
  | undefined => simp [getProp] at h
  | null => simp [getProp] at h
  | obj fields => cases id <;> simp [goodEntry, JSValue.nullish, JSValue.truthy]
  | arr items =>
    simp only [getProp, Except.ok.injEq] at h
    subst h
    split_ifs <;> simp [goodEntry, JSValue.nullish, JSValue.nat]
  | str t =>
    simp only [getProp, Except.ok.injEq] at h
    subst h
    split_ifs <;> simp [goodEntry, JSValue.nullish, JSValue.nat]
  | isoTime ms =>
    simp only [getProp, Except.ok.injEq] at h
    subst h
    split_ifs <;> simp [goodEntry, JSValue.nullish, JSValue.nat]
  | bool b =>
    simp only [getProp, Except.ok.injEq] at h
    subst h
    simp [goodEntry, JSValue.nullish]
  | num n =>
    simp only [getProp, Except.ok.injEq] at h
    subst h
    simp [goodEntry, JSValue.nullish]

/-- An object is a good entry under every key. -/
theorem goodEntry_obj (k : JSValue) (fields : List (String × JSValue)) :
    goodEntry (k, .obj fields) = true := by
  cases k <;> simp [goodEntry, JSValue.nullish, JSValue.truthy]

/-- Every entry after a `set` is an entry from before or the entry set. -/
theorem mem_mapSet_cases (m : JSMap) (k v : JSValue) (p : JSValue × JSValue)
    (hp : p ∈ mapSet m k v) : p ∈ m ∨ p = (k, v) := by
  induction m with
  | nil =>
    simp only [mapSet, List.mem_singleton] at hp
    exact Or.inr hp
  | cons q rest ih =>
    obtain ⟨k1, v1⟩ := q
    unfold mapSet at hp
    split_ifs at hp with h
    · rcases List.mem_cons.mp hp with h1 | h1
      · right
        rw [h1, sameValueZero_eq h]
      · exact Or.inl (List.mem_cons_of_mem _ h1)
    · rcases List.mem_cons.mp hp with h1 | h1
      · left; rw [h1]; exact List.mem_cons_self _ _
      · rcases ih h1 with h2 | h2
        · exact Or.inl (List.mem_cons_of_mem _ h2)
        · exact Or.inr h2

theorem mapSet_good (m : JSMap) (k v : JSValue) (hm : ∀ p ∈ m, goodEntry p = true)
    (hkv : goodEntry (k, v) = true) : ∀ p ∈ mapSet m k v, goodEntry p = true := by
  intro p hp
  rcases mem_mapSet_cases m k v p hp with h | h
  · exact hm p h
  · rw [h]; exact hkv

/-- A caching loop keeps the entries good, also when it throws midway. -/
theorem cacheEach_good (idKey : String) (items : List JSValue) (m : JSMap)
    (hm : ∀ p ∈ m, goodEntry p = true) :
    ∀ p ∈ (cacheEach idKey items m).2, goodEntry p = true := by
  induction items generalizing m with
  | nil => exact hm
  | cons x rest ih =>
    simp only [cacheEach, Eff.bind_apply, Eff.lift_apply, setEntry]
    cases hid : getProp x idKey with
    | error t => exact hm
    | ok id =>
      simp only
      exact ih _ (mapSet_good m id x hm (goodEntry_of_getProp x idKey id hid))

theorem cachesGood_trans (a b c : ServerState)
    (h1 : CachesGood a → CachesGood b) (h2 : CachesGood b → CachesGood c) :
    CachesGood a → CachesGood c := fun h => h2 (h1 h)

theorem projectSwitch_good (e : Env) (name : String) (args : JSValue) :
    Steps (fun s s1 => CachesGood s → CachesGood s1) (projectSwitch e name args) := by
  unfold projectSwitch
  split_ifs <;>
    repeat' (first
      | exact steps_of_keeps (fun _ h => h) (keeps_iterate _ _ _)
      | exact fun s h => ⟨cacheEach_good _ _ _ h.1, h.2⟩
      | exact fun s h => ⟨mapSet_good _ _ _ h.1 (goodEntry_obj _ _), h.2⟩
      | exact fun s h => h
      | apply steps_bind cachesGood_trans
      | intro _)

theorem datasetSwitch_good (e : Env) (name : String) (args : JSValue) :
    Steps (fun s s1 => CachesGood s → CachesGood s1) (datasetSwitch e name args) := by
  unfold datasetSwitch
  split_ifs <;>
    repeat' (first
      | exact steps_of_keeps (fun _ h => h) (keeps_iterate _ _ _)
      | exact fun s h => ⟨h.1, cacheEach_good _ _ _ h.2⟩
      | exact fun s h => ⟨h.1, mapSet_good _ _ _ h.2 (goodEntry_obj _ _)⟩
      | exact fun s h => h
      | apply steps_bind cachesGood_trans
      | intro _)

theorem good_of_kept {α : Type} {x : Eff ServerState α}
    (hp : Keeps ServerState.activeProjects x) (hd : Keeps ServerState.activeDatasets x) :
    Steps (fun s s1 => CachesGood s → CachesGood s1) x := by
  intro s h
  unfold CachesGood
  rw [hp s, hd s]
  exact h

theorem annotationSwitch_good (e : Env) (name : String) (args : JSValue) :
    Steps (fun s s1 => CachesGood s → CachesGood s1) (annotationSwitch e name args) := by
  unfold annotationSwitch
  split_ifs <;> exact fun s h => h

theorem route_good (e : Env) (name : String) (args : JSValue) :
    Steps (fun s s1 => CachesGood s → CachesGood s1) (route e name args) := by
  unfold route handleProjectTool handleDatasetTool handleAnnotationTool
  split_ifs
  · repeat' (first
      | exact projectSwitch_good e _ _
      | exact fun s h => h
      | apply steps_bind cachesGood_trans
      | intro _)
  · repeat' (first
      | exact datasetSwitch_good e _ _
      | exact fun s h => h
      | apply steps_bind cachesGood_trans
      | intro _)
  · repeat' (first
      | exact annotationSwitch_good e _ _
      | exact fun s h => h
      | apply steps_bind cachesGood_trans
      | intro _)
  · unfold handleMonitoringTool
    split_ifs <;>
      repeat' (first
        | exact good_of_kept
            (keeps_filterActive ServerState.activeProjects e (fun _ => rfl) _)
            (keeps_filterActive ServerState.activeDatasets e (fun _ => rfl) _)
        | exact fun s h => h
        | apply steps_bind cachesGood_trans
        | intro _)
  · exact good_of_kept (handleQueryTool_keeps_projects e name args)
      (handleQueryTool_keeps_datasets e name args)
  · exact fun s h => h

/-- One tool call keeps the entries of both caches good. -/
theorem callTool_good (e : Env) (request : CallToolRequest) (s : ServerState)
    (h : CachesGood s) : CachesGood (callTool e request s).2 := by
  cases hc : s.labellerrClient with
  | none => rw [callTool_of_no_client e request s hc]; exact h
  | some c =>
    have hclient : s.labellerrClient.isSome = true := by simp [hc]
    rw [callTool_of_client e request s hclient]
    have hroute := route_good e request.name request.args s h
    rcases hr : route e request.name request.args s with ⟨out, s1⟩
    rw [hr] at hroute
    cases out with
    | ok v => exact hroute
    | error t => simpa [onFailure_apply, CachesGood] using hroute


/-- A handler that reads the clock, runs a `switch` that leaves the log
alone, and then pushes a success record: when it returns, the log has gained
exactly the success record of its tool, with a duration. -/
theorem logged_handler_record {x : Eff ServerState JSValue} (e : Env) (name : String)
    (args : Option JSValue) (hx : Keeps ServerState.operationHistory x) (s s1 : ServerState)
    (v : JSValue)
    (h : (do
      let startTime ← now e
      let result ← x
      let timestamp ← now e
      let finished ← now e
      pushHistory (successRecord timestamp name startTime finished args)
      pure result : Eff ServerState JSValue) s = (.ok v, s1)) :
    ∃ timestamp startTime finished, s1.operationHistory
      = s.operationHistory ++ [successRecord timestamp name startTime finished args] := by
  simp only [Eff.bind_apply, now_apply] at h
  have hk := hx { s with ticks := s.ticks + 1 }
  rcases hxs : x { s with ticks := s.ticks + 1 } with ⟨r, s2⟩
  rw [hxs] at h hk
  cases r with
  | error t => simp at h
  | ok w =>
    simp only [pushHistory_apply, Eff.pure_apply, Prod.mk.injEq] at h
    obtain ⟨_, h2⟩ := h
    subst h2
    simp only at hk
    simp only [hk]
    exact ⟨_, _, _, rfl⟩

theorem goodRecord_success (timestamp : Nat) (name : String) (startTime finished : Nat)
    (args : Option JSValue) (c : Category) (hc : categoryOf name = some c)
    (ht : c.timed = true) :
    goodRecord (successRecord timestamp name startTime finished args) :=
  Or.inl ⟨rfl, rfl, rfl, c, hc, ht⟩

theorem goodRecord_failed (timestamp : Nat) (name message : String) :
    goodRecord (failedRecord timestamp name message) :=
  Or.inr ⟨rfl, rfl, rfl, rfl⟩

/-- When the routing returns, the log is unchanged or has gained one good
success record. -/
theorem route_ok_good (e : Env) (name : String) (args : JSValue) (s s1 : ServerState)
    (v : JSValue) (h : route e name args s = (.ok v, s1)) :
    s1.operationHistory = s.operationHistory ∨
    ∃ r, s1.operationHistory = s.operationHistory ++ [r] ∧ goodRecord r := by
  unfold route at h
  split_ifs at h with h1 h2 h3 h4 h5
  · obtain ⟨ts, st, fin, hlog⟩ := logged_handler_record e name (some args)
      (projectSwitch_keeps_history e name args) s s1 v h
    exact Or.inr ⟨_, hlog, goodRecord_success _ _ _ _ _ .projectTools
      (categoryOf_of_startsWith name .projectTools h1) rfl⟩
  · obtain ⟨ts, st, fin, hlog⟩ := logged_handler_record e name none
      (datasetSwitch_keeps_history e name args) s s1 v h
    exact Or.inr ⟨_, hlog, goodRecord_success _ _ _ _ _ .datasetTools
      (categoryOf_of_startsWith name .datasetTools h2) rfl⟩
  · obtain ⟨ts, st, fin, hlog⟩ := logged_handler_record e name none
      (annotationSwitch_keeps_history e name args) s s1 v h
    exact Or.inr ⟨_, hlog, goodRecord_success _ _ _ _ _ .annotationTools
      (categoryOf_of_startsWith name .annotationTools h3) rfl⟩
  · have := handleMonitoringTool_keeps_history e name args s
    rw [h] at this
    exact Or.inl this
  · have := handleQueryTool_keeps_history e name args s
    rw [h] at this
    exact Or.inl this
  · simp at h

/-- One tool call keeps the records of the log good. -/
theorem callTool_logGood (e : Env) (request : CallToolRequest) (s : ServerState)
    (h : LogGood s) : LogGood (callTool e request s).2 := by
  cases hc : s.labellerrClient with
  | none => rw [callTool_of_no_client e request s hc]; exact h
  | some c =>
    have hclient : s.labellerrClient.isSome = true := by simp [hc]
    rw [callTool_of_client e request s hclient]
    rcases hr : route e request.name request.args s with ⟨out, s1⟩
    cases out with
    | ok v =>
      simp only
      rcases route_ok_good e _ _ s s1 v hr with hlog | ⟨r, hlog, hgood⟩
      · unfold LogGood; rw [hlog]; exact h
      · unfold LogGood
        rw [hlog]
        intro r1 hr1
        rcases List.mem_append.mp hr1 with h1 | h1
        · exact h r1 h1
        · rw [List.mem_singleton.mp h1]; exact hgood
    | error t =>
      have hlog := route_error_log e _ _ s s1 t hr
      simp only [onFailure_apply]
      unfold LogGood
      simp only [hlog]
      intro r1 hr1
      rcases List.mem_append.mp hr1 with h1 | h1
      · exact h r1 h1
      · rw [List.mem_singleton.mp h1]; exact goodRecord_failed _ _ _

/-- In every reachable state the cache entries and the log records are as the
server writes them. -/
theorem reachable_good (e : Env) (s : ServerState) (h : Reachable e s) :
    CachesGood s ∧ LogGood s := by
  induction h with
  | start penv =>
    exact ⟨⟨fun _ hp => (by cases hp), fun _ hp => (by cases hp)⟩, fun _ hr => (by cases hr)⟩
  | step op hs ih =>
    cases op with
    | callTool request =>
      exact ⟨callTool_good e request _ ih.1, callTool_logGood e request _ ih.2⟩
    | listResources => simpa [perform, listResources_state] using ih
    | readResource uri => simpa [perform, readResource_state] using ih


/-! ## Timing and statuses of the logged records -/

/-- C25: in the log of every reachable state, a record carries a duration
exactly when it is a success record of a tool named `project_*`, `dataset_*`
or `annotation_*`; a record of a tool named `monitor_*` or `query_*` carries
none, and a failed record carries none. -/
theorem duration_only_for_timed_categories (e : Env) (s : ServerState) (h : Reachable e s)
    (r : OperationRecord) (hr : r ∈ s.operationHistory) :
    (r.duration.isSome = true ↔
      r.status = "success" ∧ (startsWith r.tool "project_" = true ∨
        startsWith r.tool "dataset_" = true ∨ startsWith r.tool "annotation_" = true)) ∧
    (startsWith r.tool "monitor_" = true ∨ startsWith r.tool "query_" = true →
      r.duration = none) ∧
    (r.status = "failed" → r.duration = none) := by
  rcases (reachable_good e s h).2 r hr with ⟨hs, hd, _, c, hc, ht⟩ | ⟨hs, hd, _, _⟩
  · have hstart := startsWith_of_categoryOf r.tool c hc
    refine ⟨⟨fun _ => ⟨hs, ?_⟩, fun _ => hd⟩, ?_, ?_⟩
    · cases c
      · exact Or.inl hstart
      · exact Or.inr (Or.inl hstart)
      · exact Or.inr (Or.inr hstart)
      · cases ht
      · cases ht
    · intro hm
      rcases hm with hm | hm
      · have := categoryOf_of_startsWith r.tool .monitoringTools hm
        rw [hc] at this
        cases this
        cases ht
      · have := categoryOf_of_startsWith r.tool .queryTools hm
        rw [hc] at this
        cases this
        cases ht
    · intro hf
      rw [hs] at hf
      exact absurd hf (by decide)
  · refine ⟨⟨fun hsome => ?_, fun hsucc => ?_⟩, fun _ => hd, fun _ => hd⟩
    · rw [hd] at hsome
      cases hsome
    · rw [hs] at hsucc
      exact absurd hsucc.1 (by decide)

/-- C25 at a concrete input: the record logged by a successful
`project_create` on a fresh server carries a duration. -/
theorem duration_only_for_timed_categories_witness :
    (successRecord 1002 "project_create" 1000 1003
        (some (.obj [("project_name", .str "A")]))).duration.isSome = true ∧
    (successRecord 1002 "project_create" 1000 1003
        (some (.obj [("project_name", .str "A")]))).status = "success" :=
  have h := duration_only_for_timed_categories
    (scriptedEnv [.response 200 (.obj [("response", .obj [("project_id", .str "p1")])])])
    (perform
      (scriptedEnv [.response 200 (.obj [("response", .obj [("project_id", .str "p1")])])])
      (.callTool { name := "project_create", arguments := some [("project_name", .str "A")] })
      readyServer)
    (Reachable.step _ (Reachable.start _))
    (successRecord 1002 "project_create" 1000 1003 (some (.obj [("project_name", .str "A")])))
    (by decide)
  ⟨h.1.2 ⟨rfl, Or.inl (by decide)⟩, (h.1.1 (h.1.2 ⟨rfl, Or.inl (by decide)⟩)).1⟩

/-- C29: in every reachable state, every record of the log has the status
`success` or `failed`, none has the status `in_progress`, and so the test of
`monitor_active_operations` on a record is the test of the 300000 ms window on
its timestamp alone. -/
theorem statuses_success_or_failed (e : Env) (s : ServerState) (h : Reachable e s)
    (r : OperationRecord) (hr : r ∈ s.operationHistory) :
    (r.status = "success" ∨ r.status = "failed") ∧ r.status ≠ "in_progress" ∧
    (∀ t, isActiveAt t r = decide ((r.timestamp : Int) > (t : Int) - 300000)) ∧
    (∀ t, s.operationHistory.filter (isActiveAt t)
      = s.operationHistory.filter (fun op => decide ((op.timestamp : Int) > (t : Int) - 300000)))
    := by
  have hstatus : ∀ r ∈ s.operationHistory,
      (r.status = "success" ∨ r.status = "failed") ∧ r.status ≠ "in_progress" := by
    intro r hr
    rcases (reachable_good e s h).2 r hr with ⟨hs, _⟩ | ⟨hs, _⟩
    · exact ⟨Or.inl hs, by rw [hs]; decide⟩
    · exact ⟨Or.inr hs, by rw [hs]; decide⟩
  have hactive : ∀ r ∈ s.operationHistory, ∀ t,
      isActiveAt t r = decide ((r.timestamp : Int) > (t : Int) - 300000) := by
    intro r hr t
    unfold isActiveAt
    simp [(hstatus r hr).2]
  refine ⟨(hstatus r hr).1, (hstatus r hr).2, hactive r hr, fun t => ?_⟩
  apply List.filter_congr
  intro op hop
  exact hactive op hop t

/-- C29 at a concrete input: the record logged by a failing `project_get` on a
fresh server has the status `failed`. -/
theorem statuses_success_or_failed_witness :
    (failedRecord 1001 "project_get" "API request failed: fetch failed").status = "success" ∨
    (failedRecord 1001 "project_get" "API request failed: fetch failed").status = "failed" :=
  (statuses_success_or_failed (scriptedEnv [])
    (perform (scriptedEnv [])
      (.callTool { name := "project_get", arguments := some [("project_id", .str "p1")] })
      readyServer)
    (Reachable.step _ (Reachable.start _))
    (failedRecord 1001 "project_get" "API request failed: fetch failed")
    (by decide)).1

/-! ## The active operations -/

/-- While the clock reads `t`, the filter of `monitor_active_operations` is
the filter by the window test at `t`, and it reads the clock at most once per
record. -/
theorem filterActive_constant_clock (e : Env) (t : Nat) (log : List OperationRecord)
    (s : ServerState)
    (h : ∀ i, s.ticks ≤ i → i < s.ticks + log.length → e.clock i = t) :
    (filterActive e log s).1 = .ok (log.filter (isActiveAt t)) ∧
    s.ticks ≤ (filterActive e log s).2.ticks ∧
    (filterActive e log s).2.ticks ≤ s.ticks + log.length := by
  induction log generalizing s with
  | nil => exact ⟨rfl, Nat.le_refl _, Nat.le_refl _⟩
  | cons op rest ih =>
    simp only [List.length_cons] at h
    by_cases hp : op.status = "in_progress"
    · have hrest := ih s (fun i h1 h2 => h i h1 (by omega))
      have hkeep : isActive e op s = (.ok true, s) := by
        unfold isActive
        rw [if_pos hp]
        rfl
      have hact : isActiveAt t op = true := by simp [isActiveAt, hp]
      simp only [filterActive, Eff.bind_apply, hkeep]
      rcases hf : filterActive e rest s with ⟨out, s1⟩
      rw [hf] at hrest
      simp only at hrest
      obtain ⟨hout, hlow, hhigh⟩ := hrest
      subst hout
      simp only [Eff.pure_apply, List.filter_cons, hact, if_true, List.length_cons]
      exact ⟨trivial, hlow, by omega⟩
    · have hclock : e.clock s.ticks = t := h s.ticks (Nat.le_refl _) (by omega)
      have hrest := ih { s with ticks := s.ticks + 1 }
        (fun i h1 h2 => h i (by simp only at h1; omega) (by simp only at h2; omega))
      have hkeep : isActive e op s
          = (.ok (decide ((op.timestamp : Int) > (t : Int) - 300000)),
              { s with ticks := s.ticks + 1 }) := by
        unfold isActive
        rw [if_neg hp]
        simp only [Eff.bind_apply, now_apply, Eff.pure_apply, hclock]
      have hact : isActiveAt t op = decide ((op.timestamp : Int) > (t : Int) - 300000) := by
        simp [isActiveAt, hp]
      simp only [filterActive, Eff.bind_apply, hkeep]
      rcases hf : filterActive e rest { s with ticks := s.ticks + 1 } with ⟨out, s1⟩
      rw [hf] at hrest
      simp only at hrest
      obtain ⟨hout, hlow, hhigh⟩ := hrest
      subst hout
      simp only [Eff.pure_apply, List.filter_cons, hact, List.length_cons]
      exact ⟨trivial, by omega, by omega⟩

/-- The routing of the four monitoring tool names. -/
theorem route_monitor (e : Env) (name : String) (args : JSValue)
    (h : categoryOf name = some .monitoringTools) :
    route e name args = handleMonitoringTool e name args := by
  unfold categoryOf at h
  unfold route
  split_ifs at h ⊢ with h1 h2 h3 h4 h5 <;> first | rfl | cases h

/-- C22: while the clock reads `t`, `monitor_active_operations` returns, for
any arguments, as `active_operations` the records of the log, in log order,
that are in progress or stamped later than 300000 ms before `t`, and as
`total_operations` the length of the whole log. -/
theorem active_operations_window (e : Env) (arguments : Option (List (String × JSValue)))
    (s : ServerState) (t : Nat) (hclient : s.labellerrClient.isSome = true)
    (hclock : ∀ i, s.ticks ≤ i → i < s.ticks + s.operationHistory.length → e.clock i = t) :
    (callTool e { name := "monitor_active_operations", arguments := arguments } s).1
      = .ok (.obj [("active_operations",
            .arr ((s.operationHistory.filter (isActiveAt t)).map OperationRecord.toJS)),
          ("total_operations", .nat s.operationHistory.length)]) := by
  rw [callTool_of_client e _ s hclient]
  dsimp only
  rw [route_monitor e "monitor_active_operations" _ (by decide)]
  have hf := (filterActive_constant_clock e t s.operationHistory s hclock).1
  unfold handleMonitoringTool
  rw [if_neg (by decide), if_neg (by decide), if_pos rfl]
  simp only [Eff.bind_apply, getState_apply]
  rcases hx : filterActive e s.operationHistory s with ⟨out, s1⟩
  rw [hx] at hf
  simp only at hf
  subst hf
  rfl

/-- C22 at a concrete input: with the clock at 300002 ms and a log of three
records stamped 1, 2 and 3, only the record stamped 3 is active. -/
theorem active_operations_window_witness :
    (callTool { scriptedEnv [] with clock := fun _ => 300002 }
      { name := "monitor_active_operations", arguments := some [("window", .nat 1)] }
      (serverWithLog 3)).1
      = .ok (.obj [("active_operations", .arr [(failedRecord 3 "demo" "failure").toJS]),
          ("total_operations", .nat 3)]) :=
  active_operations_window { scriptedEnv [] with clock := fun _ => 300002 }
    (some [("window", .nat 1)]) (serverWithLog 3) 300002 (by decide) (fun _ _ _ => rfl)


/-! ## A failed request aborts the call and leaves the caches -/

theorem fails_bind {σ α β : Type} {e : Env} {count : σ → Nat} {x : Eff σ α}
    {g : α → Eff σ β} (hx : AbortsOnFailure e count x)
    (hg : ∀ a, AbortsOnFailure e count (g a)) : AbortsOnFailure e count (x >>= g) := by
  intro s i message h1 h2 h3
  rw [Eff.bind_apply] at h2 ⊢
  have hxs := hx s i message h1
  rcases hr : x s with ⟨r, s1⟩
  rw [hr] at h2 hxs
  cases r with
  | error t =>
    simp only at h2 hxs ⊢
    rw [Except.error.inj (hxs h2 h3)]
  | ok a =>
    simp only at h2 hxs ⊢
    by_cases hlt : i < count s1
    · have := hxs hlt h3
      cases this
    · exact hg a s1 i message (Nat.le_of_not_lt hlt) h2 h3

theorem fails_of_keeps {σ α : Type} {e : Env} {count : σ → Nat} {x : Eff σ α}
    (hx : Keeps count x) : AbortsOnFailure e count x := by
  intro s i message h1 h2 _
  rw [hx s] at h2
  omega

theorem fails_ite {σ α : Type} {e : Env} {count : σ → Nat} {c : Prop}
    [Decidable c] {x y : Eff σ α} (hx : AbortsOnFailure e count x)
    (hy : AbortsOnFailure e count y) :
    AbortsOnFailure e count (if c then x else y) := by
  split_ifs
  · exact hx
  · exact hy

theorem makeRequest_fails (e : Env) : AbortsOnFailure e id (makeRequest e) := by
  intro n i message h1 h2 h3
  have hi : i = n := by
    unfold makeRequest at h2
    simp only [id] at h1 h2
    split at h2
    · simp at h2; omega
    · split_ifs at h2 <;> simp at h2 <;> omega
  subst hi
  unfold makeRequest
  unfold requestFailure at h3
  split at h3
  · next msg heq =>
    simp only [Option.some.injEq] at h3
    simp [heq, h3]
  · next status data heq =>
    split_ifs at h3 with hok
    simp only [Option.some.injEq] at h3
    simp [heq, hok, h3]

theorem uploadFiles_fails (e : Env) (uploadConfig : JSValue) :
    AbortsOnFailure e id (uploadFiles e uploadConfig) := by
  unfold uploadFiles
  repeat' (first
    | exact makeRequest_fails e
    | exact fails_of_keeps (fun _ => rfl)
    | apply fails_bind
    | intro _)

theorem uploadFolder_fails (e : Env) (uploadConfig : JSValue) :
    AbortsOnFailure e id (uploadFolder e uploadConfig) := by
  unfold uploadFolder
  repeat' (first
    | exact uploadFiles_fails e _
    | exact fails_of_keeps (fun _ => rfl)
    | apply fails_bind
    | intro _)

theorem createProject_fails (e : Env) (projectConfig : JSValue) :
    AbortsOnFailure e id (createProject e projectConfig) := by
  unfold createProject
  repeat' (first
    | exact makeRequest_fails e
    | exact uploadFiles_fails e _
    | exact uploadFolder_fails e _
    | exact fails_of_keeps (fun _ => rfl)
    | apply fails_ite
    | apply fails_bind
    | intro _)

theorem getAllProjects_fails (e : Env) : AbortsOnFailure e id (getAllProjects e) := by
  unfold getAllProjects
  repeat' (first
    | exact makeRequest_fails e
    | exact fails_of_keeps (fun _ => rfl)
    | apply fails_bind
    | intro _)

theorem getProjectDetails_fails (e : Env) : AbortsOnFailure e id (getProjectDetails e) := by
  unfold getProjectDetails
  repeat' (first
    | exact makeRequest_fails e
    | exact fails_of_keeps (fun _ => rfl)
    | apply fails_bind
    | intro _)

theorem updateRotationConfig_fails (e : Env) : AbortsOnFailure e id (updateRotationConfig e) := by
  unfold updateRotationConfig
  repeat' (first
    | exact makeRequest_fails e
    | exact fails_of_keeps (fun _ => rfl)
    | apply fails_bind
    | intro _)

theorem createDataset_fails (e : Env) : AbortsOnFailure e id (createDataset e) := by
  unfold createDataset
  repeat' (first
    | exact makeRequest_fails e
    | exact fails_of_keeps (fun _ => rfl)
    | apply fails_bind
    | intro _)

theorem getAllDatasets_fails (e : Env) : AbortsOnFailure e id (getAllDatasets e) := by
  unfold getAllDatasets
  repeat' (first
    | exact makeRequest_fails e
    | exact fails_of_keeps (fun _ => rfl)
    | apply fails_bind
    | intro _)

theorem getDataset_fails (e : Env) : AbortsOnFailure e id (getDataset e) := by
  unfold getDataset
  repeat' (first
    | exact makeRequest_fails e
    | exact fails_of_keeps (fun _ => rfl)
    | apply fails_bind
    | intro _)

theorem uploadPreannotations_fails (e : Env) (annotationConfig : JSValue) :
    AbortsOnFailure e id (uploadPreannotations e annotationConfig) := by
  unfold uploadPreannotations
  repeat' (first
    | exact makeRequest_fails e
    | exact fails_of_keeps (fun _ => rfl)
    | apply fails_bind
    | intro _)

theorem createExport_fails (e : Env) (exportConfig : JSValue) :
    AbortsOnFailure e id (createExport e exportConfig) := by
  unfold createExport
  repeat' (first
    | exact makeRequest_fails e
    | exact fails_of_keeps (fun _ => rfl)
    | apply fails_bind
    | intro _)

theorem checkExportStatus_fails (e : Env) (statusConfig : JSValue) :
    AbortsOnFailure e id (checkExportStatus e statusConfig) := by
  unfold checkExportStatus
  repeat' (first
    | exact makeRequest_fails e
    | exact fails_of_keeps (fun _ => rfl)
    | apply fails_bind
    | intro _)

theorem downloadExport_fails (e : Env) (downloadConfig : JSValue) :
    AbortsOnFailure e id (downloadExport e downloadConfig) := by
  unfold downloadExport
  repeat' (first
    | exact makeRequest_fails e
    | exact fails_of_keeps (fun _ => rfl)
    | apply fails_bind
    | intro _)

theorem uploadPreannotationsAsync_fails (e : Env) (annotationConfig : JSValue) :
    AbortsOnFailure e id (uploadPreannotationsAsync e annotationConfig) := by
  unfold uploadPreannotationsAsync
  repeat' (first
    | exact uploadPreannotations_fails e _
    | exact fails_of_keeps (fun _ => rfl)
    | apply fails_bind
    | intro _)

theorem getProjectProgress_fails (e : Env) (projectId : JSValue) :
    AbortsOnFailure e id (getProjectProgress e projectId) := by
  unfold getProjectProgress
  repeat' (first
    | exact getProjectDetails_fails e
    | exact fails_of_keeps (fun _ => rfl)
    | apply fails_bind
    | intro _)

theorem callClient_fails {α : Type} (e : Env) (m : Eff Nat α)
    (hm : AbortsOnFailure e id m) :
    AbortsOnFailure e ServerState.requests (callClient m) := by
  intro s i message h1 h2 h3
  exact hm s.requests i message h1 h2 h3

theorem projectSwitch_fails (e : Env) (name : String) (args : JSValue) :
    AbortsOnFailure e ServerState.requests (projectSwitch e name args) := by
  unfold projectSwitch
  split_ifs <;>
    repeat' (first
      | exact callClient_fails e _ (createProject_fails e _)
      | exact callClient_fails e _ (getAllProjects_fails e)
      | exact callClient_fails e _ (getProjectDetails_fails e)
      | exact callClient_fails e _ (updateRotationConfig_fails e)
      | exact fails_of_keeps (keeps_iterate _ _ _)
      | exact fails_of_keeps (fun _ => rfl)
      | apply fails_bind
      | intro _)

theorem datasetSwitch_fails (e : Env) (name : String) (args : JSValue) :
    AbortsOnFailure e ServerState.requests (datasetSwitch e name args) := by
  unfold datasetSwitch
  split_ifs <;>
    repeat' (first
      | exact callClient_fails e _ (createDataset_fails e)
      | exact callClient_fails e _ (uploadFiles_fails e _)
      | exact callClient_fails e _ (uploadFolder_fails e _)
      | exact callClient_fails e _ (getAllDatasets_fails e)
      | exact callClient_fails e _ (getDataset_fails e)
      | exact fails_of_keeps (keeps_iterate _ _ _)
      | exact fails_of_keeps (fun _ => rfl)
      | apply fails_bind
      | intro _)

theorem annotationSwitch_fails (e : Env) (name : String) (args : JSValue) :
    AbortsOnFailure e ServerState.requests (annotationSwitch e name args) := by
  unfold annotationSwitch
  split_ifs <;>
    first
      | exact callClient_fails e _ (uploadPreannotations_fails e _)
      | exact callClient_fails e _ (uploadPreannotationsAsync_fails e _)
      | exact callClient_fails e _ (createExport_fails e _)
      | exact callClient_fails e _ (checkExportStatus_fails e _)
      | exact callClient_fails e _ (downloadExport_fails e _)
      | exact fails_of_keeps (fun _ => rfl)

theorem handleProjectTool_fails (e : Env) (name : String) (args : JSValue) :
    AbortsOnFailure e ServerState.requests (handleProjectTool e name args) := by
  unfold handleProjectTool
  repeat' (first
    | exact projectSwitch_fails e _ _
    | exact fails_of_keeps (fun _ => rfl)
    | apply fails_bind
    | intro _)

theorem handleDatasetTool_fails (e : Env) (name : String) (args : JSValue) :
    AbortsOnFailure e ServerState.requests (handleDatasetTool e name args) := by
  unfold handleDatasetTool
  repeat' (first
    | exact datasetSwitch_fails e _ _
    | exact fails_of_keeps (fun _ => rfl)
    | apply fails_bind
    | intro _)

theorem handleAnnotationTool_fails (e : Env) (name : String) (args : JSValue) :
    AbortsOnFailure e ServerState.requests (handleAnnotationTool e name args) := by
  unfold handleAnnotationTool
  repeat' (first
    | exact annotationSwitch_fails e _ _
    | exact fails_of_keeps (fun _ => rfl)
    | apply fails_bind
    | intro _)

theorem handleMonitoringTool_fails (e : Env) (name : String) (args : JSValue) :
    AbortsOnFailure e ServerState.requests (handleMonitoringTool e name args) := by
  unfold handleMonitoringTool
  split_ifs <;>
    repeat' (first
      | exact callClient_fails e _ (getProjectProgress_fails e _)
      | exact callClient_fails e _ (fails_of_keeps (fun _ => rfl))
      | exact fails_of_keeps
          (keeps_filterActive ServerState.requests e (fun _ => rfl) _)
      | exact fails_of_keeps (fun _ => rfl)
      | apply fails_bind
      | intro _)

theorem handleQueryTool_fails (e : Env) (name : String) (args : JSValue) :
    AbortsOnFailure e ServerState.requests (handleQueryTool e name args) := by
  unfold handleQueryTool
  split_ifs <;>
    repeat' (first
      | exact callClient_fails e _ (getProjectDetails_fails e)
      | exact callClient_fails e _ (getDataset_fails e)
      | exact callClient_fails e _ (getAllProjects_fails e)
      | exact fails_of_keeps (fun _ => rfl)
      | apply fails_bind
      | intro _)

theorem route_fails (e : Env) (name : String) (args : JSValue) :
    AbortsOnFailure e ServerState.requests (route e name args) := by
  unfold route
  split_ifs
  · exact handleProjectTool_fails e name args
  · exact handleDatasetTool_fails e name args
  · exact handleAnnotationTool_fails e name args
  · exact handleMonitoringTool_fails e name args
  · exact handleQueryTool_fails e name args
  · exact fails_of_keeps (fun _ => rfl)


theorem noPlain_bind {σ α β : Type} {x : Eff σ α} {g : α → Eff σ β}
    (hx : NoPlainError x) (hg : ∀ a, NoPlainError (g a)) : NoPlainError (x >>= g) := by
  intro s m h
  rw [Eff.bind_apply] at h
  have hxs := hx s m
  rcases hr : x s with ⟨r, s1⟩
  rw [hr] at h hxs
  cases r with
  | error t =>
    simp only at h hxs
    exact hxs (by rw [Except.error.inj h])
  | ok a => exact hg a s1 m h

theorem noPlain_pure {σ α : Type} (a : α) : NoPlainError (pure a : Eff σ α) := by
  intro s m h
  simp at h

theorem noPlain_getProp {σ : Type} (v : JSValue) (k : String) :
    NoPlainError (Eff.lift (getProp v k) : Eff σ JSValue) := by
  intro s m h
  simp only [Eff.lift_apply] at h
  unfold getProp at h
  split at h <;> simp at h

theorem noPlain_now (e : Env) : NoPlainError (now e) := by
  intro s m h
  simp at h

theorem noPlain_pushHistory (r : OperationRecord) : NoPlainError (pushHistory r) := by
  intro s m h
  simp at h

theorem noPlain_iterate {σ : Type} (v : JSValue) (source : String) :
    NoPlainError (iterate v source : Eff σ (List JSValue)) := by
  unfold iterate
  cases elements v
  · intro s m h
    simp at h
  · exact noPlain_pure _

theorem noPlain_setEntry (k v : JSValue) : NoPlainError (setEntry k v) := by
  intro s m h
  simp [setEntry] at h

theorem noPlain_cacheEach (idKey : String) (items : List JSValue) :
    NoPlainError (cacheEach idKey items) := by
  induction items with
  | nil => exact noPlain_pure ()
  | cons x rest ih =>
    unfold cacheEach
    exact noPlain_bind (noPlain_getProp x idKey)
      (fun _ => noPlain_bind (noPlain_setEntry _ _) (fun _ => ih))

theorem noPlain_onProjects {α : Type} (m : Eff JSMap α) (h : NoPlainError m) :
    NoPlainError (onProjects m) :=
  fun s msg hs => h s.activeProjects msg hs

theorem noPlain_onDatasets {α : Type} (m : Eff JSMap α) (h : NoPlainError m) :
    NoPlainError (onDatasets m) :=
  fun s msg hs => h s.activeDatasets msg hs

theorem kept_of_noPlain {α : Type} {x : Eff ServerState α} (h : NoPlainError x) :
    CachesKeptOnPlainError x :=
  fun s m hm => absurd hm (h s m)

theorem kept_of_keeps {α : Type} {x : Eff ServerState α}
    (hp : Keeps ServerState.activeProjects x) (hd : Keeps ServerState.activeDatasets x) :
    CachesKeptOnPlainError x :=
  fun s _ _ => ⟨hp s, hd s⟩

/-- A part that leaves the caches, followed by a part that leaves them when
it throws an `Error`. -/
theorem kept_bind_keeps {α β : Type} {x : Eff ServerState α} {g : α → Eff ServerState β}
    (hp : Keeps ServerState.activeProjects x) (hd : Keeps ServerState.activeDatasets x)
    (hg : ∀ a, CachesKeptOnPlainError (g a)) : CachesKeptOnPlainError (x >>= g) := by
  intro s m h
  rw [Eff.bind_apply] at h ⊢
  have hps := hp s
  have hds := hd s
  rcases hr : x s with ⟨r, s1⟩
  rw [hr] at h hps hds
  cases r with
  | error t => exact ⟨hps, hds⟩
  | ok a =>
    simp only at h hps hds ⊢
    have := hg a s1 m h
    rw [this.1, this.2]
    exact ⟨hps, hds⟩

/-- A part that leaves the caches when it throws an `Error`, followed by a
part that throws no `Error`. -/
theorem kept_bind_noPlain {α β : Type} {x : Eff ServerState α} {g : α → Eff ServerState β}
    (hx : CachesKeptOnPlainError x) (hg : ∀ a, NoPlainError (g a)) :
    CachesKeptOnPlainError (x >>= g) := by
  intro s m h
  rw [Eff.bind_apply] at h ⊢
  have hxs := hx s m
  rcases hr : x s with ⟨r, s1⟩
  rw [hr] at h hxs
  cases r with
  | error t =>
    simp only at h hxs ⊢
    exact hxs (by rw [Except.error.inj h])
  | ok a => exact absurd h (hg a s1 m)

theorem projectSwitch_kept (e : Env) (name : String) (args : JSValue) :
    CachesKeptOnPlainError (projectSwitch e name args) := by
  unfold projectSwitch
  split_ifs
  · apply kept_bind_keeps (fun _ => rfl) (fun _ => rfl)
    intro result
    apply kept_of_noPlain
    repeat' (first
      | exact noPlain_getProp _ _
      | exact noPlain_now e
      | exact noPlain_onProjects _ (noPlain_setEntry _ _)
      | exact noPlain_pure _
      | apply noPlain_bind
      | intro _)
  · apply kept_bind_keeps (fun _ => rfl) (fun _ => rfl)
    intro result
    apply kept_of_noPlain
    repeat' (first
      | exact noPlain_getProp _ _
      | exact noPlain_iterate _ _
      | exact noPlain_onProjects _ (noPlain_cacheEach _ _)
      | exact noPlain_pure _
      | apply noPlain_bind
      | intro _)
  · exact kept_bind_keeps (fun _ => rfl) (fun _ => rfl)
      (fun _ => kept_of_keeps (fun _ => rfl) (fun _ => rfl))
  · exact kept_bind_keeps (fun _ => rfl) (fun _ => rfl)
      (fun _ => kept_of_keeps (fun _ => rfl) (fun _ => rfl))
  · exact kept_of_keeps (fun _ => rfl) (fun _ => rfl)

theorem datasetSwitch_kept (e : Env) (name : String) (args : JSValue) :
    CachesKeptOnPlainError (datasetSwitch e name args) := by
  unfold datasetSwitch
  split_ifs
  · apply kept_bind_keeps (fun _ => rfl) (fun _ => rfl)
    intro result
    apply kept_of_noPlain
    repeat' (first
      | exact noPlain_getProp _ _
      | exact noPlain_now e
      | exact noPlain_onDatasets _ (noPlain_setEntry _ _)
      | exact noPlain_pure _
      | apply noPlain_bind
      | intro _)
  · exact kept_of_keeps (fun _ => rfl) (fun _ => rfl)
  · exact kept_of_keeps (fun _ => rfl) (fun _ => rfl)
  · apply kept_bind_keeps (fun _ => rfl) (fun _ => rfl)
    intro _
    apply kept_bind_keeps (fun _ => rfl) (fun _ => rfl)
    intro result
    apply kept_of_noPlain
    repeat' (first
      | exact noPlain_getProp _ _
      | exact noPlain_iterate _ _
      | exact noPlain_onDatasets _ (noPlain_cacheEach _ _)
      | exact noPlain_pure _
      | apply noPlain_bind
      | intro _)
  · exact kept_bind_keeps (fun _ => rfl) (fun _ => rfl)
      (fun _ => kept_of_keeps (fun _ => rfl) (fun _ => rfl))
  · exact kept_of_keeps (fun _ => rfl) (fun _ => rfl)

theorem annotationSwitch_kept (e : Env) (name : String) (args : JSValue) :
    CachesKeptOnPlainError (annotationSwitch e name args) := by
  unfold annotationSwitch
  split_ifs <;> exact kept_of_keeps (fun _ => rfl) (fun _ => rfl)

theorem handleMonitoringTool_keeps_projects (e : Env) (name : String) (args : JSValue) :
    Keeps ServerState.activeProjects (handleMonitoringTool e name args) := by
  unfold handleMonitoringTool
  split_ifs <;>
    repeat' (first
      | exact keeps_filterActive ServerState.activeProjects e (fun _ => rfl) _
      | exact fun _ => rfl
      | apply keeps_bind
      | intro _)

theorem handleMonitoringTool_keeps_datasets (e : Env) (name : String) (args : JSValue) :
    Keeps ServerState.activeDatasets (handleMonitoringTool e name args) := by
  unfold handleMonitoringTool
  split_ifs <;>
    repeat' (first
      | exact keeps_filterActive ServerState.activeDatasets e (fun _ => rfl) _
      | exact fun _ => rfl
      | apply keeps_bind
      | intro _)

/-- The routing leaves both caches as they were when it throws an `Error`. -/
theorem route_kept (e : Env) (name : String) (args : JSValue) :
    CachesKeptOnPlainError (route e name args) := by
  unfold route handleProjectTool handleDatasetTool handleAnnotationTool
  split_ifs
  · apply kept_bind_keeps (fun _ => rfl) (fun _ => rfl)
    intro _
    apply kept_bind_noPlain (projectSwitch_kept e _ _)
    intro _
    exact noPlain_bind (noPlain_now e) (fun _ => noPlain_bind (noPlain_now e)
      (fun _ => noPlain_bind (noPlain_pushHistory _) (fun _ => noPlain_pure _)))
  · apply kept_bind_keeps (fun _ => rfl) (fun _ => rfl)
    intro _
    apply kept_bind_noPlain (datasetSwitch_kept e _ _)
    intro _
    exact noPlain_bind (noPlain_now e) (fun _ => noPlain_bind (noPlain_now e)
      (fun _ => noPlain_bind (noPlain_pushHistory _) (fun _ => noPlain_pure _)))
  · apply kept_bind_keeps (fun _ => rfl) (fun _ => rfl)
    intro _
    apply kept_bind_noPlain (annotationSwitch_kept e _ _)
    intro _
    exact noPlain_bind (noPlain_now e) (fun _ => noPlain_bind (noPlain_now e)
      (fun _ => noPlain_bind (noPlain_pushHistory _) (fun _ => noPlain_pure _)))
  · exact kept_of_keeps (handleMonitoringTool_keeps_projects e name args)
      (handleMonitoringTool_keeps_datasets e name args)
  · exact kept_of_keeps (handleQueryTool_keeps_projects e name args)
      (handleQueryTool_keeps_datasets e name args)
  · exact kept_of_keeps (fun _ => rfl) (fun _ => rfl)

/-- C28: when a backend request issued by a tool call fails, by a network
failure or by a status that is not ok, the project cache and the dataset cache
after the call are the caches before it, and the log has gained exactly one
record: the failed record of the called tool, carrying the message of the
failed request. -/
theorem failed_request_keeps_caches (e : Env) (request : CallToolRequest) (s : ServerState)
    (i : Nat) (message : String) (hfrom : s.requests ≤ i)
    (hto : i < (callTool e request s).2.requests)
    (hfail : requestFailure e (e.http i) = some message) :
    (callTool e request s).2.activeProjects = s.activeProjects ∧
    (callTool e request s).2.activeDatasets = s.activeDatasets ∧
    ∃ timestamp, (callTool e request s).2.operationHistory
      = s.operationHistory ++ [failedRecord timestamp request.name message] := by
  cases hc : s.labellerrClient with
  | none =>
    rw [callTool_of_no_client e request s hc] at hto
    simp only at hto
    omega
  | some c =>
    have hclient : s.labellerrClient.isSome = true := by simp [hc]
    rw [callTool_of_client e request s hclient] at hto ⊢
    have habort := route_fails e request.name request.args s i message hfrom
    have hkept := route_kept e request.name request.args s message
    have hlog := route_error_log e request.name request.args s
    rcases hr : route e request.name request.args s with ⟨out, s1⟩
    rw [hr] at hto habort hkept
    cases out with
    | ok v =>
      simp only at hto habort
      cases habort hto hfail
    | error t =>
      simp only [onFailure_apply] at hto habort hkept ⊢
      have ht : t = .error message := Except.error.inj (habort hto hfail)
      subst ht
      obtain ⟨hp, hd⟩ := hkept rfl
      exact ⟨hp, hd, _, by rw [hlog s1 _ hr]; rfl⟩

/-- C28 at a concrete input: a `project_list` call whose request is answered
with status 500 after a project was created under `p1`. -/
theorem failed_request_keeps_caches_witness :
    (callTool
      (scriptedEnv [.response 200 (.obj [("response", .obj [("project_id", .str "p1")])]),
        .response 500 (.obj [("message", .str "down")])])
      { name := "project_list", arguments := some [] }
      (callTool
        (scriptedEnv [.response 200 (.obj [("response", .obj [("project_id", .str "p1")])]),
          .response 500 (.obj [("message", .str "down")])])
        { name := "project_create", arguments := some [("project_name", .str "A")] }
        readyServer).2).2.activeProjects
      = (callTool
        (scriptedEnv [.response 200 (.obj [("response", .obj [("project_id", .str "p1")])]),
          .response 500 (.obj [("message", .str "down")])])
        { name := "project_create", arguments := some [("project_name", .str "A")] }
        readyServer).2.activeProjects :=
  (failed_request_keeps_caches
    (scriptedEnv [.response 200 (.obj [("response", .obj [("project_id", .str "p1")])]),
      .response 500 (.obj [("message", .str "down")])])
    { name := "project_list", arguments := some [] }
    (callTool
      (scriptedEnv [.response 200 (.obj [("response", .obj [("project_id", .str "p1")])]),
        .response 500 (.obj [("message", .str "down")])])
      { name := "project_create", arguments := some [("project_name", .str "A")] }
      readyServer).2
    1 "API request failed: down" (by decide) (by decide) (by decide)).1


/-! ## Resources -/

/-- A key that is not in the map is not found by `get`. -/
theorem mapGet_none_of_not_mem (m : JSMap) (k : JSValue) (h : k ∉ mapKeys m) :
    mapGet m k = none := by
  induction m with
  | nil => rfl
  | cons p rest ih =>
    obtain ⟨k1, v1⟩ := p
    simp only [mapKeys, List.map_cons, List.mem_cons, not_or] at h
    unfold mapGet
    split_ifs with hk
    · exact absurd (sameValueZero_eq hk).symm h.1
    · exact ih h.2

theorem getProp_ok_of_not_nullish (v : JSValue) (k : String) (h : v.nullish = false) :
    ∃ w, getProp v k = .ok w := by
  cases v <;> first | exact ⟨_, rfl⟩ | cases h

/-- A loop over a map whose callback returns for every entry returns one
resource per entry, in the order of the entries. -/
theorem collect_ok (f : JSValue × JSValue → Except Thrown Resource) (m : JSMap)
    (h : ∀ entry ∈ m, ∃ r, f entry = .ok r) :
    ∃ rs, collect f m = .ok rs ∧ List.Forall₂ (fun entry r => f entry = .ok r) m rs := by
  induction m with
  | nil => exact ⟨[], rfl, List.Forall₂.nil⟩
  | cons entry rest ih =>
    obtain ⟨r, hr⟩ := h entry (List.mem_cons_self _ _)
    obtain ⟨rs, hrs, hall⟩ := ih (fun x hx => h x (List.mem_cons_of_mem _ hx))
    refine ⟨r :: rs, ?_, List.Forall₂.cons hr hall⟩
    unfold collect
    rw [hr, hrs]
    rfl

theorem projectResource_uri (e : Env) (entry : JSValue × JSValue) (r : Resource)
    (h : projectResource e entry = .ok r) :
    r.uri = "labellerr://project/" ++ toStringJS e entry.1 := by
  unfold projectResource at h
  cases h1 : getProp entry.2 "name" with
  | error t => rw [h1] at h; cases h
  | ok name =>
    cases h2 : getProp entry.2 "dataType" with
    | error t => rw [h1, h2] at h; cases h
    | ok dataType =>
      rw [h1, h2] at h
      cases h
      rfl

theorem datasetResource_uri (e : Env) (entry : JSValue × JSValue) (r : Resource)
    (h : datasetResource e entry = .ok r) :
    r.uri = "labellerr://dataset/" ++ toStringJS e entry.1 := by
  unfold datasetResource at h
  cases h1 : getProp entry.2 "name" with
  | error t => rw [h1] at h; cases h
  | ok name =>
    rw [h1] at h
    cases h
    rfl

theorem projectResource_ok (e : Env) (entry : JSValue × JSValue)
    (h : entry.2.nullish = false) : ∃ r, projectResource e entry = .ok r := by
  obtain ⟨name, h1⟩ := getProp_ok_of_not_nullish entry.2 "name" h
  obtain ⟨dataType, h2⟩ := getProp_ok_of_not_nullish entry.2 "dataType" h
  unfold projectResource
  rw [h1, h2]
  exact ⟨_, rfl⟩

theorem datasetResource_ok (e : Env) (entry : JSValue × JSValue)
    (h : entry.2.nullish = false) : ∃ r, datasetResource e entry = .ok r := by
  obtain ⟨name, h1⟩ := getProp_ok_of_not_nullish entry.2 "name" h
  unfold datasetResource
  rw [h1]
  exact ⟨_, rfl⟩

theorem not_nullish_of_goodEntry (entry : JSValue × JSValue) (h : goodEntry entry = true) :
    entry.2.nullish = false := by
  unfold goodEntry at h
  simp only [Bool.and_eq_true, Bool.not_eq_true'] at h
  exact h.1

theorem uris_of_forall₂ (f : JSValue × JSValue → Except Thrown Resource)
    (g : JSValue → String) (huri : ∀ entry r, f entry = .ok r → r.uri = g entry.1)
    (m : JSMap) (rs : List Resource)
    (h : List.Forall₂ (fun entry r => f entry = .ok r) m rs) :
    rs.map Resource.uri = (mapKeys m).map g := by
  induction h with
  | nil => rfl
  | cons hr _ ih =>
    simp only [List.map_cons, mapKeys] at ih ⊢
    rw [huri _ _ hr, ih]

/-- What `resources/list` returns when the cached records are not `undefined`
or `null`: one resource per cached project, in the order of the cache, then
one per cached dataset, then the history resource. -/
theorem listResources_result (e : Env) (s : ServerState) (h : CachesGood s) :
    ∃ projects datasets,
      (listResources e s).1 = .ok (projects ++ datasets ++ [historyResource]) ∧
      List.Forall₂ (fun entry r => projectResource e entry = .ok r) s.activeProjects projects ∧
      List.Forall₂ (fun entry r => datasetResource e entry = .ok r) s.activeDatasets datasets ∧
      projects.map Resource.uri
        = (mapKeys s.activeProjects).map (fun k => "labellerr://project/" ++ toStringJS e k) ∧
      datasets.map Resource.uri
        = (mapKeys s.activeDatasets).map (fun k => "labellerr://dataset/" ++ toStringJS e k) := by
  obtain ⟨projects, hp, hpall⟩ := collect_ok (projectResource e) s.activeProjects
    (fun entry hentry => projectResource_ok e entry (not_nullish_of_goodEntry entry (h.1 entry hentry)))
  obtain ⟨datasets, hd, hdall⟩ := collect_ok (datasetResource e) s.activeDatasets
    (fun entry hentry => datasetResource_ok e entry (not_nullish_of_goodEntry entry (h.2 entry hentry)))
  refine ⟨projects, datasets, ?_, hpall, hdall,
    uris_of_forall₂ _ _ (projectResource_uri e) _ _ hpall,
    uris_of_forall₂ _ _ (datasetResource_uri e) _ _ hdall⟩
  unfold listResources
  simp only [Eff.bind_apply, getState_apply, Eff.lift_apply, hp, hd, Eff.pure_apply]

/-- C17: in every reachable state, with P cached projects and D cached
datasets, `resources/list` returns P + D + 1 resources: one per cached
project, in the insertion order of the cache, then one per cached dataset, in
the insertion order of the cache, and last the history resource
`labellerr://history`. -/
theorem list_resources_shape (e : Env) (s : ServerState) (h : Reachable e s) :
    ∃ projects datasets,
      (listResources e s).1 = .ok (projects ++ datasets ++ [historyResource]) ∧
      List.Forall₂ (fun entry r => projectResource e entry = .ok r) s.activeProjects projects ∧
      List.Forall₂ (fun entry r => datasetResource e entry = .ok r) s.activeDatasets datasets ∧
      (projects ++ datasets ++ [historyResource]).length
        = s.activeProjects.length + s.activeDatasets.length + 1 ∧
      historyResource.uri = "labellerr://history" := by
  obtain ⟨projects, datasets, hlist, hp, hd, _, _⟩ :=
    listResources_result e s (reachable_good e s h).1
  refine ⟨projects, datasets, hlist, hp, hd, ?_, rfl⟩
  simp only [List.length_append, List.length_singleton, hp.length_eq, hd.length_eq]

/-- C17 at a concrete input: after one `project_create` and one
`dataset_create` on a fresh server the list is the project, the dataset and
the history resource. -/
theorem list_resources_shape_witness :
    (listResources
      (scriptedEnv [.response 200 (.obj [("response", .obj [("project_id", .str "p1")])]),
        .response 200 (.obj [("response", .obj [("dataset_id", .str "d1")])])])
      (perform
        (scriptedEnv [.response 200 (.obj [("response", .obj [("project_id", .str "p1")])]),
          .response 200 (.obj [("response", .obj [("dataset_id", .str "d1")])])])
        (.callTool { name := "dataset_create", arguments := some [("dataset_name", .str "B")] })
        (perform
          (scriptedEnv [.response 200 (.obj [("response", .obj [("project_id", .str "p1")])]),
            .response 200 (.obj [("response", .obj [("dataset_id", .str "d1")])])])
          (.callTool { name := "project_create",
                       arguments := some [("project_name", .str "A"), ("data_type", .str "image")] })
          readyServer))).1
      = .ok [{ uri := "labellerr://project/p1", name := .str "A", mimeType := "application/json",
               description := "Project: A (image)" },
             { uri := "labellerr://dataset/d1", name := .str "B", mimeType := "application/json",
               description := "Dataset: B" },
             historyResource] ∧
    ∃ projects datasets,
      (listResources
        (scriptedEnv [.response 200 (.obj [("response", .obj [("project_id", .str "p1")])]),
          .response 200 (.obj [("response", .obj [("dataset_id", .str "d1")])])])
        (perform
          (scriptedEnv [.response 200 (.obj [("response", .obj [("project_id", .str "p1")])]),
            .response 200 (.obj [("response", .obj [("dataset_id", .str "d1")])])])
          (.callTool { name := "dataset_create", arguments := some [("dataset_name", .str "B")] })
          (perform
            (scriptedEnv [.response 200 (.obj [("response", .obj [("project_id", .str "p1")])]),
              .response 200 (.obj [("response", .obj [("dataset_id", .str "d1")])])])
            (.callTool { name := "project_create",
                         arguments := some [("project_name", .str "A"), ("data_type", .str "image")] })
            readyServer))).1
        = .ok (projects ++ datasets ++ [historyResource]) ∧
      projects.length = 1 ∧ datasets.length = 1 := by
  refine ⟨by decide, ?_⟩
  obtain ⟨projects, datasets, hlist, hp, hd, _, _⟩ := list_resources_shape
    (scriptedEnv [.response 200 (.obj [("response", .obj [("project_id", .str "p1")])]),
      .response 200 (.obj [("response", .obj [("dataset_id", .str "d1")])])])
    _ (Reachable.step
        (.callTool { name := "dataset_create", arguments := some [("dataset_name", .str "B")] })
        (Reachable.step
          (.callTool { name := "project_create",
                       arguments := some [("project_name", .str "A"), ("data_type", .str "image")] })
          (Reachable.start _)))
  exact ⟨projects, datasets, hlist, hp.length_eq.symm.trans (by decide),
    hd.length_eq.symm.trans (by decide)⟩

/-- The caches after a tool call whose routing leaves them. -/
theorem callTool_caches_of_route (e : Env) (request : CallToolRequest) (s : ServerState)
    (hp : Keeps ServerState.activeProjects (route e request.name request.args))
    (hd : Keeps ServerState.activeDatasets (route e request.name request.args)) :
    (callTool e request s).2.activeProjects = s.activeProjects ∧
    (callTool e request s).2.activeDatasets = s.activeDatasets := by
  cases hc : s.labellerrClient with
  | none => rw [callTool_of_no_client e _ s hc]; exact ⟨rfl, rfl⟩
  | some c =>
    have hclient : s.labellerrClient.isSome = true := by simp [hc]
    rw [callTool_of_client e _ s hclient]
    have hps := hp s
    have hds := hd s
    rcases hr : route e request.name request.args s with ⟨out, s1⟩
    rw [hr] at hps hds
    cases out with
    | ok v => exact ⟨hps, hds⟩
    | error t => simpa [onFailure_apply] using And.intro hps hds

/-- The tools `project_get` and `dataset_get` leave both caches as they were. -/
theorem get_keeps_caches (e : Env) (arguments : Option (List (String × JSValue)))
    (s : ServerState) :
    ((callTool e { name := "project_get", arguments := arguments } s).2.activeProjects
        = s.activeProjects ∧
      (callTool e { name := "project_get", arguments := arguments } s).2.activeDatasets
        = s.activeDatasets) ∧
    ((callTool e { name := "dataset_get", arguments := arguments } s).2.activeProjects
        = s.activeProjects ∧
      (callTool e { name := "dataset_get", arguments := arguments } s).2.activeDatasets
        = s.activeDatasets) := by
  constructor
  · apply callTool_caches_of_route <;>
    · dsimp only
      unfold route
      rw [if_pos (by decide)]
      unfold handleProjectTool projectSwitch
      rw [if_neg (by decide), if_neg (by decide), if_pos rfl]
      repeat' (first
        | exact fun _ => rfl
        | apply keeps_bind
        | intro _)
  · apply callTool_caches_of_route <;>
    · dsimp only
      unfold route
      rw [if_neg (by decide), if_pos (by decide)]
      unfold handleDatasetTool datasetSwitch
      rw [if_neg (by decide), if_neg (by decide), if_neg (by decide), if_neg (by decide),
        if_pos rfl]
      repeat' (first
        | exact fun _ => rfl
        | apply keeps_bind
        | intro _)

/-- What `resources/read` answers for a URI other than the history URI whose
id is not a key of the cache named by its kind. -/
theorem readResource_not_found (uri : String) (s : ServerState)
    (hne : uri ≠ "labellerr://history")
    (hmiss : ∀ kind id, parseResourceUri uri = some (kind, id) →
      (kind = "project" → JSValue.str id ∉ mapKeys s.activeProjects) ∧
      (kind = "dataset" → JSValue.str id ∉ mapKeys s.activeDatasets)) :
    (readResource uri s).1
      = .error (.mcp .InvalidRequest ("Resource not found: " ++ uri)) := by
  unfold readResource
  rw [if_neg hne]
  cases hparse : parseResourceUri uri with
  | none => rfl
  | some p =>
    obtain ⟨kind, id⟩ := p
    have hm := hmiss kind id hparse
    simp only
    split_ifs with h1 h2
    · simp [cachedRecord, mapGet_none_of_not_mem _ _ (hm.1 h1)]
    · simp [cachedRecord, mapGet_none_of_not_mem _ _ (hm.2 h2)]
    · rfl

/-- C16: for every URI other than `labellerr://history` whose id is not a key
of the cache named by its kind, a URI of an unknown kind and a URI that does
not parse included, `resources/read` fails with `InvalidRequest` and the
message `Resource not found: <uri>`; it still does after a `project_get` or a
`dataset_get` call, which cache nothing. -/
theorem read_uncached_not_found (e : Env) (uri : String) (s : ServerState)
    (arguments : Option (List (String × JSValue)))
    (hne : uri ≠ "labellerr://history")
    (hmiss : ∀ kind id, parseResourceUri uri = some (kind, id) →
      (kind = "project" → JSValue.str id ∉ mapKeys s.activeProjects) ∧
      (kind = "dataset" → JSValue.str id ∉ mapKeys s.activeDatasets)) :
    (readResource uri s).1
      = .error (.mcp .InvalidRequest ("Resource not found: " ++ uri)) ∧
    (readResource uri (callTool e { name := "project_get", arguments := arguments } s).2).1
      = .error (.mcp .InvalidRequest ("Resource not found: " ++ uri)) ∧
    (readResource uri (callTool e { name := "dataset_get", arguments := arguments } s).2).1
      = .error (.mcp .InvalidRequest ("Resource not found: " ++ uri)) := by
  obtain ⟨⟨hp1, hd1⟩, hp2, hd2⟩ := get_keeps_caches e arguments s
  refine ⟨readResource_not_found uri s hne hmiss, ?_, ?_⟩
  · apply readResource_not_found uri _ hne
    rw [hp1, hd1]
    exact hmiss
  · apply readResource_not_found uri _ hne
    rw [hp2, hd2]
    exact hmiss

/-- C16 at a concrete input: the project `p1` fetched by a successful
`project_get` on a fresh server is not found by `resources/read`. -/
theorem read_uncached_not_found_witness :
    (∃ v, (callTool
      (scriptedEnv [.response 200 (.obj [("response", .obj [("project_id", .str "p1")])])])
      { name := "project_get", arguments := some [("project_id", .str "p1")] }
      readyServer).1 = .ok v) ∧
    (readResource "labellerr://project/p1" (callTool
      (scriptedEnv [.response 200 (.obj [("response", .obj [("project_id", .str "p1")])])])
      { name := "project_get", arguments := some [("project_id", .str "p1")] }
      readyServer).2).1
      = .error (.mcp .InvalidRequest ("Resource not found: " ++ "labellerr://project/p1")) :=
  ⟨⟨_, rfl⟩, (read_uncached_not_found
    (scriptedEnv [.response 200 (.obj [("response", .obj [("project_id", .str "p1")])])])
    "labellerr://project/p1" readyServer (some [("project_id", .str "p1")]) (by decide)
    (fun _ _ _ => ⟨fun _ => List.not_mem_nil _, fun _ => List.not_mem_nil _⟩)).2.1⟩

end Labellerr
